import Mathlib

/-!
# Math-Engine: the symbolic differentiation and integration engines

A shallow embedding of `src/engine/partial_derivative.cpp`,
`src/engine/implicit_differentiation.cpp` and
`src/engine/multivariate_integrator.cpp`, together with theorems about the
trees and step logs they produce.

Conventions of the embedding.

* A finite `double` is the rational number it denotes. The engines compute
  `n - 1` and `n + 1` on literals in `double` arithmetic: the exact result is
  rounded to the nearest binary64 value, ties to even (`doubleSub`,
  `doubleAdd`). The comparison `n == -1` is exact.
* The numeric modules (Fourier series, matrices, eigenvalues, statistics) are
  embedded over an arbitrary ordered field, in exact arithmetic.
* `std::unique_ptr<ASTNode>` is a value of the inductive type `ASTNode`;
  `clone()` is a deep copy.
* The private `steps` vector of an engine is modelled by the list of entries
  that a call appends, in the order of the `push_back` calls. A top-level
  entry point clears the vector first, so the list it returns is the whole
  log after the call.
* `ASTNode::toString` belongs to the expression-tree collaborator; the
  engines take it as the parameter `ts`.
-/

namespace MathEngine

/-! ## The expression tree (collaborator `ast.h`) -/

/-- Modelled from the spec: the binary operators of `ast.h` (section 3,
`op ∈ {ADD, SUB, MUL, DIV, POW}`). -/
inductive BinaryOp
  | ADD | SUB | MUL | DIV | POW
  deriving DecidableEq

/-- Modelled from the spec: the unary functions of `ast.h` (section 3,
`func ∈ {SIN, COS, TAN, LN, EXP, SQRT}`). -/
inductive UnaryFunc
  | SIN | COS | TAN | LN | EXP | SQRT
  deriving DecidableEq

/-- Modelled from the spec: the discriminator `NodeType` of `ast.h`. -/
inductive NodeType
  | NUMBER | VARIABLE | BINARY_OP | UNARY_FUNC
  deriving DecidableEq

/-- Modelled from the spec: the expression node of `ast.h` (section 3), a
tagged variant over `NumberNode`, `VariableNode`, `BinaryOpNode` and
`UnaryFuncNode`. -/
inductive ASTNode
  | NumberNode (value : ℚ)
  | VariableNode (name : String)
  | BinaryOpNode (op : BinaryOp) (left right : ASTNode)
  | UnaryFuncNode (func : UnaryFunc) (arg : ASTNode)
  deriving DecidableEq

namespace ASTNode

/-- Modelled from the spec: the `type` discriminator field of a node of `ast.h`. -/
def type : ASTNode → NodeType
  | NumberNode _ => NodeType.NUMBER
  | VariableNode _ => NodeType.VARIABLE
  | BinaryOpNode _ _ _ => NodeType.BINARY_OP
  | UnaryFuncNode _ _ => NodeType.UNARY_FUNC

/-- Modelled from the spec: `clone()` of `ast.h`, a full independent deep copy
of the subtree. -/
def clone : ASTNode → ASTNode
  | NumberNode v => NumberNode v
  | VariableNode n => VariableNode n
  | BinaryOpNode op l r => BinaryOpNode op (clone l) (clone r)
  | UnaryFuncNode f a => UnaryFuncNode f (clone a)

/-- Modelled from the spec: `evaluate` of `ast.h` under the standard real
semantics of the tree, at an assignment `env` of the variables. Every operator
is total: division is the field division of `ℝ`, `POW` is the real power
`Real.rpow`, `LN` is `Real.log` and `SQRT` is `Real.sqrt`. -/
noncomputable def eval (env : String → ℝ) : ASTNode → ℝ
  | NumberNode v => (v : ℝ)
  | VariableNode n => env n
  | BinaryOpNode BinaryOp.ADD l r => eval env l + eval env r
  | BinaryOpNode BinaryOp.SUB l r => eval env l - eval env r
  | BinaryOpNode BinaryOp.MUL l r => eval env l * eval env r
  | BinaryOpNode BinaryOp.DIV l r => eval env l / eval env r
  | BinaryOpNode BinaryOp.POW l r => Real.rpow (eval env l) (eval env r)
  | UnaryFuncNode UnaryFunc.SIN a => Real.sin (eval env a)
  | UnaryFuncNode UnaryFunc.COS a => Real.cos (eval env a)
  | UnaryFuncNode UnaryFunc.TAN a => Real.tan (eval env a)
  | UnaryFuncNode UnaryFunc.LN a => Real.log (eval env a)
  | UnaryFuncNode UnaryFunc.EXP a => Real.exp (eval env a)
  | UnaryFuncNode UnaryFunc.SQRT a => Real.sqrt (eval env a)

/-- The number of nodes of a tree. -/
def size : ASTNode → ℕ
  | NumberNode _ => 1
  | VariableNode _ => 1
  | BinaryOpNode _ l r => size l + size r + 1
  | UnaryFuncNode _ a => size a + 1

/-- The direct subtrees of a node: `left` and `right` of a `BinaryOpNode`,
`arg` of a `UnaryFuncNode`. -/
def children : ASTNode → List ASTNode
  | NumberNode _ => []
  | VariableNode _ => []
  | BinaryOpNode _ l r => [l, r]
  | UnaryFuncNode _ a => [a]

/-- The depth of a tree: the number of edges on its longest branch. -/
def depth : ASTNode → ℕ
  | NumberNode _ => 0
  | VariableNode _ => 0
  | BinaryOpNode _ l r => max (depth l) (depth r) + 1
  | UnaryFuncNode _ a => depth a + 1

end ASTNode

open ASTNode

/-! ## Arithmetic of `double` and the conversion to `int` -/

/-- The integer nearest to `q`, a tie going to the even neighbour. -/
def roundHalfEven (q : ℚ) : ℤ :=
  if q - ⌊q⌋ < 1 / 2 then ⌊q⌋
  else if 1 / 2 < q - ⌊q⌋ then ⌊q⌋ + 1
  else if ⌊q⌋ % 2 = 0 then ⌊q⌋
  else ⌊q⌋ + 1

/-- The binary64 value nearest to `q` (IEEE 754 round to nearest, ties to
even): a significand of 53 bits, scaled by a power of two that is at least
`2 ^ (-1074)`. Overflow to infinity is not represented; it cannot arise from
adding or subtracting `1` to a finite `double`. -/
def roundDouble (q : ℚ) : ℚ :=
  if q = 0 then 0
  else
    let e : ℤ := max (Int.log 2 |q| - 52) (-1074)
    (roundHalfEven (q / 2 ^ e) : ℚ) * 2 ^ e

/-- The operator `-` of `double`. -/
def doubleSub (a b : ℚ) : ℚ := roundDouble (a - b)

/-- The operator `+` of `double`. -/
def doubleAdd (a b : ℚ) : ℚ := roundDouble (a + b)

/-- A rational number is the value of a finite `double`. -/
def isDouble (q : ℚ) : Bool :=
  decide (roundDouble q = q ∧ |q| < 2 ^ 1024)

/-- The conversion `(int)value` of a `double` to a 32-bit `int`: truncation
toward zero when the truncated value fits. Outside that range the C++
conversion is undefined; the value given there, `INT_MIN`, is the one that the
conversion instruction of x86-64 returns. -/
def intOfDouble (value : ℚ) : ℤ :=
  if -(2 ^ 31) ≤ Int.tdiv value.num (value.den : ℤ)
      ∧ Int.tdiv value.num (value.den : ℤ) < 2 ^ 31 then
    Int.tdiv value.num (value.den : ℤ)
  else -(2 ^ 31)

/-- The text of `std::to_string((int)value)`. -/
def intText (value : ℚ) : String :=
  toString (intOfDouble value)

/-! ## `partial_derivative.h` / `partial_derivative.cpp` -/

/-- The selector `enum class DiffVariable`. -/
inductive DiffVariable
  | X | Y
  deriving DecidableEq

/-- The trace entry `struct PartialDerivativeStep`. -/
structure PartialDerivativeStep where
  description : String
  expression : String
  deriving DecidableEq

namespace PartialDerivative

/-- The local `varStr` of `differentiate` and `differentiateNode`. -/
def varStr (var : DiffVariable) : String :=
  if var = DiffVariable.X then "x" else "y"

/-- The function `PartialDerivative::differentiateNode`: the derivative tree
of `node` and the steps appended while computing it. -/
def differentiateNode (ts : ASTNode → String) (var : DiffVariable) :
    ASTNode → ASTNode × List PartialDerivativeStep
  | NumberNode v =>
      (NumberNode 0,
        [{ description := "Constant Rule: ∂/∂" ++ varStr var ++ "(c) = 0",
           expression := "∂/∂" ++ varStr var ++ "(" ++ ts (NumberNode v) ++ ") = 0" }])
  | VariableNode name =>
      if (var = DiffVariable.X ∧ name = "x") ∨ (var = DiffVariable.Y ∧ name = "y") then
        (NumberNode 1,
          [{ description := "Power Rule: ∂/∂" ++ varStr var ++ "(" ++ varStr var ++ ") = 1",
             expression := "∂/∂" ++ varStr var ++ "(" ++ varStr var ++ ") = 1" }])
      else
        (NumberNode 0,
          [{ description := "Variable treated as constant: ∂/∂" ++ varStr var ++ "(" ++ name
               ++ ") = 0",
             expression := "∂/∂" ++ varStr var ++ "(" ++ name ++ ") = 0" }])
  | BinaryOpNode BinaryOp.ADD left right =>
      let step : PartialDerivativeStep :=
        { description := "Sum Rule: ∂/∂" ++ varStr var ++ "(f + g) = ∂f/∂" ++ varStr var
            ++ " + ∂g/∂" ++ varStr var,
          expression := "∂/∂" ++ varStr var ++ "(" ++ ts left ++ " + " ++ ts right ++ ")" }
      let leftDeriv := differentiateNode ts var left
      let rightDeriv := differentiateNode ts var right
      (BinaryOpNode BinaryOp.ADD leftDeriv.1 rightDeriv.1, step :: (leftDeriv.2 ++ rightDeriv.2))
  | BinaryOpNode BinaryOp.SUB left right =>
      let step : PartialDerivativeStep :=
        { description := "Difference Rule: ∂/∂" ++ varStr var ++ "(f - g) = ∂f/∂"
            ++ varStr var ++ " - ∂g/∂" ++ varStr var,
          expression := "∂/∂" ++ varStr var ++ "(" ++ ts left ++ " - " ++ ts right ++ ")" }
      let leftDeriv := differentiateNode ts var left
      let rightDeriv := differentiateNode ts var right
      (BinaryOpNode BinaryOp.SUB leftDeriv.1 rightDeriv.1, step :: (leftDeriv.2 ++ rightDeriv.2))
  | BinaryOpNode BinaryOp.MUL left right =>
      let step : PartialDerivativeStep :=
        { description := "Product Rule: ∂/∂" ++ varStr var ++ "(f * g) = ∂f/∂"
            ++ varStr var ++ " * g + f * ∂g/∂" ++ varStr var,
          expression := "∂/∂" ++ varStr var ++ "(" ++ ts left ++ " * " ++ ts right ++ ")" }
      let leftDeriv := differentiateNode ts var left
      let rightDeriv := differentiateNode ts var right
      let term1 := BinaryOpNode BinaryOp.MUL leftDeriv.1 (clone right)
      let term2 := BinaryOpNode BinaryOp.MUL (clone left) rightDeriv.1
      (BinaryOpNode BinaryOp.ADD term1 term2, step :: (leftDeriv.2 ++ rightDeriv.2))
  | BinaryOpNode BinaryOp.DIV left right =>
      let step : PartialDerivativeStep :=
        { description := "Quotient Rule: ∂/∂" ++ varStr var ++ "(f/g) = (∂f/∂"
            ++ varStr var ++ " * g - f * ∂g/∂" ++ varStr var ++ ") / g^2",
          expression := "∂/∂" ++ varStr var ++ "(" ++ ts left ++ " / " ++ ts right ++ ")" }
      let leftDeriv := differentiateNode ts var left
      let rightDeriv := differentiateNode ts var right
      let term1 := BinaryOpNode BinaryOp.MUL leftDeriv.1 (clone right)
      let term2 := BinaryOpNode BinaryOp.MUL (clone left) rightDeriv.1
      let numerator := BinaryOpNode BinaryOp.SUB term1 term2
      let denominator := BinaryOpNode BinaryOp.POW (clone right) (NumberNode 2)
      (BinaryOpNode BinaryOp.DIV numerator denominator, step :: (leftDeriv.2 ++ rightDeriv.2))
  | BinaryOpNode BinaryOp.POW left (NumberNode value) =>
      let step : PartialDerivativeStep :=
        { description := "Power Rule: ∂/∂" ++ varStr var ++ "(u^n) = n * u^(n-1) * ∂u/∂"
            ++ varStr var,
          expression := "∂/∂" ++ varStr var ++ "(" ++ ts left ++ "^" ++ intText value ++ ")" }
      let coeff := NumberNode value
      let newPower := NumberNode (doubleSub value 1)
      let baseDeriv := differentiateNode ts var left
      let power := BinaryOpNode BinaryOp.POW (clone left) newPower
      let mult1 := BinaryOpNode BinaryOp.MUL coeff power
      (BinaryOpNode BinaryOp.MUL mult1 baseDeriv.1, step :: baseDeriv.2)
  | BinaryOpNode BinaryOp.POW _ _ => (NumberNode 0, [])
  | UnaryFuncNode func arg =>
      let innerDeriv := differentiateNode ts var arg
      match func with
      | UnaryFunc.SIN =>
          let step : PartialDerivativeStep :=
            { description := "Chain Rule: ∂/∂" ++ varStr var ++ "(sin(u)) = cos(u) * ∂u/∂"
                ++ varStr var,
              expression := "∂/∂" ++ varStr var ++ "(sin(" ++ ts arg ++ ")) = cos(" ++ ts arg
                ++ ") * ∂/∂" ++ varStr var ++ "(" ++ ts arg ++ ")" }
          let cosNode := UnaryFuncNode UnaryFunc.COS (clone arg)
          (BinaryOpNode BinaryOp.MUL cosNode innerDeriv.1, innerDeriv.2 ++ [step])
      | UnaryFunc.COS =>
          let step : PartialDerivativeStep :=
            { description := "Chain Rule: ∂/∂" ++ varStr var ++ "(cos(u)) = -sin(u) * ∂u/∂"
                ++ varStr var,
              expression := "∂/∂" ++ varStr var ++ "(cos(" ++ ts arg ++ ")) = -sin(" ++ ts arg
                ++ ") * ∂/∂" ++ varStr var ++ "(" ++ ts arg ++ ")" }
          let sinNode := UnaryFuncNode UnaryFunc.SIN (clone arg)
          let negOne := NumberNode (-1)
          let negSin := BinaryOpNode BinaryOp.MUL negOne sinNode
          (BinaryOpNode BinaryOp.MUL negSin innerDeriv.1, innerDeriv.2 ++ [step])
      | UnaryFunc.TAN =>
          let step : PartialDerivativeStep :=
            { description := "Chain Rule: ∂/∂" ++ varStr var ++ "(tan(u)) = sec^2(u) * ∂u/∂"
                ++ varStr var,
              expression := "∂/∂" ++ varStr var ++ "(tan(" ++ ts arg ++ "))" }
          let cosNode := UnaryFuncNode UnaryFunc.COS (clone arg)
          let cos2 := BinaryOpNode BinaryOp.POW cosNode (NumberNode 2)
          let sec2 := BinaryOpNode BinaryOp.DIV (NumberNode 1) cos2
          (BinaryOpNode BinaryOp.MUL sec2 innerDeriv.1, innerDeriv.2 ++ [step])
      | UnaryFunc.LN =>
          let step : PartialDerivativeStep :=
            { description := "Chain Rule: ∂/∂" ++ varStr var ++ "(ln(u)) = (1/u) * ∂u/∂"
                ++ varStr var,
              expression := "∂/∂" ++ varStr var ++ "(ln(" ++ ts arg ++ ")) = (1/" ++ ts arg
                ++ ") * ∂/∂" ++ varStr var ++ "(" ++ ts arg ++ ")" }
          let oneOverU := BinaryOpNode BinaryOp.DIV (NumberNode 1) (clone arg)
          (BinaryOpNode BinaryOp.MUL oneOverU innerDeriv.1, innerDeriv.2 ++ [step])
      | UnaryFunc.EXP =>
          let step : PartialDerivativeStep :=
            { description := "Chain Rule: ∂/∂" ++ varStr var ++ "(exp(u)) = exp(u) * ∂u/∂"
                ++ varStr var,
              expression := "∂/∂" ++ varStr var ++ "(exp(" ++ ts arg ++ ")) = exp(" ++ ts arg
                ++ ") * ∂/∂" ++ varStr var ++ "(" ++ ts arg ++ ")" }
          let expNode := UnaryFuncNode UnaryFunc.EXP (clone arg)
          (BinaryOpNode BinaryOp.MUL expNode innerDeriv.1, innerDeriv.2 ++ [step])
      | UnaryFunc.SQRT =>
          let step : PartialDerivativeStep :=
            { description := "Chain Rule: ∂/∂" ++ varStr var
                ++ "(sqrt(u)) = (1/(2*sqrt(u))) * ∂u/∂" ++ varStr var,
              expression := "∂/∂" ++ varStr var ++ "(sqrt(" ++ ts arg ++ "))" }
          let sqrtNode := UnaryFuncNode UnaryFunc.SQRT (clone arg)
          let two := NumberNode 2
          let twoSqrt := BinaryOpNode BinaryOp.MUL two sqrtNode
          let coeff := BinaryOpNode BinaryOp.DIV (NumberNode 1) twoSqrt
          (BinaryOpNode BinaryOp.MUL coeff innerDeriv.1, innerDeriv.2 ++ [step])

/-- The body of `PartialDerivative::differentiateNode` as the program runs it,
by general recursion: each call `differentiateNode(child)` of the source is the
call `self child`, and a call that does not return (`none`) keeps the body from
returning. -/
def differentiateNodeBody (ts : ASTNode → String) (var : DiffVariable)
    (self : ASTNode → Option (ASTNode × List PartialDerivativeStep)) :
    ASTNode → Option (ASTNode × List PartialDerivativeStep)
  | NumberNode v =>
      some (NumberNode 0,
        [{ description := "Constant Rule: ∂/∂" ++ varStr var ++ "(c) = 0",
           expression := "∂/∂" ++ varStr var ++ "(" ++ ts (NumberNode v) ++ ") = 0" }])
  | VariableNode name =>
      if (var = DiffVariable.X ∧ name = "x") ∨ (var = DiffVariable.Y ∧ name = "y") then
        some (NumberNode 1,
          [{ description := "Power Rule: ∂/∂" ++ varStr var ++ "(" ++ varStr var ++ ") = 1",
             expression := "∂/∂" ++ varStr var ++ "(" ++ varStr var ++ ") = 1" }])
      else
        some (NumberNode 0,
          [{ description := "Variable treated as constant: ∂/∂" ++ varStr var ++ "(" ++ name
               ++ ") = 0",
             expression := "∂/∂" ++ varStr var ++ "(" ++ name ++ ") = 0" }])
  | BinaryOpNode BinaryOp.ADD left right => do
      let step : PartialDerivativeStep :=
        { description := "Sum Rule: ∂/∂" ++ varStr var ++ "(f + g) = ∂f/∂" ++ varStr var
            ++ " + ∂g/∂" ++ varStr var,
          expression := "∂/∂" ++ varStr var ++ "(" ++ ts left ++ " + " ++ ts right ++ ")" }
      let leftDeriv ← self left
      let rightDeriv ← self right
      pure (BinaryOpNode BinaryOp.ADD leftDeriv.1 rightDeriv.1, step :: (leftDeriv.2 ++ rightDeriv.2))
  | BinaryOpNode BinaryOp.SUB left right => do
      let step : PartialDerivativeStep :=
        { description := "Difference Rule: ∂/∂" ++ varStr var ++ "(f - g) = ∂f/∂"
            ++ varStr var ++ " - ∂g/∂" ++ varStr var,
          expression := "∂/∂" ++ varStr var ++ "(" ++ ts left ++ " - " ++ ts right ++ ")" }
      let leftDeriv ← self left
      let rightDeriv ← self right
      pure (BinaryOpNode BinaryOp.SUB leftDeriv.1 rightDeriv.1, step :: (leftDeriv.2 ++ rightDeriv.2))
  | BinaryOpNode BinaryOp.MUL left right => do
      let step : PartialDerivativeStep :=
        { description := "Product Rule: ∂/∂" ++ varStr var ++ "(f * g) = ∂f/∂"
            ++ varStr var ++ " * g + f * ∂g/∂" ++ varStr var,
          expression := "∂/∂" ++ varStr var ++ "(" ++ ts left ++ " * " ++ ts right ++ ")" }
      let leftDeriv ← self left
      let rightDeriv ← self right
      let term1 := BinaryOpNode BinaryOp.MUL leftDeriv.1 (clone right)
      let term2 := BinaryOpNode BinaryOp.MUL (clone left) rightDeriv.1
      pure (BinaryOpNode BinaryOp.ADD term1 term2, step :: (leftDeriv.2 ++ rightDeriv.2))
  | BinaryOpNode BinaryOp.DIV left right => do
      let step : PartialDerivativeStep :=
        { description := "Quotient Rule: ∂/∂" ++ varStr var ++ "(f/g) = (∂f/∂"
            ++ varStr var ++ " * g - f * ∂g/∂" ++ varStr var ++ ") / g^2",
          expression := "∂/∂" ++ varStr var ++ "(" ++ ts left ++ " / " ++ ts right ++ ")" }
      let leftDeriv ← self left
      let rightDeriv ← self right
      let term1 := BinaryOpNode BinaryOp.MUL leftDeriv.1 (clone right)
      let term2 := BinaryOpNode BinaryOp.MUL (clone left) rightDeriv.1
      let numerator := BinaryOpNode BinaryOp.SUB term1 term2
      let denominator := BinaryOpNode BinaryOp.POW (clone right) (NumberNode 2)
      pure (BinaryOpNode BinaryOp.DIV numerator denominator, step :: (leftDeriv.2 ++ rightDeriv.2))
  | BinaryOpNode BinaryOp.POW left (NumberNode value) => do
      let step : PartialDerivativeStep :=
        { description := "Power Rule: ∂/∂" ++ varStr var ++ "(u^n) = n * u^(n-1) * ∂u/∂"
            ++ varStr var,
          expression := "∂/∂" ++ varStr var ++ "(" ++ ts left ++ "^" ++ intText value ++ ")" }
      let coeff := NumberNode value
      let newPower := NumberNode (doubleSub value 1)
      let baseDeriv ← self left
      let power := BinaryOpNode BinaryOp.POW (clone left) newPower
      let mult1 := BinaryOpNode BinaryOp.MUL coeff power
      pure (BinaryOpNode BinaryOp.MUL mult1 baseDeriv.1, step :: baseDeriv.2)
  | BinaryOpNode BinaryOp.POW _ _ => some (NumberNode 0, [])
  | UnaryFuncNode func arg => do
      let innerDeriv ← self arg
      match func with
      | UnaryFunc.SIN =>
          let step : PartialDerivativeStep :=
            { description := "Chain Rule: ∂/∂" ++ varStr var ++ "(sin(u)) = cos(u) * ∂u/∂"
                ++ varStr var,
              expression := "∂/∂" ++ varStr var ++ "(sin(" ++ ts arg ++ ")) = cos(" ++ ts arg
                ++ ") * ∂/∂" ++ varStr var ++ "(" ++ ts arg ++ ")" }
          let cosNode := UnaryFuncNode UnaryFunc.COS (clone arg)
          pure (BinaryOpNode BinaryOp.MUL cosNode innerDeriv.1, innerDeriv.2 ++ [step])
      | UnaryFunc.COS =>
          let step : PartialDerivativeStep :=
            { description := "Chain Rule: ∂/∂" ++ varStr var ++ "(cos(u)) = -sin(u) * ∂u/∂"
                ++ varStr var,
              expression := "∂/∂" ++ varStr var ++ "(cos(" ++ ts arg ++ ")) = -sin(" ++ ts arg
                ++ ") * ∂/∂" ++ varStr var ++ "(" ++ ts arg ++ ")" }
          let sinNode := UnaryFuncNode UnaryFunc.SIN (clone arg)
          let negOne := NumberNode (-1)
          let negSin := BinaryOpNode BinaryOp.MUL negOne sinNode
          pure (BinaryOpNode BinaryOp.MUL negSin innerDeriv.1, innerDeriv.2 ++ [step])
      | UnaryFunc.TAN =>
          let step : PartialDerivativeStep :=
            { description := "Chain Rule: ∂/∂" ++ varStr var ++ "(tan(u)) = sec^2(u) * ∂u/∂"
                ++ varStr var,
              expression := "∂/∂" ++ varStr var ++ "(tan(" ++ ts arg ++ "))" }
          let cosNode := UnaryFuncNode UnaryFunc.COS (clone arg)
          let cos2 := BinaryOpNode BinaryOp.POW cosNode (NumberNode 2)
          let sec2 := BinaryOpNode BinaryOp.DIV (NumberNode 1) cos2
          pure (BinaryOpNode BinaryOp.MUL sec2 innerDeriv.1, innerDeriv.2 ++ [step])
      | UnaryFunc.LN =>
          let step : PartialDerivativeStep :=
            { description := "Chain Rule: ∂/∂" ++ varStr var ++ "(ln(u)) = (1/u) * ∂u/∂"
                ++ varStr var,
              expression := "∂/∂" ++ varStr var ++ "(ln(" ++ ts arg ++ ")) = (1/" ++ ts arg
                ++ ") * ∂/∂" ++ varStr var ++ "(" ++ ts arg ++ ")" }
          let oneOverU := BinaryOpNode BinaryOp.DIV (NumberNode 1) (clone arg)
          pure (BinaryOpNode BinaryOp.MUL oneOverU innerDeriv.1, innerDeriv.2 ++ [step])
      | UnaryFunc.EXP =>
          let step : PartialDerivativeStep :=
            { description := "Chain Rule: ∂/∂" ++ varStr var ++ "(exp(u)) = exp(u) * ∂u/∂"
                ++ varStr var,
              expression := "∂/∂" ++ varStr var ++ "(exp(" ++ ts arg ++ ")) = exp(" ++ ts arg
                ++ ") * ∂/∂" ++ varStr var ++ "(" ++ ts arg ++ ")" }
          let expNode := UnaryFuncNode UnaryFunc.EXP (clone arg)
          pure (BinaryOpNode BinaryOp.MUL expNode innerDeriv.1, innerDeriv.2 ++ [step])
      | UnaryFunc.SQRT =>
          let step : PartialDerivativeStep :=
            { description := "Chain Rule: ∂/∂" ++ varStr var
                ++ "(sqrt(u)) = (1/(2*sqrt(u))) * ∂u/∂" ++ varStr var,
              expression := "∂/∂" ++ varStr var ++ "(sqrt(" ++ ts arg ++ "))" }
          let sqrtNode := UnaryFuncNode UnaryFunc.SQRT (clone arg)
          let two := NumberNode 2
          let twoSqrt := BinaryOpNode BinaryOp.MUL two sqrtNode
          let coeff := BinaryOpNode BinaryOp.DIV (NumberNode 1) twoSqrt
          pure (BinaryOpNode BinaryOp.MUL coeff innerDeriv.1, innerDeriv.2 ++ [step])

/-- The function `PartialDerivative::differentiateNode` run with a bound on
the depth of nested calls: `none` when the bound is exhausted before the call
returns. -/
def differentiateNodeFuel (ts : ASTNode → String) (var : DiffVariable) :
    ℕ → ASTNode → Option (ASTNode × List PartialDerivativeStep)
  | 0, _ => none
  | fuel + 1, node => differentiateNodeBody ts var (differentiateNodeFuel ts var fuel) node

/-- The function `PartialDerivative::differentiate`: the derivative tree and
the step log after the call. -/
def differentiate (ts : ASTNode → String) (root : ASTNode) (var : DiffVariable) :
    ASTNode × List PartialDerivativeStep :=
  let initialStep : PartialDerivativeStep :=
    { description := "Initial expression",
      expression := "∂/∂" ++ varStr var ++ "(" ++ ts root ++ ")" }
  let result := differentiateNode ts var root
  let finalStep : PartialDerivativeStep :=
    { description := "Final partial derivative",
      expression := "∂f/∂" ++ varStr var ++ " = " ++ ts result.1 }
  (result.1, initialStep :: (result.2 ++ [finalStep]))

/-- The private members `steps` and `variable` of `class PartialDerivative`. -/
structure State where
  steps : List PartialDerivativeStep
  variable_ : DiffVariable

/-- The method `PartialDerivative::differentiate` as a transformer of the
engine state: `steps.clear()`, `variable = var`, then the entries of
`differentiate` are pushed; `differentiateNode` reads the member `variable`. -/
def State.differentiate (self : State) (ts : ASTNode → String) (root : ASTNode)
    (var : DiffVariable) : ASTNode × State :=
  let cleared : State := { self with steps := [] }
  let selected : State := { cleared with variable_ := var }
  let run := PartialDerivative.differentiate ts root selected.variable_
  (run.1, { selected with steps := selected.steps ++ run.2 })

end PartialDerivative

/-! ## `implicit_differentiation.h` / `implicit_differentiation.cpp` -/

/-- The trace entry `struct ImplicitDifferentiationStep`. -/
structure ImplicitDifferentiationStep where
  description : String
  expression : String
  deriving DecidableEq

namespace ImplicitDifferentiator

/-- The function `ImplicitDifferentiator::differentiateImplicit`. It appends
no step. -/
def differentiateImplicit : ASTNode → Bool → ASTNode
  | NumberNode _, _ => NumberNode 0
  | VariableNode name, withRespectToX =>
      if name = "x" ∧ withRespectToX = true then NumberNode 1
      else if name = "y" ∧ withRespectToX = false then NumberNode 1
      else NumberNode 0
  | BinaryOpNode BinaryOp.ADD left right, withRespectToX =>
      let leftDeriv := differentiateImplicit left withRespectToX
      let rightDeriv := differentiateImplicit right withRespectToX
      BinaryOpNode BinaryOp.ADD leftDeriv rightDeriv
  | BinaryOpNode BinaryOp.SUB left right, withRespectToX =>
      let leftDeriv := differentiateImplicit left withRespectToX
      let rightDeriv := differentiateImplicit right withRespectToX
      BinaryOpNode BinaryOp.SUB leftDeriv rightDeriv
  | BinaryOpNode BinaryOp.MUL left right, withRespectToX =>
      let leftDeriv := differentiateImplicit left withRespectToX
      let rightDeriv := differentiateImplicit right withRespectToX
      let term1 := BinaryOpNode BinaryOp.MUL leftDeriv (clone right)
      let term2 := BinaryOpNode BinaryOp.MUL (clone left) rightDeriv
      BinaryOpNode BinaryOp.ADD term1 term2
  | BinaryOpNode BinaryOp.DIV left right, withRespectToX =>
      let leftDeriv := differentiateImplicit left withRespectToX
      let rightDeriv := differentiateImplicit right withRespectToX
      let term1 := BinaryOpNode BinaryOp.MUL leftDeriv (clone right)
      let term2 := BinaryOpNode BinaryOp.MUL (clone left) rightDeriv
      let numerator := BinaryOpNode BinaryOp.SUB term1 term2
      let denominator := BinaryOpNode BinaryOp.POW (clone right) (NumberNode 2)
      BinaryOpNode BinaryOp.DIV numerator denominator
  | BinaryOpNode BinaryOp.POW left (NumberNode n), withRespectToX =>
      let coefficient := NumberNode n
      let power := BinaryOpNode BinaryOp.POW (clone left) (NumberNode (doubleSub n 1))
      let innerDeriv := differentiateImplicit left withRespectToX
      let temp := BinaryOpNode BinaryOp.MUL coefficient power
      BinaryOpNode BinaryOp.MUL temp innerDeriv
  | BinaryOpNode BinaryOp.POW _ _, _ => NumberNode 0
  | UnaryFuncNode func arg, withRespectToX =>
      let innerDeriv := differentiateImplicit arg withRespectToX
      match func with
      | UnaryFunc.SIN =>
          let cosNode := UnaryFuncNode UnaryFunc.COS (clone arg)
          BinaryOpNode BinaryOp.MUL cosNode innerDeriv
      | UnaryFunc.COS =>
          let sinNode := UnaryFuncNode UnaryFunc.SIN (clone arg)
          let negOne := NumberNode (-1)
          let negSin := BinaryOpNode BinaryOp.MUL negOne sinNode
          BinaryOpNode BinaryOp.MUL negSin innerDeriv
      | UnaryFunc.LN =>
          let reciprocal := BinaryOpNode BinaryOp.DIV (NumberNode 1) (clone arg)
          BinaryOpNode BinaryOp.MUL reciprocal innerDeriv
      | UnaryFunc.EXP =>
          let expNode := UnaryFuncNode UnaryFunc.EXP (clone arg)
          BinaryOpNode BinaryOp.MUL expNode innerDeriv
      | UnaryFunc.SQRT =>
          let sqrtNode := UnaryFuncNode UnaryFunc.SQRT (clone arg)
          let denominator := BinaryOpNode BinaryOp.MUL (NumberNode 2) sqrtNode
          let reciprocal := BinaryOpNode BinaryOp.DIV (NumberNode 1) denominator
          BinaryOpNode BinaryOp.MUL reciprocal innerDeriv
      | _ => NumberNode 0

/-- The body of `ImplicitDifferentiator::differentiateImplicit` as the program
runs it, by general recursion: each call `differentiateImplicit(child, flag)`
of the source is the call `self child flag`, and a call that does not return
(`none`) keeps the body from returning. -/
def differentiateImplicitBody (self : ASTNode → Bool → Option ASTNode) :
    ASTNode → Bool → Option ASTNode
  | NumberNode _, _ => some (NumberNode 0)
  | VariableNode name, withRespectToX =>
      if name = "x" ∧ withRespectToX = true then some (NumberNode 1)
      else if name = "y" ∧ withRespectToX = false then some (NumberNode 1)
      else some (NumberNode 0)
  | BinaryOpNode BinaryOp.ADD left right, withRespectToX => do
      let leftDeriv ← self left withRespectToX
      let rightDeriv ← self right withRespectToX
      pure (BinaryOpNode BinaryOp.ADD leftDeriv rightDeriv)
  | BinaryOpNode BinaryOp.SUB left right, withRespectToX => do
      let leftDeriv ← self left withRespectToX
      let rightDeriv ← self right withRespectToX
      pure (BinaryOpNode BinaryOp.SUB leftDeriv rightDeriv)
  | BinaryOpNode BinaryOp.MUL left right, withRespectToX => do
      let leftDeriv ← self left withRespectToX
      let rightDeriv ← self right withRespectToX
      let term1 := BinaryOpNode BinaryOp.MUL leftDeriv (clone right)
      let term2 := BinaryOpNode BinaryOp.MUL (clone left) rightDeriv
      pure (BinaryOpNode BinaryOp.ADD term1 term2)
  | BinaryOpNode BinaryOp.DIV left right, withRespectToX => do
      let leftDeriv ← self left withRespectToX
      let rightDeriv ← self right withRespectToX
      let term1 := BinaryOpNode BinaryOp.MUL leftDeriv (clone right)
      let term2 := BinaryOpNode BinaryOp.MUL (clone left) rightDeriv
      let numerator := BinaryOpNode BinaryOp.SUB term1 term2
      let denominator := BinaryOpNode BinaryOp.POW (clone right) (NumberNode 2)
      pure (BinaryOpNode BinaryOp.DIV numerator denominator)
  | BinaryOpNode BinaryOp.POW left (NumberNode n), withRespectToX => do
      let coefficient := NumberNode n
      let power := BinaryOpNode BinaryOp.POW (clone left) (NumberNode (doubleSub n 1))
      let innerDeriv ← self left withRespectToX
      let temp := BinaryOpNode BinaryOp.MUL coefficient power
      pure (BinaryOpNode BinaryOp.MUL temp innerDeriv)
  | BinaryOpNode BinaryOp.POW _ _, _ => some (NumberNode 0)
  | UnaryFuncNode func arg, withRespectToX => do
      let innerDeriv ← self arg withRespectToX
      match func with
      | UnaryFunc.SIN =>
          let cosNode := UnaryFuncNode UnaryFunc.COS (clone arg)
          pure (BinaryOpNode BinaryOp.MUL cosNode innerDeriv)
      | UnaryFunc.COS =>
          let sinNode := UnaryFuncNode UnaryFunc.SIN (clone arg)
          let negOne := NumberNode (-1)
          let negSin := BinaryOpNode BinaryOp.MUL negOne sinNode
          pure (BinaryOpNode BinaryOp.MUL negSin innerDeriv)
      | UnaryFunc.LN =>
          let reciprocal := BinaryOpNode BinaryOp.DIV (NumberNode 1) (clone arg)
          pure (BinaryOpNode BinaryOp.MUL reciprocal innerDeriv)
      | UnaryFunc.EXP =>
          let expNode := UnaryFuncNode UnaryFunc.EXP (clone arg)
          pure (BinaryOpNode BinaryOp.MUL expNode innerDeriv)
      | UnaryFunc.SQRT =>
          let sqrtNode := UnaryFuncNode UnaryFunc.SQRT (clone arg)
          let denominator := BinaryOpNode BinaryOp.MUL (NumberNode 2) sqrtNode
          let reciprocal := BinaryOpNode BinaryOp.DIV (NumberNode 1) denominator
          pure (BinaryOpNode BinaryOp.MUL reciprocal innerDeriv)
      | _ => pure (NumberNode 0)

/-- The function `ImplicitDifferentiator::differentiateImplicit` run with a
bound on the depth of nested calls: `none` when the bound is exhausted before
the call returns. -/
def differentiateImplicitFuel : ℕ → ASTNode → Bool → Option ASTNode
  | 0, _, _ => none
  | fuel + 1, node, withRespectToX =>
      differentiateImplicitBody (differentiateImplicitFuel fuel) node withRespectToX

/-- The local `dFdx` of `computeImplicitDerivative`; `simplify` stands for the
collaborator `Simplifier::simplify`. -/
def dFdx (simplify : ASTNode → ASTNode) (root : ASTNode) : ASTNode :=
  simplify (differentiateImplicit root true)

/-- The local `dFdy` of `computeImplicitDerivative`. -/
def dFdy (simplify : ASTNode → ASTNode) (root : ASTNode) : ASTNode :=
  simplify (differentiateImplicit root false)

/-- The local `simplifiedResult` of `computeImplicitDerivative`: the
simplified ratio tree. -/
def simplifiedResult (simplify : ASTNode → ASTNode) (root : ASTNode) : ASTNode :=
  let negDFdx := BinaryOpNode BinaryOp.MUL (NumberNode (-1)) (clone (dFdx simplify root))
  let resultNode := BinaryOpNode BinaryOp.DIV negDFdx (clone (dFdy simplify root))
  simplify resultNode

/-- The function `ImplicitDifferentiator::computeImplicitDerivative`: the
returned text and the step log after the call. -/
def computeImplicitDerivative (ts : ASTNode → String) (simplify : ASTNode → ASTNode)
    (root : ASTNode) : String × List ImplicitDifferentiationStep :=
  let step1 : ImplicitDifferentiationStep :=
    { description := "=== Given Implicit Equation ===",
      expression := "F(x,y) = " ++ ts root ++ " = 0" }
  let step2 : ImplicitDifferentiationStep :=
    { description := "--- Step 1: Compute ∂F/∂x (partial derivative with respect to x) ---",
      expression := "" }
  let step3 : ImplicitDifferentiationStep :=
    { description := "Partial derivative:",
      expression := "∂F/∂x = " ++ ts (dFdx simplify root) }
  let step4 : ImplicitDifferentiationStep :=
    { description := "--- Step 2: Compute ∂F/∂y (partial derivative with respect to y) ---",
      expression := "" }
  let step5 : ImplicitDifferentiationStep :=
    { description := "Partial derivative:",
      expression := "∂F/∂y = " ++ ts (dFdy simplify root) }
  let step6 : ImplicitDifferentiationStep :=
    { description := "--- Step 3: Apply Implicit Differentiation Formula ---",
      expression := "Formula: dy/dx = -(∂F/∂x) / (∂F/∂y)" }
  let step7 : ImplicitDifferentiationStep :=
    { description := "Substitute values:",
      expression := "dy/dx = -(" ++ ts (dFdx simplify root) ++ ") / ("
        ++ ts (dFdy simplify root) ++ ")" }
  let result := "dy/dx = " ++ ts (simplifiedResult simplify root)
  let finalStep : ImplicitDifferentiationStep :=
    { description := "=== Final Result (Simplified) ===",
      expression := result }
  (result, [step1, step2, step3, step4, step5, step6, step7, finalStep])

/-- The private member `steps` of `class ImplicitDifferentiator`. -/
structure State where
  steps : List ImplicitDifferentiationStep

/-- The method `ImplicitDifferentiator::computeImplicitDerivative` as a
transformer of the engine state: `steps.clear()`, then the entries of
`computeImplicitDerivative` are pushed. -/
def State.computeImplicitDerivative (self : State) (ts : ASTNode → String)
    (simplify : ASTNode → ASTNode) (root : ASTNode) : String × State :=
  let cleared : State := { self with steps := [] }
  let run := ImplicitDifferentiator.computeImplicitDerivative ts simplify root
  (run.1, { cleared with steps := cleared.steps ++ run.2 })

end ImplicitDifferentiator

/-! ## `multivariate_integrator.h` / `multivariate_integrator.cpp` -/

/-- The selector `enum class IntegrationVariable`. -/
inductive IntegrationVariable
  | X | Y
  deriving DecidableEq

/-- The trace entry `struct MultivariateIntegrationStep`. -/
structure MultivariateIntegrationStep where
  description : String
  expression : String
  deriving DecidableEq

namespace MultivariateIntegrator

/-- The local `varStr` of `integrate` and `integrateNode`. -/
def varStr (var : IntegrationVariable) : String :=
  if var = IntegrationVariable.X then "x" else "y"

/-- The general case of the `MUL` branch of `integrateNode` (lines 188-194):
the flagged identity fallback. -/
def productFallback (ts : ASTNode → String) (var : IntegrationVariable) (node : ASTNode) :
    ASTNode × List MultivariateIntegrationStep :=
  (clone node,
    [{ description := "Product integration (advanced - using numerical approximation)",
       expression := "∫ " ++ ts node ++ " d" ++ varStr var ++ " ≈ (complex)" }])

/-- The function `MultivariateIntegrator::integrateNode`: the integral tree of
`node` and the steps appended while computing it. -/
def integrateNode (ts : ASTNode → String) (var : IntegrationVariable) :
    ASTNode → ASTNode × List MultivariateIntegrationStep
  | NumberNode value =>
      (BinaryOpNode BinaryOp.MUL (NumberNode value) (VariableNode (varStr var)),
        [{ description := "Constant Rule: ∫ c d" ++ varStr var ++ " = c·" ++ varStr var,
           expression := "∫ " ++ intText value ++ " d" ++ varStr var ++ " = " ++ intText value
             ++ "·" ++ varStr var }])
  | VariableNode name =>
      if name = varStr var then
        let var2 := BinaryOpNode BinaryOp.POW (VariableNode (varStr var)) (NumberNode 2)
        (BinaryOpNode BinaryOp.DIV var2 (NumberNode 2),
          [{ description := "Power Rule: ∫ " ++ varStr var ++ " d" ++ varStr var ++ " = "
               ++ varStr var ++ "^2/2",
             expression := "∫ " ++ varStr var ++ " d" ++ varStr var ++ " = " ++ varStr var
               ++ "^2/2" }])
      else
        (BinaryOpNode BinaryOp.MUL (VariableNode name) (VariableNode (varStr var)),
          [{ description := "Constant Rule: ∫ " ++ name ++ " d" ++ varStr var ++ " = " ++ name
               ++ "·" ++ varStr var,
             expression := "∫ " ++ name ++ " d" ++ varStr var ++ " = " ++ name ++ "·"
               ++ varStr var }])
  | BinaryOpNode BinaryOp.ADD left right =>
      let step : MultivariateIntegrationStep :=
        { description := "Sum Rule: ∫ (f + g) d" ++ varStr var ++ " = ∫ f d" ++ varStr var
            ++ " + ∫ g d" ++ varStr var,
          expression := "∫ (" ++ ts left ++ " + " ++ ts right ++ ") d" ++ varStr var }
      let leftIntegral := integrateNode ts var left
      let rightIntegral := integrateNode ts var right
      (BinaryOpNode BinaryOp.ADD leftIntegral.1 rightIntegral.1,
        step :: (leftIntegral.2 ++ rightIntegral.2))
  | BinaryOpNode BinaryOp.SUB left right =>
      let step : MultivariateIntegrationStep :=
        { description := "Difference Rule: ∫ (f - g) d" ++ varStr var ++ " = ∫ f d"
            ++ varStr var ++ " - ∫ g d" ++ varStr var,
          expression := "∫ (" ++ ts left ++ " - " ++ ts right ++ ") d" ++ varStr var }
      let leftIntegral := integrateNode ts var left
      let rightIntegral := integrateNode ts var right
      (BinaryOpNode BinaryOp.SUB leftIntegral.1 rightIntegral.1,
        step :: (leftIntegral.2 ++ rightIntegral.2))
  | BinaryOpNode BinaryOp.MUL (NumberNode value) right =>
      let step : MultivariateIntegrationStep :=
        { description := "Constant Multiple Rule: ∫ c·f d" ++ varStr var ++ " = c·∫ f d"
            ++ varStr var,
          expression := "∫ " ++ intText value ++ "·" ++ ts right ++ " d" ++ varStr var }
      let integral := integrateNode ts var right
      (BinaryOpNode BinaryOp.MUL (NumberNode value) integral.1, step :: integral.2)
  | BinaryOpNode BinaryOp.MUL left (NumberNode value) =>
      let step : MultivariateIntegrationStep :=
        { description := "Constant Multiple Rule: ∫ f·c d" ++ varStr var ++ " = c·∫ f d"
            ++ varStr var,
          expression := "∫ " ++ ts left ++ "·" ++ intText value ++ " d" ++ varStr var }
      let integral := integrateNode ts var left
      (BinaryOpNode BinaryOp.MUL (NumberNode value) integral.1, step :: integral.2)
  | BinaryOpNode BinaryOp.MUL (VariableNode name) right =>
      if name ≠ varStr var then
        let step : MultivariateIntegrationStep :=
          { description := "Constant Multiple Rule: ∫ " ++ name ++ "·f d" ++ varStr var ++ " = "
              ++ name ++ "·∫ f d" ++ varStr var,
            expression := "∫ " ++ name ++ "·" ++ ts right ++ " d" ++ varStr var }
        let integral := integrateNode ts var right
        (BinaryOpNode BinaryOp.MUL (VariableNode name) integral.1, step :: integral.2)
      else
        productFallback ts var (BinaryOpNode BinaryOp.MUL (VariableNode name) right)
  | BinaryOpNode BinaryOp.MUL left (VariableNode name) =>
      if name ≠ varStr var then
        let step : MultivariateIntegrationStep :=
          { description := "Constant Multiple Rule: ∫ f·" ++ name ++ " d" ++ varStr var ++ " = "
              ++ name ++ "·∫ f d" ++ varStr var,
            expression := "∫ " ++ ts left ++ "·" ++ name ++ " d" ++ varStr var }
        let integral := integrateNode ts var left
        (BinaryOpNode BinaryOp.MUL (VariableNode name) integral.1, step :: integral.2)
      else
        productFallback ts var (BinaryOpNode BinaryOp.MUL left (VariableNode name))
  | BinaryOpNode BinaryOp.MUL left right =>
      productFallback ts var (BinaryOpNode BinaryOp.MUL left right)
  | BinaryOpNode BinaryOp.POW (VariableNode name) (NumberNode n) =>
      if name = varStr var then
        if n = -1 then
          (UnaryFuncNode UnaryFunc.LN (VariableNode (varStr var)),
            [{ description := "Special case: ∫ " ++ varStr var ++ "^(-1) d" ++ varStr var
                 ++ " = ln|" ++ varStr var ++ "|",
               expression := "∫ " ++ varStr var ++ "^(-1) d" ++ varStr var ++ " = ln|"
                 ++ varStr var ++ "|" }])
        else
          let newPower :=
            BinaryOpNode BinaryOp.POW (VariableNode (varStr var)) (NumberNode (doubleAdd n 1))
          (BinaryOpNode BinaryOp.DIV newPower (NumberNode (doubleAdd n 1)),
            [{ description := "Power Rule: ∫ " ++ varStr var ++ "^n d" ++ varStr var ++ " = "
                 ++ varStr var ++ "^(n+1)/(n+1)",
               expression := "∫ " ++ varStr var ++ "^" ++ intText n ++ " d" ++ varStr var ++ " = "
                 ++ varStr var ++ "^" ++ intText (doubleAdd n 1) ++ "/"
                 ++ intText (doubleAdd n 1) }])
      else
        (BinaryOpNode BinaryOp.MUL
            (clone (BinaryOpNode BinaryOp.POW (VariableNode name) (NumberNode n)))
            (VariableNode (varStr var)),
          [{ description := "Constant Rule: ∫ " ++ name ++ "^n d" ++ varStr var ++ " = " ++ name
               ++ "^n·" ++ varStr var,
             expression := "∫ " ++ ts (BinaryOpNode BinaryOp.POW (VariableNode name) (NumberNode n))
               ++ " d" ++ varStr var ++ " = "
               ++ ts (BinaryOpNode BinaryOp.POW (VariableNode name) (NumberNode n)) ++ "·"
               ++ varStr var }])
  | BinaryOpNode BinaryOp.POW left right => (clone (BinaryOpNode BinaryOp.POW left right), [])
  | BinaryOpNode BinaryOp.DIV left right => (clone (BinaryOpNode BinaryOp.DIV left right), [])
  | UnaryFuncNode func (VariableNode name) =>
      if name = varStr var then
        match func with
        | UnaryFunc.SIN =>
            let cosNode := UnaryFuncNode UnaryFunc.COS (VariableNode (varStr var))
            (BinaryOpNode BinaryOp.MUL (NumberNode (-1)) cosNode,
              [{ description := "Trig Rule: ∫ sin(" ++ varStr var ++ ") d" ++ varStr var
                   ++ " = -cos(" ++ varStr var ++ ")",
                 expression := "∫ sin(" ++ varStr var ++ ") d" ++ varStr var ++ " = -cos("
                   ++ varStr var ++ ")" }])
        | UnaryFunc.COS =>
            (UnaryFuncNode UnaryFunc.SIN (VariableNode (varStr var)),
              [{ description := "Trig Rule: ∫ cos(" ++ varStr var ++ ") d" ++ varStr var
                   ++ " = sin(" ++ varStr var ++ ")",
                 expression := "∫ cos(" ++ varStr var ++ ") d" ++ varStr var ++ " = sin("
                   ++ varStr var ++ ")" }])
        | UnaryFunc.EXP =>
            (UnaryFuncNode UnaryFunc.EXP (VariableNode (varStr var)),
              [{ description := "Exponential Rule: ∫ exp(" ++ varStr var ++ ") d" ++ varStr var
                   ++ " = exp(" ++ varStr var ++ ")",
                 expression := "∫ exp(" ++ varStr var ++ ") d" ++ varStr var ++ " = exp("
                   ++ varStr var ++ ")" }])
        | _ =>
            (clone (UnaryFuncNode func (VariableNode name)),
              [{ description := "Advanced integration (not implemented)",
                 expression := "∫ " ++ ts (UnaryFuncNode func (VariableNode name)) ++ " d"
                   ++ varStr var }])
      else
        (BinaryOpNode BinaryOp.MUL (clone (UnaryFuncNode func (VariableNode name)))
            (VariableNode (varStr var)),
          [{ description := "Constant Rule: function of " ++ name ++ " treated as constant",
             expression := "∫ " ++ ts (UnaryFuncNode func (VariableNode name)) ++ " d"
               ++ varStr var ++ " = " ++ ts (UnaryFuncNode func (VariableNode name)) ++ "·"
               ++ varStr var }])
  | UnaryFuncNode func arg => (clone (UnaryFuncNode func arg), [])

/-- The body of `MultivariateIntegrator::integrateNode` as the program runs it,
by general recursion: each call `integrateNode(child)` of the source is the
call `self child`, and a call that does not return (`none`) keeps the body from
returning. -/
def integrateNodeBody (ts : ASTNode → String) (var : IntegrationVariable)
    (self : ASTNode → Option (ASTNode × List MultivariateIntegrationStep)) :
    ASTNode → Option (ASTNode × List MultivariateIntegrationStep)
  | NumberNode value =>
      some <|
      (BinaryOpNode BinaryOp.MUL (NumberNode value) (VariableNode (varStr var)),
        [{ description := "Constant Rule: ∫ c d" ++ varStr var ++ " = c·" ++ varStr var,
           expression := "∫ " ++ intText value ++ " d" ++ varStr var ++ " = " ++ intText value
             ++ "·" ++ varStr var }])
  | VariableNode name =>
      some <|
      if name = varStr var then
        let var2 := BinaryOpNode BinaryOp.POW (VariableNode (varStr var)) (NumberNode 2)
        (BinaryOpNode BinaryOp.DIV var2 (NumberNode 2),
          [{ description := "Power Rule: ∫ " ++ varStr var ++ " d" ++ varStr var ++ " = "
               ++ varStr var ++ "^2/2",
             expression := "∫ " ++ varStr var ++ " d" ++ varStr var ++ " = " ++ varStr var
               ++ "^2/2" }])
      else
        (BinaryOpNode BinaryOp.MUL (VariableNode name) (VariableNode (varStr var)),
          [{ description := "Constant Rule: ∫ " ++ name ++ " d" ++ varStr var ++ " = " ++ name
               ++ "·" ++ varStr var,
             expression := "∫ " ++ name ++ " d" ++ varStr var ++ " = " ++ name ++ "·"
               ++ varStr var }])
  | BinaryOpNode BinaryOp.ADD left right => do
      let step : MultivariateIntegrationStep :=
        { description := "Sum Rule: ∫ (f + g) d" ++ varStr var ++ " = ∫ f d" ++ varStr var
            ++ " + ∫ g d" ++ varStr var,
          expression := "∫ (" ++ ts left ++ " + " ++ ts right ++ ") d" ++ varStr var }
      let leftIntegral ← self left
      let rightIntegral ← self right
      pure (BinaryOpNode BinaryOp.ADD leftIntegral.1 rightIntegral.1,
        step :: (leftIntegral.2 ++ rightIntegral.2))
  | BinaryOpNode BinaryOp.SUB left right => do
      let step : MultivariateIntegrationStep :=
        { description := "Difference Rule: ∫ (f - g) d" ++ varStr var ++ " = ∫ f d"
            ++ varStr var ++ " - ∫ g d" ++ varStr var,
          expression := "∫ (" ++ ts left ++ " - " ++ ts right ++ ") d" ++ varStr var }
      let leftIntegral ← self left
      let rightIntegral ← self right
      pure (BinaryOpNode BinaryOp.SUB leftIntegral.1 rightIntegral.1,
        step :: (leftIntegral.2 ++ rightIntegral.2))
  | BinaryOpNode BinaryOp.MUL (NumberNode value) right => do
      let step : MultivariateIntegrationStep :=
        { description := "Constant Multiple Rule: ∫ c·f d" ++ varStr var ++ " = c·∫ f d"
            ++ varStr var,
          expression := "∫ " ++ intText value ++ "·" ++ ts right ++ " d" ++ varStr var }
      let integral ← self right
      pure (BinaryOpNode BinaryOp.MUL (NumberNode value) integral.1, step :: integral.2)
  | BinaryOpNode BinaryOp.MUL left (NumberNode value) => do
      let step : MultivariateIntegrationStep :=
        { description := "Constant Multiple Rule: ∫ f·c d" ++ varStr var ++ " = c·∫ f d"
            ++ varStr var,
          expression := "∫ " ++ ts left ++ "·" ++ intText value ++ " d" ++ varStr var }
      let integral ← self left
      pure (BinaryOpNode BinaryOp.MUL (NumberNode value) integral.1, step :: integral.2)
  | BinaryOpNode BinaryOp.MUL (VariableNode name) right =>
      if name ≠ varStr var then do
        let step : MultivariateIntegrationStep :=
          { description := "Constant Multiple Rule: ∫ " ++ name ++ "·f d" ++ varStr var ++ " = "
              ++ name ++ "·∫ f d" ++ varStr var,
            expression := "∫ " ++ name ++ "·" ++ ts right ++ " d" ++ varStr var }
        let integral ← self right
        pure (BinaryOpNode BinaryOp.MUL (VariableNode name) integral.1, step :: integral.2)
      else
        some (productFallback ts var (BinaryOpNode BinaryOp.MUL (VariableNode name) right))
  | BinaryOpNode BinaryOp.MUL left (VariableNode name) =>
      if name ≠ varStr var then do
        let step : MultivariateIntegrationStep :=
          { description := "Constant Multiple Rule: ∫ f·" ++ name ++ " d" ++ varStr var ++ " = "
              ++ name ++ "·∫ f d" ++ varStr var,
            expression := "∫ " ++ ts left ++ "·" ++ name ++ " d" ++ varStr var }
        let integral ← self left
        pure (BinaryOpNode BinaryOp.MUL (VariableNode name) integral.1, step :: integral.2)
      else
        some (productFallback ts var (BinaryOpNode BinaryOp.MUL left (VariableNode name)))
  | BinaryOpNode BinaryOp.MUL left right =>
      some (productFallback ts var (BinaryOpNode BinaryOp.MUL left right))
  | BinaryOpNode BinaryOp.POW (VariableNode name) (NumberNode n) =>
      some <|
      if name = varStr var then
        if n = -1 then
          (UnaryFuncNode UnaryFunc.LN (VariableNode (varStr var)),
            [{ description := "Special case: ∫ " ++ varStr var ++ "^(-1) d" ++ varStr var
                 ++ " = ln|" ++ varStr var ++ "|",
               expression := "∫ " ++ varStr var ++ "^(-1) d" ++ varStr var ++ " = ln|"
                 ++ varStr var ++ "|" }])
        else
          let newPower :=
            BinaryOpNode BinaryOp.POW (VariableNode (varStr var)) (NumberNode (doubleAdd n 1))
          (BinaryOpNode BinaryOp.DIV newPower (NumberNode (doubleAdd n 1)),
            [{ description := "Power Rule: ∫ " ++ varStr var ++ "^n d" ++ varStr var ++ " = "
                 ++ varStr var ++ "^(n+1)/(n+1)",
               expression := "∫ " ++ varStr var ++ "^" ++ intText n ++ " d" ++ varStr var ++ " = "
                 ++ varStr var ++ "^" ++ intText (doubleAdd n 1) ++ "/"
                 ++ intText (doubleAdd n 1) }])
      else
        (BinaryOpNode BinaryOp.MUL
            (clone (BinaryOpNode BinaryOp.POW (VariableNode name) (NumberNode n)))
            (VariableNode (varStr var)),
          [{ description := "Constant Rule: ∫ " ++ name ++ "^n d" ++ varStr var ++ " = " ++ name
               ++ "^n·" ++ varStr var,
             expression := "∫ " ++ ts (BinaryOpNode BinaryOp.POW (VariableNode name) (NumberNode n))
               ++ " d" ++ varStr var ++ " = "
               ++ ts (BinaryOpNode BinaryOp.POW (VariableNode name) (NumberNode n)) ++ "·"
               ++ varStr var }])
  | BinaryOpNode BinaryOp.POW left right => some (clone (BinaryOpNode BinaryOp.POW left right), [])
  | BinaryOpNode BinaryOp.DIV left right => some (clone (BinaryOpNode BinaryOp.DIV left right), [])
  | UnaryFuncNode func (VariableNode name) =>
      some <|
      if name = varStr var then
        match func with
        | UnaryFunc.SIN =>
            let cosNode := UnaryFuncNode UnaryFunc.COS (VariableNode (varStr var))
            (BinaryOpNode BinaryOp.MUL (NumberNode (-1)) cosNode,
              [{ description := "Trig Rule: ∫ sin(" ++ varStr var ++ ") d" ++ varStr var
                   ++ " = -cos(" ++ varStr var ++ ")",
                 expression := "∫ sin(" ++ varStr var ++ ") d" ++ varStr var ++ " = -cos("
                   ++ varStr var ++ ")" }])
        | UnaryFunc.COS =>
            (UnaryFuncNode UnaryFunc.SIN (VariableNode (varStr var)),
              [{ description := "Trig Rule: ∫ cos(" ++ varStr var ++ ") d" ++ varStr var
                   ++ " = sin(" ++ varStr var ++ ")",
                 expression := "∫ cos(" ++ varStr var ++ ") d" ++ varStr var ++ " = sin("
                   ++ varStr var ++ ")" }])
        | UnaryFunc.EXP =>
            (UnaryFuncNode UnaryFunc.EXP (VariableNode (varStr var)),
              [{ description := "Exponential Rule: ∫ exp(" ++ varStr var ++ ") d" ++ varStr var
                   ++ " = exp(" ++ varStr var ++ ")",
                 expression := "∫ exp(" ++ varStr var ++ ") d" ++ varStr var ++ " = exp("
                   ++ varStr var ++ ")" }])
        | _ =>
            (clone (UnaryFuncNode func (VariableNode name)),
              [{ description := "Advanced integration (not implemented)",
                 expression := "∫ " ++ ts (UnaryFuncNode func (VariableNode name)) ++ " d"
                   ++ varStr var }])
      else
        (BinaryOpNode BinaryOp.MUL (clone (UnaryFuncNode func (VariableNode name)))
            (VariableNode (varStr var)),
          [{ description := "Constant Rule: function of " ++ name ++ " treated as constant",
             expression := "∫ " ++ ts (UnaryFuncNode func (VariableNode name)) ++ " d"
               ++ varStr var ++ " = " ++ ts (UnaryFuncNode func (VariableNode name)) ++ "·"
               ++ varStr var }])
  | UnaryFuncNode func arg => some (clone (UnaryFuncNode func arg), [])

/-- The function `MultivariateIntegrator::integrateNode` run with a bound on
the depth of nested calls: `none` when the bound is exhausted before the call
returns. -/
def integrateNodeFuel (ts : ASTNode → String) (var : IntegrationVariable) :
    ℕ → ASTNode → Option (ASTNode × List MultivariateIntegrationStep)
  | 0, _ => none
  | fuel + 1, node => integrateNodeBody ts var (integrateNodeFuel ts var fuel) node

/-- The function `MultivariateIntegrator::integrate`: the integral tree and
the step log after the call. -/
def integrate (ts : ASTNode → String) (root : ASTNode) (var : IntegrationVariable) :
    ASTNode × List MultivariateIntegrationStep :=
  let initialStep : MultivariateIntegrationStep :=
    { description := "Initial expression",
      expression := "∫ " ++ ts root ++ " d" ++ varStr var }
  let result := integrateNode ts var root
  let finalStep : MultivariateIntegrationStep :=
    { description := "Final integral (+ C for indefinite)",
      expression := "∫ f d" ++ varStr var ++ " = " ++ ts result.1 ++ " + C" }
  (result.1, initialStep :: (result.2 ++ [finalStep]))

/-- The function `MultivariateIntegrator::doubleIntegrate` in exact arithmetic
over a field `K`: the midpoint sum over the `100 × 100` grid and the step log
after the call. `evaluate` stands for `ASTNode::evaluate(x, y)` and
`doubleText` for `std::to_string(double)`. -/
def doubleIntegrate {K : Type} [Field K] (ts : ASTNode → String)
    (evaluate : ASTNode → K → K → K) (doubleText : K → String) (root : ASTNode)
    (x_lower x_upper y_lower y_upper : K) : K × List MultivariateIntegrationStep :=
  let initialStep : MultivariateIntegrationStep :=
    { description := "Double integration setup",
      expression := "∫[" ++ doubleText x_lower ++ "," ++ doubleText x_upper ++ "] ∫["
        ++ doubleText y_lower ++ "," ++ doubleText y_upper ++ "] " ++ ts root ++ " dy dx" }
  let n_steps : ℕ := 100
  let dx : K := (x_upper - x_lower) / (n_steps : K)
  let dy : K := (y_upper - y_lower) / (n_steps : K)
  let sum : K :=
    (List.range n_steps).foldl
      (fun (sum : K) (i : ℕ) =>
        let x : K := x_lower + ((i : K) + 1 / 2) * dx
        (List.range n_steps).foldl
          (fun (sum : K) (j : ℕ) =>
            let y : K := y_lower + ((j : K) + 1 / 2) * dy
            sum + evaluate root x y * dx * dy)
          sum)
      0
  let resultStep : MultivariateIntegrationStep :=
    { description := "Numerical evaluation using Riemann sum",
      expression := "Result ≈ " ++ doubleText sum }
  (sum, [initialStep, resultStep])

/-- The private members `steps` and `variable` of
`class MultivariateIntegrator`. -/
structure State where
  steps : List MultivariateIntegrationStep
  variable_ : IntegrationVariable

/-- The method `MultivariateIntegrator::integrate` as a transformer of the
engine state: `steps.clear()`, `variable = var`, then the entries of
`integrate` are pushed; `integrateNode` reads the member `variable`. -/
def State.integrate (self : State) (ts : ASTNode → String) (root : ASTNode)
    (var : IntegrationVariable) : ASTNode × State :=
  let cleared : State := { self with steps := [] }
  let selected : State := { cleared with variable_ := var }
  let run := MultivariateIntegrator.integrate ts root selected.variable_
  (run.1, { selected with steps := selected.steps ++ run.2 })

/-- The method `MultivariateIntegrator::doubleIntegrate` as a transformer of
the engine state: `steps.clear()`, then the entries of `doubleIntegrate` are
pushed; the member `variable` is neither read nor written. -/
def State.doubleIntegrate {K : Type} [Field K] (self : State) (ts : ASTNode → String)
    (evaluate : ASTNode → K → K → K) (doubleText : K → String) (root : ASTNode)
    (x_lower x_upper y_lower y_upper : K) : K × State :=
  let cleared : State := { self with steps := [] }
  let run :=
    MultivariateIntegrator.doubleIntegrate ts evaluate doubleText root x_lower x_upper y_lower
      y_upper
  (run.1, { cleared with steps := cleared.steps ++ run.2 })

end MultivariateIntegrator

/-! ## Text output of numbers (C++ standard library) -/

/-- The text output of a `double`, which belongs to the C++ standard library:
`fixed p x` is `oss << std::fixed << std::setprecision(p) << x`, `general x`
is `oss << x` in the default format, and `to_string x` is
`std::to_string(x)`. -/
structure DoubleText (K : Type) where
  fixed : ℕ → K → String
  general : K → String
  to_string : K → String

/-! ## `fourier_series.h` / `fourier_series.cpp` -/

/-- The trace entry `struct FourierStep`. -/
structure FourierStep where
  description : String
  expression : String
  deriving DecidableEq

namespace FourierSeriesCalculator

/-- The function `FourierSeriesCalculator::computeCoefficient` in exact
arithmetic over an ordered field `K`. `evaluate` stands for
`ASTNode::evaluate(x)`, `cos` and `sin` for `std::cos` and `std::sin`, and
`pi` for the macro `M_PI`. -/
def computeCoefficient {K : Type} [LinearOrderedField K] (evaluate : ASTNode → K → K)
    (cos sin : K → K) (pi : K) (func : ASTNode) (L : K) (n : ℤ) (isCosine : Bool) : K :=
  let a : K := -L
  let b : K := L
  let samples : ℕ := 1000
  let dx : K := (b - a) / (samples : K)
  let sum : K :=
    (List.range (samples + 1)).foldl
      (fun (sum : K) (i : ℕ) =>
        let x : K := a + (i : K) * dx
        let weight : K := if i = 0 ∨ i = samples then 1 / 2 else 1
        let funcValue : K := evaluate func x
        if isCosine then
          sum + weight * funcValue * cos ((n : K) * pi * x / L)
        else
          sum + weight * funcValue * sin ((n : K) * pi * x / L))
      0
  sum * dx / L

/-- The local `a0` of `computeFourierSeries`. -/
def a0 {K : Type} [LinearOrderedField K] (evaluate : ASTNode → K → K) (cos sin : K → K)
    (pi : K) (func : ASTNode) (L : K) : K :=
  2 * computeCoefficient evaluate cos sin pi func L 0 true

/-- The function `FourierSeriesCalculator::computeFourierSeries`: the returned
text and the step log after the call. -/
def computeFourierSeries {K : Type} [LinearOrderedField K] (ts : ASTNode → String)
    (fmt : DoubleText K) (evaluate : ASTNode → K → K) (cos sin : K → K) (pi : K)
    (func : ASTNode) (L : K) (numTerms : ℤ) : String × List FourierStep :=
  let step1 : FourierStep :=
    { description := "=== Fourier Series Expansion ===",
      expression := "Function: f(x) = " ++ ts func }
  let step2 : FourierStep :=
    { description := "Period information:",
      expression := "Period = 2L = " ++ fmt.fixed 2 (2 * L) ++ ", L = " ++ fmt.fixed 2 L }
  let step3 : FourierStep :=
    { description := "Fourier series formula:",
      expression := "f(x) = a₀/2 + Σ[aₙcos(nπx/L) + bₙsin(nπx/L)]" }
  let step4 : FourierStep :=
    { description := "Coefficient formulas:",
      expression := "a₀ = (1/L)∫[-L,L] f(x)dx" }
  let step5 : FourierStep :=
    { description := "",
      expression := "aₙ = (1/L)∫[-L,L] f(x)cos(nπx/L)dx" }
  let step6 : FourierStep :=
    { description := "",
      expression := "bₙ = (1/L)∫[-L,L] f(x)sin(nπx/L)dx" }
  let step7 : FourierStep :=
    { description := "--- Computing Coefficients ---",
      expression := "" }
  let a0 : K := a0 evaluate cos sin pi func L
  let step8 : FourierStep :=
    { description := "Constant term:",
      expression := "a₀/2 = " ++ fmt.fixed 4 (a0 / 2) }
  let result : String := fmt.fixed 4 (a0 / 2)
  let loop : String × List FourierStep :=
    (List.range numTerms.toNat).foldl
      (fun (acc : String × List FourierStep) (i : ℕ) =>
        let n : ℤ := (i : ℤ) + 1
        let an : K := computeCoefficient evaluate cos sin pi func L n true
        let bn : K := computeCoefficient evaluate cos sin pi func L n false
        let stepN : FourierStep :=
          { description := "Term n = " ++ toString n ++ ":",
            expression := "a" ++ toString n ++ " = " ++ fmt.fixed 4 an ++ ", b" ++ toString n
              ++ " = " ++ fmt.fixed 4 bn }
        let result1 : String :=
          if |an| > 1 / 10 ^ 4 then
            acc.1 ++ (if an > 0 then " + " else " ") ++ fmt.fixed 4 an ++ "cos(" ++ toString n
              ++ "πx/" ++ fmt.fixed 4 L ++ ")"
          else acc.1
        let result2 : String :=
          if |bn| > 1 / 10 ^ 4 then
            result1 ++ (if bn > 0 then " + " else " ") ++ fmt.fixed 4 bn ++ "sin(" ++ toString n
              ++ "πx/" ++ fmt.fixed 4 L ++ ")"
          else result1
        (result2, acc.2 ++ [stepN]))
      (result, [step1, step2, step3, step4, step5, step6, step7, step8])
  let finalStep : FourierStep :=
    { description := "=== Fourier Series (first " ++ toString numTerms ++ " terms) ===",
      expression := "f(x) ≈ " ++ loop.1 }
  let noteStep : FourierStep :=
    { description := "Note:",
      expression := "More terms provide better approximation" }
  (loop.1, loop.2 ++ [finalStep, noteStep])

end FourierSeriesCalculator

/-! ## `linear_transformation.h` / `linear_transformation.cpp` -/

/-- The trace entry `struct TransformationStep`. -/
structure TransformationStep where
  description : String
  expression : String
  deriving DecidableEq

/-- The matrix `struct Matrix2D`, `[[a, b], [c, d]]`. -/
structure Matrix2D (K : Type) where
  a : K
  b : K
  c : K
  d : K

/-- The function `Matrix2D::toString`. -/
def Matrix2D.toString {K : Type} (fmt : DoubleText K) (m : Matrix2D K) : String :=
  "[[" ++ fmt.fixed 2 m.a ++ ", " ++ fmt.fixed 2 m.b ++ "], [" ++ fmt.fixed 2 m.c ++ ", "
    ++ fmt.fixed 2 m.d ++ "]]"

namespace LinearTransformation

/-- The function `LinearTransformation::composeTransformations`: the product
matrix and the steps appended. -/
def composeTransformations {K : Type} [LinearOrderedField K] (fmt : DoubleText K)
    (T1 T2 : Matrix2D K) : Matrix2D K × List TransformationStep :=
  let step : TransformationStep :=
    { description := "Composing transformations: T₁ ∘ T₂ (apply T₂ first, then T₁)",
      expression := T1.toString fmt ++ " × " ++ T2.toString fmt }
  let result : Matrix2D K :=
    { a := T1.a * T2.a + T1.b * T2.c,
      b := T1.a * T2.b + T1.b * T2.d,
      c := T1.c * T2.a + T1.d * T2.c,
      d := T1.c * T2.b + T1.d * T2.d }
  let calcStep : TransformationStep :=
    { description := "Matrix multiplication result",
      expression := "T₁ ∘ T₂ = " ++ result.toString fmt }
  (result, [step, calcStep])

/-- The function `LinearTransformation::computeInverse`: the returned matrix
and the steps appended. -/
def computeInverse {K : Type} [LinearOrderedField K] (fmt : DoubleText K)
    (matrix : Matrix2D K) : Matrix2D K × List TransformationStep :=
  let det : K := matrix.a * matrix.d - matrix.b * matrix.c
  let detStep : TransformationStep :=
    { description := "Computing determinant for inverse",
      expression := "det(A) = " ++ fmt.fixed 2 det }
  if |det| < 1 / 10 ^ 10 then
    let errorStep : TransformationStep :=
      { description := "Matrix is not invertible (det = 0)",
        expression := "Inverse does not exist" }
    ({ a := 0, b := 0, c := 0, d := 0 }, [detStep, errorStep])
  else
    let formulaStep : TransformationStep :=
      { description := "Inverse formula: A⁻¹ = (1/det) × [[d, -b], [-c, a]]",
        expression := "Applying inverse formula" }
    let inverse : Matrix2D K :=
      { a := matrix.d / det,
        b := -matrix.b / det,
        c := -matrix.c / det,
        d := matrix.a / det }
    let resultStep : TransformationStep :=
      { description := "Inverse matrix",
        expression := "A⁻¹ = " ++ inverse.toString fmt }
    (inverse, [detStep, formulaStep, resultStep])

end LinearTransformation

/-! ## `eigenvalues.h` / `eigenvalues.cpp` -/

/-- The trace entry `struct EigenStep`. -/
structure EigenStep where
  description : String
  expression : String
  deriving DecidableEq

namespace EigenvalueCalculator

/-- The function `EigenvalueCalculator::solve2x2CharacteristicEquation` in
exact arithmetic: the pair `(lambda1, lambda2)`, each `std::complex<double>`
given as `(real, imag)`. `sqrt` stands for `std::sqrt`. -/
def solve2x2CharacteristicEquation {K : Type} [LinearOrderedField K] (sqrt : K → K)
    (a b c d : K) : (K × K) × (K × K) :=
  let trace : K := a + d
  let det : K := a * d - b * c
  let discriminant : K := trace * trace - 4 * det
  if discriminant ≥ 0 then
    (((trace + sqrt discriminant) / 2, 0), ((trace - sqrt discriminant) / 2, 0))
  else
    let realPart : K := trace / 2
    let imagPart : K := sqrt (-discriminant) / 2
    ((realPart, imagPart), (realPart, -imagPart))

/-- The locals `(v1, v2)` of `analyze2x2Matrix`: the eigenvector reported for
`l1` (lines 106-116). -/
def eigenvector1 {K : Type} [LinearOrderedField K] (a b c d l1 : K) : K × K :=
  if |b| > 1 / 10 ^ 10 then (1, -(a - l1) / b)
  else if |c| > 1 / 10 ^ 10 then (-(d - l1) / c, 1)
  else (1, 0)

/-- The locals `(w1, w2)` of `analyze2x2Matrix`: the eigenvector reported for
`l2` (lines 138-148). -/
def eigenvector2 {K : Type} [LinearOrderedField K] (a b c d l2 : K) : K × K :=
  if |b| > 1 / 10 ^ 10 then (1, -(a - l2) / b)
  else if |c| > 1 / 10 ^ 10 then (-(d - l2) / c, 1)
  else (0, 1)

/-- The function `EigenvalueCalculator::analyze2x2Matrix`: the step log after
the call. -/
def analyze2x2Matrix {K : Type} [LinearOrderedField K] (fmt : DoubleText K) (sqrt : K → K)
    (a b c d : K) : List EigenStep :=
  let step1 : EigenStep :=
    { description := "=== Eigenvalue & Eigenvector Analysis ===",
      expression := "Matrix A = [" ++ fmt.general a ++ " " ++ fmt.general b ++ "; "
        ++ fmt.general c ++ " " ++ fmt.general d ++ "]" }
  let step2 : EigenStep :=
    { description := "--- Step 1: Find Characteristic Polynomial ---",
      expression := "det(A - λI) = 0" }
  let step3 : EigenStep :=
    { description := "Expanding:",
      expression := "det([" ++ fmt.general a ++ "-λ  " ++ fmt.general b ++ "; " ++ fmt.general c
        ++ "  " ++ fmt.general d ++ "-λ]) = 0" }
  let trace : K := a + d
  let det : K := a * d - b * c
  let step4 : EigenStep :=
    { description := "Characteristic equation:",
      expression := "λ² - " ++ fmt.fixed 4 trace ++ "λ + " ++ fmt.fixed 4 det ++ " = 0" }
  let step5 : EigenStep :=
    { description := "--- Step 2: Solve for Eigenvalues ---",
      expression := "" }
  let lambdas := solve2x2CharacteristicEquation sqrt a b c d
  let lambda1 : K × K := lambdas.1
  let lambda2 : K × K := lambdas.2
  let step6 : EigenStep :=
    { description := "Using quadratic formula:",
      expression := "λ = [" ++ fmt.fixed 4 trace ++ " ± √(" ++ fmt.fixed 4 (trace * trace - 4 * det)
        ++ ")] / 2" }
  let step7 : EigenStep :=
    { description := "Eigenvalues:",
      expression :=
        if lambda1.2 = 0 then
          "λ₁ = " ++ fmt.fixed 4 lambda1.1 ++ "\n" ++ "λ₂ = " ++ fmt.fixed 4 lambda2.1
        else
          "λ₁ = " ++ fmt.fixed 4 lambda1.1 ++ " + " ++ fmt.fixed 4 lambda1.2 ++ "i\n" ++ "λ₂ = "
            ++ fmt.fixed 4 lambda2.1 ++ " - " ++ fmt.fixed 4 lambda2.2 ++ "i" }
  let step8 : EigenStep :=
    { description := "--- Step 3: Find Eigenvectors ---",
      expression := "For each λ, solve (A - λI)v = 0" }
  let head : List EigenStep := [step1, step2, step3, step4, step5, step6, step7, step8]
  if lambda1.2 = 0 then
    let l1 : K := lambda1.1
    let step9 : EigenStep :=
      { description := "For λ₁ = " ++ fmt.to_string l1 ++ ":",
        expression := "[" ++ fmt.fixed 4 (a - l1) ++ " " ++ fmt.fixed 4 b ++ "; " ++ fmt.fixed 4 c
          ++ " " ++ fmt.fixed 4 (d - l1) ++ "][v₁; v₂] = 0" }
    let v := eigenvector1 a b c d l1
    let step10 : EigenStep :=
      { description := "Eigenvector v₁:",
        expression := "v₁ = [" ++ fmt.fixed 4 v.1 ++ "; " ++ fmt.fixed 4 v.2 ++ "]" }
    let l2 : K := lambda2.1
    if |l1 - l2| > 1 / 10 ^ 10 then
      let step11 : EigenStep :=
        { description := "For λ₂ = " ++ fmt.to_string l2 ++ ":",
          expression := "[" ++ fmt.fixed 4 (a - l2) ++ " " ++ fmt.fixed 4 b ++ "; "
            ++ fmt.fixed 4 c ++ " " ++ fmt.fixed 4 (d - l2) ++ "][v₁; v₂] = 0" }
      let w := eigenvector2 a b c d l2
      let step12 : EigenStep :=
        { description := "Eigenvector v₂:",
          expression := "v₂ = [" ++ fmt.fixed 4 w.1 ++ "; " ++ fmt.fixed 4 w.2 ++ "]" }
      head ++ [step9, step10, step11, step12]
    else
      head ++ [step9, step10]
  else
    let step9 : EigenStep :=
      { description := "Complex eigenvalues:",
        expression := "Eigenvectors are also complex (conjugate pairs)" }
    head ++ [step9]

end EigenvalueCalculator

/-! ## `statistics.h` / `statistics.cpp` -/

/-- The trace entry `struct StatisticsStep`. -/
structure StatisticsStep where
  description : String
  expression : String
  deriving DecidableEq

namespace StatisticsCalculator

/-- The function `StatisticsCalculator::mean`; `none` stands for a division by
a zero size. -/
def mean {K : Type} [LinearOrderedField K] (data : List K) : Option K :=
  if data.length = 0 then none
  else some (data.foldl (fun (acc : K) (x : K) => acc + x) 0 / (data.length : K))

/-- The function `StatisticsCalculator::median`; `none` stands for an element
access outside the vector. `size_t` arithmetic is taken modulo `2 ^ 64`. -/
def median {K : Type} [LinearOrderedField K] (data : List K) : Option K :=
  let data : List K := data.mergeSort (fun x y => decide (x ≤ y))
  let n : ℕ := data.length
  if n % 2 = 0 then do
    let lower ← data[(n / 2 + 2 ^ 64 - 1) % 2 ^ 64]?
    let upper ← data[n / 2]?
    pure ((lower + upper) / 2)
  else
    data[n / 2]?

/-- The function `StatisticsCalculator::variance`; `none` stands for a division
by a zero size. -/
def variance {K : Type} [LinearOrderedField K] (data : List K) (mean : K) : Option K :=
  let sum : K := data.foldl (fun (sum : K) (x : K) => sum + (x - mean) * (x - mean)) 0
  if data.length = 0 then none else some (sum / (data.length : K))

/-- The function `StatisticsCalculator::standardDeviation`; `sqrt` stands for
`std::sqrt`. -/
def standardDeviation {K : Type} [LinearOrderedField K] (sqrt : K → K) (data : List K)
    (mean : K) : Option K :=
  (variance data mean).map sqrt

/-- The text of the local `oss2` of `analyzeDataSet`: the first twenty values,
separated by `", "`; `none` stands for an element access outside the vector. -/
def dataValuesText {K : Type} [LinearOrderedField K] (fmt : DoubleText K) (data : List K) :
    Option String :=
  (List.range (min data.length 20)).foldlM
    (fun (oss2 : String) (i : ℕ) => do
      let x ← data[i]?
      pure (oss2 ++ (if i > 0 then ", " else "") ++ fmt.fixed 2 x))
    ""

/-- The function `StatisticsCalculator::analyzeDataSet`: the step log after the
call, or `none` when the run makes an element access outside a vector, takes
the extremum of an empty range, or divides by a zero size. -/
def analyzeDataSet {K : Type} [LinearOrderedField K] (fmt : DoubleText K) (sqrt : K → K)
    (data : List K) : Option (List StatisticsStep) := do
  let step1 : StatisticsStep :=
    { description := "=== Descriptive Statistics ===",
      expression := "Data set size: n = " ++ toString data.length }
  let values ← dataValuesText fmt data
  let step2 : StatisticsStep :=
    { description := "Data values:",
      expression := values ++ (if data.length > 20 then ", ..." else "") }
  let m ← mean data
  let step3 : StatisticsStep :=
    { description := "--- Mean (Average) ---",
      expression := "x̄ = Σxᵢ/n = " ++ fmt.fixed 4 m }
  let med ← median data
  let step4 : StatisticsStep :=
    { description := "--- Median (Middle Value) ---",
      expression := "Median = " ++ fmt.fixed 4 med }
  let minVal ← data.min?
  let maxVal ← data.max?
  let range : K := maxVal - minVal
  let step5 : StatisticsStep :=
    { description := "--- Range ---",
      expression := "Min = " ++ fmt.fixed 4 minVal ++ ", Max = " ++ fmt.fixed 4 maxVal ++ "\n"
        ++ "Range = " ++ fmt.fixed 4 range }
  let var ← variance data m
  let step6 : StatisticsStep :=
    { description := "--- Variance ---",
      expression := "σ² = Σ(xᵢ - x̄)²/n = " ++ fmt.fixed 4 var }
  let sd ← standardDeviation sqrt data m
  let step7 : StatisticsStep :=
    { description := "--- Standard Deviation ---",
      expression := "σ = √(σ²) = " ++ fmt.fixed 4 sd }
  let sortedData : List K := data.mergeSort (fun x y => decide (x ≤ y))
  let n : ℕ := sortedData.length
  let quartiles : List StatisticsStep ←
    if n ≥ 4 then do
      let q1 ← sortedData[n / 4]?
      let q3 ← sortedData[3 * n % 2 ^ 64 / 4]?
      let iqr : K := q3 - q1
      let step8 : StatisticsStep :=
        { description := "--- Quartiles ---",
          expression := "Q1 = " ++ fmt.fixed 4 q1 ++ ", Q3 = " ++ fmt.fixed 4 q3 ++ "\n"
            ++ "IQR (Interquartile Range) = " ++ fmt.fixed 4 iqr }
      pure [step8]
    else pure []
  let summary : StatisticsStep :=
    { description := "=== Summary ===",
      expression := "Center: mean = " ++ fmt.fixed 2 m ++ ", median = " ++ fmt.fixed 2 med ++ "\n"
        ++ "Spread: σ = " ++ fmt.fixed 2 sd }
  pure ([step1, step2, step3, step4, step5, step6, step7] ++ quartiles ++ [summary])

/-- The local `binomCoeff` of `binomialProbability` after its loop (lines
221-224), in unbounded integer arithmetic; `/` on integers truncates toward
zero. -/
def binomCoeff (n k : ℤ) : ℤ :=
  (List.range k.toNat).foldl
    (fun (binomCoeff : ℤ) (i : ℕ) => Int.tdiv (binomCoeff * (n - (i : ℤ))) ((i : ℤ) + 1))
    1

end StatisticsCalculator

/-! ## Fragments of the tree language and sample trees -/

/-- A literal holds a natural number `n ≥ 1`. -/
def isPositiveNatural (q : ℚ) : Bool :=
  decide (q.den = 1 ∧ 1 ≤ q.num)

/-- A literal holds a natural number. -/
def isNatural (q : ℚ) : Bool :=
  decide (q.den = 1 ∧ 0 ≤ q.num)

/-- The smooth fragment: trees built only from `Number`, `Variable`, `ADD`,
`SUB`, `MUL`, `SIN`, `COS`, `EXP`, and `POW` whose exponent is a literal
holding a natural number `n ≥ 1`. -/
def smoothFragment : ASTNode → Bool
  | NumberNode _ => true
  | VariableNode _ => true
  | BinaryOpNode BinaryOp.ADD l r => smoothFragment l && smoothFragment r
  | BinaryOpNode BinaryOp.SUB l r => smoothFragment l && smoothFragment r
  | BinaryOpNode BinaryOp.MUL l r => smoothFragment l && smoothFragment r
  | BinaryOpNode BinaryOp.DIV _ _ => false
  | BinaryOpNode BinaryOp.POW l (NumberNode n) => isPositiveNatural n && smoothFragment l
  | BinaryOpNode BinaryOp.POW _ _ => false
  | UnaryFuncNode UnaryFunc.SIN a => smoothFragment a
  | UnaryFuncNode UnaryFunc.COS a => smoothFragment a
  | UnaryFuncNode UnaryFunc.EXP a => smoothFragment a
  | UnaryFuncNode _ _ => false

/-- The supported rule subset of the round trip, for the selector `var`:
`Number`, `Variable`, `ADD`, `SUB`, `MUL` with at least one literal `Number`
operand, `POW(Variable v, Number n)` with `n` a natural number, and
`SIN`/`COS`/`EXP` applied directly to `Variable v`. -/
def roundTripFragment (var : IntegrationVariable) : ASTNode → Bool
  | NumberNode _ => true
  | VariableNode _ => true
  | BinaryOpNode BinaryOp.ADD l r => roundTripFragment var l && roundTripFragment var r
  | BinaryOpNode BinaryOp.SUB l r => roundTripFragment var l && roundTripFragment var r
  | BinaryOpNode BinaryOp.MUL l r =>
      (decide (l.type = NodeType.NUMBER) || decide (r.type = NodeType.NUMBER))
        && roundTripFragment var l && roundTripFragment var r
  | BinaryOpNode BinaryOp.DIV _ _ => false
  | BinaryOpNode BinaryOp.POW (VariableNode name) (NumberNode n) =>
      decide (name = MultivariateIntegrator.varStr var) && isNatural n
  | BinaryOpNode BinaryOp.POW _ _ => false
  | UnaryFuncNode func (VariableNode name) =>
      decide (name = MultivariateIntegrator.varStr var)
        && (decide (func = UnaryFunc.SIN) || decide (func = UnaryFunc.COS)
          || decide (func = UnaryFunc.EXP))
  | UnaryFuncNode _ _ => false

/-- Every literal exponent of a `POW` node of the tree is at most `bound`. -/
def exponentsAtMost (bound : ℚ) : ASTNode → Bool
  | NumberNode _ => true
  | VariableNode _ => true
  | BinaryOpNode BinaryOp.POW l (NumberNode n) => decide (n ≤ bound) && exponentsAtMost bound l
  | BinaryOpNode _ l r => exponentsAtMost bound l && exponentsAtMost bound r
  | UnaryFuncNode _ a => exponentsAtMost bound a

/-- The tree `x ^ 1e16`. -/
def xToTheTenToSixteen : ASTNode :=
  BinaryOpNode BinaryOp.POW (VariableNode "x") (NumberNode 10000000000000000)

/-- The tree `x ^ 9007199254740992`, the exponent being `2 ^ 53`. -/
def xToTheTwoToFiftyThree : ASTNode :=
  BinaryOpNode BinaryOp.POW (VariableNode "x") (NumberNode 9007199254740992)

/-- The `double` nearest to `0.1`, the value of the literal `0.1`. -/
def oneTenth : ℚ := 3602879701896397 / 36028797018963968

/-- The tree `x * sin(x)`. -/
def xTimesSinX : ASTNode :=
  BinaryOpNode BinaryOp.MUL (VariableNode "x") (UnaryFuncNode UnaryFunc.SIN (VariableNode "x"))

/-- The tree `x ^ 3`. -/
def xCubed : ASTNode := BinaryOpNode BinaryOp.POW (VariableNode "x") (NumberNode 3)

/-- The tree `x ^ 2`. -/
def xSquared : ASTNode := BinaryOpNode BinaryOp.POW (VariableNode "x") (NumberNode 2)

/-- The tree `sin(x)`. -/
def sinX : ASTNode := UnaryFuncNode UnaryFunc.SIN (VariableNode "x")

/-- The tree `exp(x)`. -/
def expX : ASTNode := UnaryFuncNode UnaryFunc.EXP (VariableNode "x")

/-- The tree `3 * x`. -/
def threeX : ASTNode := BinaryOpNode BinaryOp.MUL (NumberNode 3) (VariableNode "x")

/-- The tree `tan(x)`. -/
def tanX : ASTNode := UnaryFuncNode UnaryFunc.TAN (VariableNode "x")

/-- The tree `x * y`. -/
def xTimesY : ASTNode := BinaryOpNode BinaryOp.MUL (VariableNode "x") (VariableNode "y")

/-- The tree `1 / x`. -/
def oneOverX : ASTNode := BinaryOpNode BinaryOp.DIV (NumberNode 1) (VariableNode "x")

/-- The tree `x ^ y`, a power with a symbolic exponent. -/
def xToTheY : ASTNode := BinaryOpNode BinaryOp.POW (VariableNode "x") (VariableNode "y")

/-- The tree `y ^ 3`. -/
def yCubed : ASTNode := BinaryOpNode BinaryOp.POW (VariableNode "y") (NumberNode 3)

/-- The tree `sin(y)`. -/
def sinY : ASTNode := UnaryFuncNode UnaryFunc.SIN (VariableNode "y")

/-- The circle `F = x^2 + y^2 - 1`. -/
def circle : ASTNode :=
  BinaryOpNode BinaryOp.SUB
    (BinaryOpNode BinaryOp.ADD
      (BinaryOpNode BinaryOp.POW (VariableNode "x") (NumberNode 2))
      (BinaryOpNode BinaryOp.POW (VariableNode "y") (NumberNode 2)))
    (NumberNode 1)

/-- A variable named `name` occurs in the tree. -/
def occursVariable (name : String) : ASTNode → Bool
  | NumberNode _ => false
  | VariableNode n => decide (n = name)
  | BinaryOpNode _ l r => occursVariable name l || occursVariable name r
  | UnaryFuncNode _ a => occursVariable name a

/-- The tree `tan(y) / sqrt(z)`, in which `x` does not occur. -/
def tanYOverSqrtZ : ASTNode :=
  BinaryOpNode BinaryOp.DIV (UnaryFuncNode UnaryFunc.TAN (VariableNode "y"))
    (UnaryFuncNode UnaryFunc.SQRT (VariableNode "z"))

/-- The tree `sin(x) * exp(x)`, a product of two non-constant subexpressions. -/
def sinXTimesExpX : ASTNode :=
  BinaryOpNode BinaryOp.MUL (UnaryFuncNode UnaryFunc.SIN (VariableNode "x"))
    (UnaryFuncNode UnaryFunc.EXP (VariableNode "x"))

/-- The tree `x + sin(x)`. -/
def xPlusSinX : ASTNode :=
  BinaryOpNode BinaryOp.ADD (VariableNode "x") (UnaryFuncNode UnaryFunc.SIN (VariableNode "x"))

/-- A `UnaryFunc` `TAN` node occurs in the tree. -/
def containsTan : ASTNode → Bool
  | NumberNode _ => false
  | VariableNode _ => false
  | BinaryOpNode _ l r => containsTan l || containsTan r
  | UnaryFuncNode UnaryFunc.TAN _ => true
  | UnaryFuncNode _ a => containsTan a

/-- Every `POW` node of the tree has a literal `Number` as its exponent. -/
def literalExponents : ASTNode → Bool
  | NumberNode _ => true
  | VariableNode _ => true
  | BinaryOpNode BinaryOp.POW l (NumberNode _) => literalExponents l
  | BinaryOpNode BinaryOp.POW _ _ => false
  | BinaryOpNode _ l r => literalExponents l && literalExponents r
  | UnaryFuncNode _ a => literalExponents a

/-- The vector `(A - l·I) v` for `A = [[a, b], [c, d]]`. -/
def eigenResidual {K : Type} [LinearOrderedField K] (a b c d l : K) (v : K × K) : K × K :=
  ((a - l) * v.1 + b * v.2, c * v.1 + (d - l) * v.2)

/-! ## Lemmas on the tree and on literals -/

/-- A deep copy is structurally equal to the original. -/
@[simp]
theorem ASTNode.clone_eq (e : ASTNode) : clone e = e := by
  induction e with
  | NumberNode v => rfl
  | VariableNode n => rfl
  | BinaryOpNode op l r ihl ihr => simp [clone, ihl, ihr]
  | UnaryFuncNode f a ih => simp [clone, ih]

/-- A literal accepted by `isNatural` is the cast of a natural number. -/
theorem isNatural_spec {q : ℚ} (h : isNatural q = true) : ∃ n : ℕ, q = (n : ℚ) := by
  simp only [isNatural, decide_eq_true_eq] at h
  obtain ⟨hd, hn⟩ := h
  refine ⟨q.num.toNat, ?_⟩
  have h1 : q = (q.num : ℚ) := ((Rat.den_eq_one_iff q).mp hd).symm
  have h2 : ((q.num.toNat : ℤ)) = q.num := Int.toNat_of_nonneg hn
  rw [← Int.cast_natCast, h2]
  exact h1

/-- A literal accepted by `isPositiveNatural` is the cast of some `n ≥ 1`. -/
theorem isPositiveNatural_spec {q : ℚ} (h : isPositiveNatural q = true) :
    ∃ n : ℕ, 1 ≤ n ∧ q = (n : ℚ) := by
  simp only [isPositiveNatural, decide_eq_true_eq] at h
  obtain ⟨hd, hn⟩ := h
  refine ⟨q.num.toNat, by omega, ?_⟩
  have h1 : q = (q.num : ℚ) := ((Rat.den_eq_one_iff q).mp hd).symm
  have h2 : ((q.num.toNat : ℤ)) = q.num := Int.toNat_of_nonneg (by omega)
  rw [← Int.cast_natCast, h2]
  exact h1

/-- A power with a natural literal exponent evaluates to the monomial power. -/
theorem eval_pow_natCast (env : String → ℝ) (l : ASTNode) (n : ℕ) :
    eval env (BinaryOpNode BinaryOp.POW l (NumberNode (n : ℚ))) = (eval env l) ^ n := by
  simp [eval]

/-! ## Lemmas on `double` arithmetic -/

section DoubleLemmas

/-- Rounding an integer gives the integer. -/
theorem roundHalfEven_intCast (z : ℤ) : roundHalfEven (z : ℚ) = z := by
  simp [roundHalfEven]

/-- A tie between `f` and `f + 1` goes to the even one. -/
theorem roundHalfEven_eq_of_tie (q : ℚ) (f : ℤ) (h : q = f + 1 / 2) :
    roundHalfEven q = if f % 2 = 0 then f else f + 1 := by
  have hf : ⌊q⌋ = f := by
    rw [Int.floor_eq_iff, h]; constructor <;> linarith
  have h3 : ¬ (q - f < 1 / 2) := by rw [h]; norm_num
  have h4 : ¬ (1 / 2 < q - f) := by rw [h]; norm_num
  simp only [roundHalfEven, hf]
  rw [if_neg h3, if_neg h4]

/-- Above the midpoint of `f` and `f + 1` the rounding goes up. -/
theorem roundHalfEven_eq_of_up (q : ℚ) (f : ℤ) (h1 : (f : ℚ) + 1 / 2 < q) (h2 : q < f + 1) :
    roundHalfEven q = f + 1 := by
  have hf : ⌊q⌋ = f := by
    rw [Int.floor_eq_iff]; constructor <;> linarith
  have h3 : ¬ (q - f < 1 / 2) := by linarith
  have h4 : 1 / 2 < q - f := by linarith
  simp only [roundHalfEven, hf]
  rw [if_neg h3, if_pos h4]

/-- Only numbers of magnitude at most one half round to zero. -/
theorem abs_le_half_of_roundHalfEven_eq_zero (q : ℚ) (h : roundHalfEven q = 0) :
    |q| ≤ 1 / 2 := by
  have h1 : (⌊q⌋ : ℚ) ≤ q := Int.floor_le q
  have h2 : q < ⌊q⌋ + 1 := Int.lt_floor_add_one q
  unfold roundHalfEven at h
  split_ifs at h with c1 c2 c3
  · rw [h] at c1 h1
    rw [abs_le]; constructor <;> push_cast at * <;> linarith
  · have hf : ⌊q⌋ = -1 := by omega
    rw [hf] at c2 h2
    rw [abs_le]; constructor <;> push_cast at * <;> linarith
  · rw [h] at c1 c2 h1
    rw [abs_le]; constructor <;> push_cast at * <;> linarith
  · have hf : ⌊q⌋ = -1 := by omega
    rw [hf] at c1 c2 h2
    rw [abs_le]; constructor <;> push_cast at * <;> linarith

/-- A number that is an integer multiple of its unit in the last place is a
`double` value: rounding returns it. -/
theorem roundDouble_of_int_scaled (q : ℚ) (z : ℤ)
    (h : q / 2 ^ (max (Int.log 2 |q| - 52) (-1074)) = z) : roundDouble q = q := by
  unfold roundDouble
  split
  · next h0 => exact h0.symm
  · simp only [h, roundHalfEven_intCast]
    rw [← h]
    have : (2 : ℚ) ^ (max (Int.log 2 |q| - 52) (-1074)) ≠ 0 := zpow_ne_zero _ (by norm_num)
    field_simp

/-- Every integer of magnitude at most `2 ^ 53` is a `double` value. -/
theorem roundDouble_intCast (z : ℤ) (hz : |z| ≤ 2 ^ 53) : roundDouble (z : ℚ) = z := by
  by_cases h0 : z = 0
  · subst h0; simp [roundDouble]
  have hpos : (0 : ℚ) < |(z : ℚ)| := abs_pos.mpr (by exact_mod_cast h0)
  have h1 : (1 : ℚ) ≤ |(z : ℚ)| := by
    have : (1 : ℤ) ≤ |z| := Int.one_le_abs h0
    exact_mod_cast this
  have hL0 : 0 ≤ Int.log 2 |(z : ℚ)| := by
    rw [Int.log_of_one_le_right _ h1]; exact Int.natCast_nonneg _
  have hle : |(z : ℚ)| ≤ 2 ^ (53 : ℤ) := by
    have : ((|z| : ℤ) : ℚ) ≤ ((2 ^ 53 : ℤ) : ℚ) := by exact_mod_cast hz
    rw [Int.cast_abs] at this
    refine this.trans (le_of_eq ?_)
    norm_num
  have h2 : (2 : ℚ) ^ Int.log 2 |(z : ℚ)| ≤ |(z : ℚ)| := by
    have := Int.zpow_log_le_self (b := 2) (r := |(z : ℚ)|) (by norm_num) hpos
    simpa using this
  have hL53 : Int.log 2 |(z : ℚ)| ≤ 53 :=
    (zpow_le_zpow_iff_right₀ (by norm_num : (1 : ℚ) < 2)).mp (h2.trans hle)
  rcases lt_or_eq_of_le hL53 with hlt | heq
  · have he : max (Int.log 2 |(z : ℚ)| - 52) (-1074)
        = -((52 - Int.log 2 |(z : ℚ)|).toNat : ℤ) := by
      rw [Int.toNat_of_nonneg (by omega), max_eq_left (by omega)]; ring
    refine roundDouble_of_int_scaled (z : ℚ) (z * 2 ^ (52 - Int.log 2 |(z : ℚ)|).toNat) ?_
    rw [he, zpow_neg, zpow_natCast, div_inv_eq_mul]
    push_cast
    ring
  · have he : max (Int.log 2 |(z : ℚ)| - 52) (-1074) = 1 := by
      rw [heq]; norm_num
    have habs : |z| = 2 ^ 53 := by
      apply le_antisymm hz
      have h3 : ((2 ^ 53 : ℤ) : ℚ) ≤ ((|z| : ℤ) : ℚ) := by
        rw [Int.cast_abs]
        rw [heq] at h2
        refine le_trans (le_of_eq ?_) h2
        norm_num
      exact_mod_cast h3
    have hz2 : z = 2 * (z / 2) := by
      rcases abs_eq (by norm_num : (0 : ℤ) ≤ 2 ^ 53) |>.mp habs with h | h <;> rw [h] <;> norm_num
    refine roundDouble_of_int_scaled (z : ℚ) (z / 2) ?_
    rw [he, zpow_one]
    nth_rewrite 1 [hz2]
    push_cast
    field_simp

/-- Subtracting `1` from an integer literal is exact as long as the result has
magnitude at most `2 ^ 53`. -/
theorem doubleSub_one_exact (z : ℤ) (h1 : -(2 ^ 53) < z) (h2 : z ≤ 2 ^ 53 + 1) :
    doubleSub (z : ℚ) 1 = (z : ℚ) - 1 := by
  have := roundDouble_intCast (z - 1) (abs_le.mpr ⟨by omega, by omega⟩)
  simpa [doubleSub] using this

/-- Adding `1` to an integer literal is exact as long as the result has
magnitude at most `2 ^ 53`. -/
theorem doubleAdd_one_exact (z : ℤ) (h1 : -(2 ^ 53) - 1 ≤ z) (h2 : z < 2 ^ 53) :
    doubleAdd (z : ℚ) 1 = (z : ℚ) + 1 := by
  have := roundDouble_intCast (z + 1) (abs_le.mpr ⟨by omega, by omega⟩)
  simpa [doubleAdd] using this

/-- The exponent `2 - 1` of the quotient and power rules is exact. -/
theorem doubleSub_two_one : doubleSub 2 1 = 1 := by
  have := doubleSub_one_exact 2 (by norm_num) (by norm_num)
  norm_num at this
  exact this

/-- The rounding of `q` when its binary exponent `L` is known. -/
theorem roundDouble_eq_of_log (q : ℚ) (L : ℤ) (h0 : q ≠ 0) (h1 : (2 : ℚ) ^ L ≤ |q|)
    (h2 : |q| < (2 : ℚ) ^ (L + 1)) :
    roundDouble q = (roundHalfEven (q / 2 ^ (max (L - 52) (-1074))) : ℚ)
      * 2 ^ (max (L - 52) (-1074)) := by
  have hL : Int.log 2 |q| = L := by
    have hpos : 0 < |q| := abs_pos.mpr h0
    apply le_antisymm
    · have := (Int.lt_zpow_iff_log_lt (b := 2) (by norm_num) hpos).mp (by simpa using h2)
      omega
    · exact (Int.zpow_le_iff_le_log (b := 2) (by norm_num) hpos).mp (by simpa using h1)
  simp [roundDouble, h0, hL]

/-- In `double` arithmetic `1e16 - 1` is `1e16`: the exact difference is a tie
between `1e16 - 2` and `1e16`, and `1e16` has the even significand. -/
theorem doubleSub_tenToSixteen : doubleSub 10000000000000000 1 = 10000000000000000 := by
  unfold doubleSub
  rw [roundDouble_eq_of_log _ 53 (by norm_num) (by norm_num [abs_of_pos])
    (by norm_num [abs_of_pos])]
  have he : max ((53 : ℤ) - 52) (-1074) = 1 := by norm_num
  rw [he, roundHalfEven_eq_of_tie _ 4999999999999999 (by norm_num)]
  norm_num

/-- In `double` arithmetic `2^53 + 1` is `2^53`. -/
theorem doubleAdd_twoToFiftyThree : doubleAdd 9007199254740992 1 = 9007199254740992 := by
  unfold doubleAdd
  rw [roundDouble_eq_of_log _ 53 (by norm_num) (by norm_num [abs_of_pos])
    (by norm_num [abs_of_pos])]
  have he : max ((53 : ℤ) - 52) (-1074) = 1 := by norm_num
  rw [he, roundHalfEven_eq_of_tie _ 4503599627370496 (by norm_num)]
  norm_num

/-- The conversion to `int` truncates toward zero. -/
theorem intOfDouble_truncates : intOfDouble (7 / 2) = 3 ∧ intOfDouble (-7 / 2) = -3 := by
  have h1 : ((7 : ℚ) / 2).num = 7 := by norm_num
  have h2 : ((7 : ℚ) / 2).den = 2 := by norm_num
  have h3 : ((-7 : ℚ) / 2).num = -7 := by norm_num
  have h4 : ((-7 : ℚ) / 2).den = 2 := by norm_num
  simp only [intOfDouble, h1, h2, h3, h4]
  decide

/-- The text printed for a literal: the literal itself inside the range of
`int`, and `INT_MIN` outside it, e.g. for `1e16`. -/
theorem intText_samples :
    intText 3 = "3" ∧ intText (-3) = "-3" ∧ intText 2147483647 = "2147483647" ∧
    intText 2147483648 = "-2147483648" ∧ intText 10000000000000000 = "-2147483648" := by
  decide

/-- For a natural literal `n ≤ 2 ^ 53` the exponent `n - 1` is exact. -/
theorem doubleSub_natCast (n : ℕ) (h : (n : ℚ) ≤ 2 ^ 53) :
    doubleSub (n : ℚ) 1 = (n : ℚ) - 1 := by
  have hn : (n : ℤ) ≤ 2 ^ 53 := by exact_mod_cast h
  have := doubleSub_one_exact (n : ℤ) (by omega) (by omega)
  simpa using this

/-- For a natural literal `n < 2 ^ 53` the exponent `n + 1` is exact. -/
theorem doubleAdd_natCast (n : ℕ) (h : (n : ℚ) ≤ 2 ^ 53 - 1) :
    doubleAdd (n : ℚ) 1 = (n : ℚ) + 1 := by
  have hn : (n : ℤ) ≤ 2 ^ 53 - 1 := by exact_mod_cast h
  have := doubleAdd_one_exact (n : ℤ) (by omega) (by omega)
  simpa using this

/-- In `double` arithmetic `0.1 + 1` is the `double` nearest to `1.1`, not the
exact sum. -/
theorem doubleAdd_oneTenth : doubleAdd oneTenth 1 = 2476979795053773 / 2251799813685248 := by
  unfold doubleAdd oneTenth
  rw [roundDouble_eq_of_log _ 0 (by norm_num) (by norm_num [abs_of_pos])
    (by norm_num [abs_of_pos])]
  have he : max ((0 : ℤ) - 52) (-1074) = -52 := by norm_num
  rw [he, roundHalfEven_eq_of_up _ 4953959590107545 (by norm_num) (by norm_num)]
  norm_num

/-- A `double` value of magnitude at least one half is an integer multiple of
`2 ^ (-53)`. -/
theorem double_scaled_int (n : ℚ) (hd : roundDouble n = n) (h : 1 / 2 ≤ |n|) :
    ∃ k : ℤ, n * 2 ^ 53 = k := by
  have h0 : n ≠ 0 := by
    intro h0; rw [h0] at h; norm_num at h
  have hpos : 0 < |n| := abs_pos.mpr h0
  have hL : -1 ≤ Int.log 2 |n| := by
    apply (Int.zpow_le_iff_le_log (b := 2) (by norm_num) hpos).mp
    norm_num
    linarith
  have he : (-53 : ℤ) ≤ max (Int.log 2 |n| - 52) (-1074) := le_max_of_le_left (by omega)
  simp only [roundDouble, if_neg h0] at hd
  obtain ⟨m, hm⟩ : ∃ m : ℕ, max (Int.log 2 |n| - 52) (-1074) + 53 = m :=
    ⟨_, (Int.toNat_of_nonneg (by omega)).symm⟩
  refine ⟨roundHalfEven (n / 2 ^ max (Int.log 2 |n| - 52) (-1074)) * 2 ^ m, ?_⟩
  nth_rewrite 1 [← hd]
  push_cast
  rw [mul_assoc]
  congr 1
  rw [← zpow_natCast (2 : ℚ) m, ← hm, zpow_add₀ (by norm_num)]
  norm_num

/-- For a `double` literal `n` other than `-1` the sum `n + 1` of `double` is not
zero. -/
theorem doubleAdd_one_ne_zero (n : ℚ) (hd : roundDouble n = n) (hn : n ≠ -1) :
    doubleAdd n 1 ≠ 0 := by
  intro hz
  have hq : n + 1 ≠ 0 := fun h => hn (by linarith)
  have hpos : 0 < |n + 1| := abs_pos.mpr hq
  simp only [doubleAdd, roundDouble, if_neg hq] at hz
  have h2 : (2 : ℚ) ^ max (Int.log 2 |n + 1| - 52) (-1074) ≠ 0 := zpow_ne_zero _ (by norm_num)
  have h2pos : (0 : ℚ) < 2 ^ max (Int.log 2 |n + 1| - 52) (-1074) := zpow_pos (by norm_num) _
  have hr : roundHalfEven ((n + 1) / 2 ^ max (Int.log 2 |n + 1| - 52) (-1074)) = 0 := by
    rcases mul_eq_zero.mp hz with h | h
    · exact_mod_cast h
    · exact absurd h h2
  have hhalf := abs_le_half_of_roundHalfEven_eq_zero _ hr
  rw [abs_div, abs_of_pos h2pos, div_le_iff₀ h2pos] at hhalf
  -- the magnitude of n + 1 is at most half a unit in the last place
  have hlog : (2 : ℚ) ^ Int.log 2 |n + 1| ≤ |n + 1| := by
    have := Int.zpow_log_le_self (b := 2) (r := |n + 1|) (by norm_num) hpos
    simpa using this
  have hsmall : |n + 1| ≤ 1 / 2 * 2 ^ (-1074 : ℤ) := by
    rcases le_total (Int.log 2 |n + 1| - 52) (-1074) with hc | hc
    · rwa [max_eq_right hc] at hhalf
    · exfalso
      rw [max_eq_left hc] at hhalf
      have h3 : (2 : ℚ) ^ (Int.log 2 |n + 1| - 52) = 2 ^ Int.log 2 |n + 1| / 2 ^ (52 : ℤ) := by
        rw [zpow_sub₀ (by norm_num)]
      rw [h3] at hhalf
      have h4 : (0 : ℚ) < 2 ^ Int.log 2 |n + 1| := zpow_pos (by norm_num) _
      have h5 : (1 : ℚ) / 2 * (2 ^ Int.log 2 |n + 1| / 2 ^ (52 : ℤ)) < 2 ^ Int.log 2 |n + 1| := by
        have : (1 : ℚ) / 2 * (2 ^ Int.log 2 |n + 1| / 2 ^ (52 : ℤ))
            = 2 ^ Int.log 2 |n + 1| * (1 / 2 / 2 ^ (52 : ℤ)) := by ring
        rw [this]
        exact mul_lt_of_lt_one_right h4 (by norm_num)
      linarith
  have htiny : (1 : ℚ) / 2 * 2 ^ (-1074 : ℤ) < 1 / 2 ^ 53 := by
    rw [zpow_neg, ← one_div]
    have : (2 : ℚ) ^ (53 : ℕ) < 2 ^ (1074 : ℤ) := by
      rw [← zpow_natCast]
      exact zpow_lt_zpow_right₀ (by norm_num) (by norm_num)
    have hp : (0 : ℚ) < 2 ^ (53 : ℕ) := by positivity
    have hp2 : (0 : ℚ) < 2 ^ (1074 : ℤ) := zpow_pos (by norm_num) _
    rw [div_mul_div_comm, div_lt_div_iff₀ (by positivity) hp]
    nlinarith
  have habs : 1 / 2 ≤ |n| := by
    have h6 : |n + 1| < 1 / 2 := by
      refine lt_of_le_of_lt hsmall (htiny.trans ?_)
      norm_num
    rw [abs_lt] at h6
    rw [le_abs]
    right
    linarith [h6.2]
  obtain ⟨k, hk⟩ := double_scaled_int n hd habs
  have hk1 : (n + 1) * 2 ^ 53 = ((k + 2 ^ 53 : ℤ) : ℚ) := by
    push_cast; rw [← hk]; ring
  have hk0 : k + 2 ^ 53 ≠ 0 := by
    intro h0
    rw [h0] at hk1
    have : (n + 1) * 2 ^ 53 = 0 := by simpa using hk1
    rcases mul_eq_zero.mp this with h | h
    · exact hq h
    · norm_num at h
  have hone : (1 : ℚ) ≤ |n + 1| * 2 ^ 53 := by
    have h7 : (1 : ℤ) ≤ |k + 2 ^ 53| := Int.one_le_abs hk0
    have h8 : ((1 : ℤ) : ℚ) ≤ ((|k + 2 ^ 53| : ℤ) : ℚ) := by exact_mod_cast h7
    rw [Int.cast_abs, ← hk1, abs_mul] at h8
    simpa using h8
  have : |n + 1| * 2 ^ 53 < 1 := by
    have hp : (0 : ℚ) < 2 ^ 53 := by positivity
    calc |n + 1| * 2 ^ 53 < 1 / 2 ^ 53 * 2 ^ 53 :=
          mul_lt_mul_of_pos_right (lt_of_le_of_lt hsmall htiny) hp
      _ = 1 := by field_simp
  linarith

/-- A number with binary exponent `L < 1024` that is an integer multiple of its
unit in the last place is the value of a finite `double`. -/
theorem isDouble_of_log (q : ℚ) (L z : ℤ) (h0 : q ≠ 0) (h1 : (2 : ℚ) ^ L ≤ |q|)
    (h2 : |q| < (2 : ℚ) ^ (L + 1)) (hL : L < 1024)
    (hz : q / 2 ^ (max (L - 52) (-1074)) = z) : isDouble q = true := by
  simp only [isDouble, decide_eq_true_eq]
  constructor
  · rw [roundDouble_eq_of_log q L h0 h1 h2, hz, roundHalfEven_intCast, ← hz]
    have : (2 : ℚ) ^ (max (L - 52) (-1074)) ≠ 0 := zpow_ne_zero _ (by norm_num)
    field_simp
  · refine lt_of_lt_of_le h2 ?_
    rw [← zpow_natCast]
    exact zpow_le_zpow_right₀ (by norm_num) (by push_cast; omega)

/-- The literal `1e16` is the value of a `double`. -/
theorem isDouble_tenToSixteen : isDouble 10000000000000000 = true :=
  isDouble_of_log _ 53 5000000000000000 (by norm_num) (by norm_num [abs_of_pos])
    (by norm_num [abs_of_pos]) (by norm_num) (by norm_num)

/-- The literal `2^53` is the value of a `double`. -/
theorem isDouble_twoToFiftyThree : isDouble 9007199254740992 = true :=
  isDouble_of_log _ 53 4503599627370496 (by norm_num) (by norm_num [abs_of_pos])
    (by norm_num [abs_of_pos]) (by norm_num) (by norm_num)

/-- The value of the literal `0.1` is the value of a `double`. -/
theorem isDouble_oneTenth : isDouble oneTenth = true := by
  unfold oneTenth
  exact isDouble_of_log _ (-4) 7205759403792794 (by norm_num) (by norm_num [abs_of_pos])
    (by norm_num [abs_of_pos]) (by norm_num) (by norm_num)

/-- Every integer of magnitude at most `2 ^ 53` is the value of a `double`. -/
theorem isDouble_intCast (z : ℤ) (hz : |z| ≤ 2 ^ 53) : isDouble (z : ℚ) = true := by
  simp only [isDouble, decide_eq_true_eq]
  refine ⟨roundDouble_intCast z hz, ?_⟩
  have h1 : ((|z| : ℤ) : ℚ) ≤ ((2 ^ 53 : ℤ) : ℚ) := by exact_mod_cast hz
  rw [Int.cast_abs] at h1
  refine lt_of_le_of_lt h1 ?_
  have h2 : ((2 ^ 53 : ℤ) : ℚ) = (2 : ℚ) ^ (53 : ℕ) := by push_cast; rfl
  rw [h2]
  exact pow_lt_pow_right₀ (by norm_num : (1 : ℚ) < 2) (by norm_num : 53 < 1024)

end DoubleLemmas

/-! ## Shape of the trees returned by `differentiateNode` -/

namespace PartialDerivative

theorem differentiateNode_variable_self (ts : ASTNode → String) (dv : DiffVariable) :
    (differentiateNode ts dv (VariableNode (varStr dv))).1 = NumberNode 1 := by
  cases dv <;> simp [differentiateNode, varStr]

theorem differentiateNode_variable_other (ts : ASTNode → String) (dv : DiffVariable)
    (name : String) (h : name ≠ varStr dv) :
    (differentiateNode ts dv (VariableNode name)).1 = NumberNode 0 := by
  cases dv <;> simp [varStr] at h <;> simp [differentiateNode, h]

theorem differentiateNode_number (ts : ASTNode → String) (dv : DiffVariable) (c : ℚ) :
    (differentiateNode ts dv (NumberNode c)).1 = NumberNode 0 := by
  simp [differentiateNode]

theorem differentiateNode_add (ts : ASTNode → String) (dv : DiffVariable) (l r : ASTNode) :
    (differentiateNode ts dv (BinaryOpNode BinaryOp.ADD l r)).1
      = BinaryOpNode BinaryOp.ADD (differentiateNode ts dv l).1 (differentiateNode ts dv r).1 := by
  simp [differentiateNode]

theorem differentiateNode_sub (ts : ASTNode → String) (dv : DiffVariable) (l r : ASTNode) :
    (differentiateNode ts dv (BinaryOpNode BinaryOp.SUB l r)).1
      = BinaryOpNode BinaryOp.SUB (differentiateNode ts dv l).1 (differentiateNode ts dv r).1 := by
  simp [differentiateNode]

theorem differentiateNode_mul (ts : ASTNode → String) (dv : DiffVariable) (l r : ASTNode) :
    (differentiateNode ts dv (BinaryOpNode BinaryOp.MUL l r)).1
      = BinaryOpNode BinaryOp.ADD
          (BinaryOpNode BinaryOp.MUL (differentiateNode ts dv l).1 r)
          (BinaryOpNode BinaryOp.MUL l (differentiateNode ts dv r).1) := by
  simp [differentiateNode]

theorem differentiateNode_div (ts : ASTNode → String) (dv : DiffVariable) (l r : ASTNode) :
    (differentiateNode ts dv (BinaryOpNode BinaryOp.DIV l r)).1
      = BinaryOpNode BinaryOp.DIV
          (BinaryOpNode BinaryOp.SUB
            (BinaryOpNode BinaryOp.MUL (differentiateNode ts dv l).1 r)
            (BinaryOpNode BinaryOp.MUL l (differentiateNode ts dv r).1))
          (BinaryOpNode BinaryOp.POW r (NumberNode 2)) := by
  simp [differentiateNode]

theorem differentiateNode_pow (ts : ASTNode → String) (dv : DiffVariable)
    (l : ASTNode) (n : ℚ) :
    (differentiateNode ts dv (BinaryOpNode BinaryOp.POW l (NumberNode n))).1
      = BinaryOpNode BinaryOp.MUL
          (BinaryOpNode BinaryOp.MUL (NumberNode n)
            (BinaryOpNode BinaryOp.POW l (NumberNode (doubleSub n 1))))
          (differentiateNode ts dv l).1 := by
  simp [differentiateNode]

theorem differentiateNode_sin (ts : ASTNode → String) (dv : DiffVariable) (u : ASTNode) :
    (differentiateNode ts dv (UnaryFuncNode UnaryFunc.SIN u)).1
      = BinaryOpNode BinaryOp.MUL (UnaryFuncNode UnaryFunc.COS u)
          (differentiateNode ts dv u).1 := by
  simp [differentiateNode]

theorem differentiateNode_cos (ts : ASTNode → String) (dv : DiffVariable) (u : ASTNode) :
    (differentiateNode ts dv (UnaryFuncNode UnaryFunc.COS u)).1
      = BinaryOpNode BinaryOp.MUL
          (BinaryOpNode BinaryOp.MUL (NumberNode (-1)) (UnaryFuncNode UnaryFunc.SIN u))
          (differentiateNode ts dv u).1 := by
  simp [differentiateNode]

theorem differentiateNode_exp (ts : ASTNode → String) (dv : DiffVariable) (u : ASTNode) :
    (differentiateNode ts dv (UnaryFuncNode UnaryFunc.EXP u)).1
      = BinaryOpNode BinaryOp.MUL (UnaryFuncNode UnaryFunc.EXP u)
          (differentiateNode ts dv u).1 := by
  simp [differentiateNode]

end PartialDerivative

/-! ## Shape of the constant-multiple rule of `integrateNode` -/

namespace MultivariateIntegrator

theorem integrateNode_mul_number_left (ts : ASTNode → String) (iv : IntegrationVariable)
    (c : ℚ) (r : ASTNode) :
    (integrateNode ts iv (BinaryOpNode BinaryOp.MUL (NumberNode c) r)).1
      = BinaryOpNode BinaryOp.MUL (NumberNode c) (integrateNode ts iv r).1 := by
  simp [integrateNode]

theorem integrateNode_mul_number_right (ts : ASTNode → String) (iv : IntegrationVariable)
    (l : ASTNode) (c : ℚ) (hl : l.type ≠ NodeType.NUMBER) :
    (integrateNode ts iv (BinaryOpNode BinaryOp.MUL l (NumberNode c))).1
      = BinaryOpNode BinaryOp.MUL (NumberNode c) (integrateNode ts iv l).1 := by
  cases l with
  | NumberNode _ => simp [ASTNode.type] at hl
  | VariableNode _ => simp [integrateNode]
  | BinaryOpNode _ _ _ => simp [integrateNode]
  | UnaryFuncNode _ _ => simp [integrateNode]

end MultivariateIntegrator

/-! ## Analytic lemmas -/

section Analytic

open PartialDerivative MultivariateIntegrator

/-- On the smooth fragment with literal exponents at most `2 ^ 53` the tree
returned by `differentiateNode` denotes the partial derivative of the input
tree in the selected variable. -/
theorem hasDerivAt_differentiateNode (ts : ASTNode → String) (var : DiffVariable)
    (env : String → ℝ) (e : ASTNode) (h : smoothFragment e = true)
    (hb : exponentsAtMost (2 ^ 53) e = true) :
    HasDerivAt (fun t => eval (Function.update env (PartialDerivative.varStr var) t) e)
      (eval env (differentiateNode ts var e).1) (env (PartialDerivative.varStr var)) := by
  induction e with
  | NumberNode v =>
      simpa [differentiateNode, eval]
        using hasDerivAt_const (env (PartialDerivative.varStr var)) (v : ℝ)
  | VariableNode n =>
      by_cases hn : n = PartialDerivative.varStr var
      · subst hn
        have hid : HasDerivAt (fun t : ℝ => t) 1 (env (PartialDerivative.varStr var)) :=
          hasDerivAt_id _
        cases var <;> simpa [differentiateNode, eval, PartialDerivative.varStr] using hid
      · have hc : HasDerivAt (fun _ : ℝ => env n) 0 (env (PartialDerivative.varStr var)) :=
          hasDerivAt_const _ _
        cases var <;> simp [PartialDerivative.varStr] at hn <;>
          simpa [differentiateNode, eval, PartialDerivative.varStr, Function.update_noteq, hn]
            using hc
  | BinaryOpNode op l r ihl ihr =>
      cases op with
      | ADD =>
          simp only [smoothFragment, exponentsAtMost, Bool.and_eq_true] at h hb
          simpa [differentiateNode, eval] using (ihl h.1 hb.1).add (ihr h.2 hb.2)
      | SUB =>
          simp only [smoothFragment, exponentsAtMost, Bool.and_eq_true] at h hb
          simpa [differentiateNode, eval] using (ihl h.1 hb.1).sub (ihr h.2 hb.2)
      | MUL =>
          simp only [smoothFragment, exponentsAtMost, Bool.and_eq_true] at h hb
          simpa [differentiateNode, eval] using (ihl h.1 hb.1).mul (ihr h.2 hb.2)
      | DIV => simp [smoothFragment] at h
      | POW =>
          cases r with
          | NumberNode q =>
              simp only [smoothFragment, exponentsAtMost, Bool.and_eq_true,
                decide_eq_true_eq] at h hb
              obtain ⟨n, hn1, rfl⟩ := isPositiveNatural_spec h.1
              have hd := (ihl h.2 hb.2).pow n
              have hq : doubleSub (n : ℚ) 1 = ((n - 1 : ℕ) : ℚ) := by
                rw [doubleSub_natCast n hb.1, Nat.cast_sub hn1]; simp
              simp only [differentiateNode, eval_pow_natCast, hq, clone_eq]
              simpa [eval] using hd
          | VariableNode _ => simp [smoothFragment] at h
          | BinaryOpNode _ _ _ => simp [smoothFragment] at h
          | UnaryFuncNode _ _ => simp [smoothFragment] at h
  | UnaryFuncNode f a ih =>
      cases f with
      | SIN =>
          simp only [smoothFragment, exponentsAtMost] at h hb
          simpa [differentiateNode, eval] using (ih h hb).sin
      | COS =>
          simp only [smoothFragment, exponentsAtMost] at h hb
          simpa [differentiateNode, eval] using (ih h hb).cos
      | EXP =>
          simp only [smoothFragment, exponentsAtMost] at h hb
          simpa [differentiateNode, eval] using (ih h hb).exp
      | TAN => simp [smoothFragment] at h
      | LN => simp [smoothFragment] at h
      | SQRT => simp [smoothFragment] at h

/-- On the supported rule subset with literal exponents below `2 ^ 53`,
differentiating the integral gives a tree with the value of the integrand,
whenever both engines select the same variable name. -/
theorem eval_differentiateNode_integrateNode (ts1 ts2 : ASTNode → String)
    (iv : IntegrationVariable) (dv : DiffVariable)
    (hv : MultivariateIntegrator.varStr iv = PartialDerivative.varStr dv)
    (env : String → ℝ) (f : ASTNode) (h : roundTripFragment iv f = true)
    (hb : exponentsAtMost (2 ^ 53 - 1) f = true) :
    eval env (differentiateNode ts2 dv (integrateNode ts1 iv f).1).1 = eval env f := by
  induction f with
  | NumberNode c =>
      simp [integrateNode, hv, differentiateNode_mul, differentiateNode_number,
        differentiateNode_variable_self, eval]
  | VariableNode n =>
      by_cases hn : n = PartialDerivative.varStr dv
      · subst hn
        simp [integrateNode, hv, differentiateNode_div, differentiateNode_number,
          differentiateNode_pow, differentiateNode_variable_self, eval, doubleSub_two_one]
        norm_num
        ring
      · simp [integrateNode, hv, hn, differentiateNode_mul, differentiateNode_variable_self,
          differentiateNode_variable_other, eval]
  | BinaryOpNode op l r ihl ihr =>
      cases op with
      | ADD =>
          simp only [roundTripFragment, exponentsAtMost, Bool.and_eq_true] at h hb
          simp [integrateNode, differentiateNode_add, eval, ihl h.1 hb.1, ihr h.2 hb.2]
      | SUB =>
          simp only [roundTripFragment, exponentsAtMost, Bool.and_eq_true] at h hb
          simp [integrateNode, differentiateNode_sub, eval, ihl h.1 hb.1, ihr h.2 hb.2]
      | MUL =>
          simp only [roundTripFragment, Bool.and_eq_true, Bool.or_eq_true,
            decide_eq_true_eq] at h
          simp only [exponentsAtMost, Bool.and_eq_true] at hb
          obtain ⟨⟨hnum, hl⟩, hr⟩ := h
          by_cases hlt : l.type = NodeType.NUMBER
          · cases l <;> simp [ASTNode.type] at hlt
            simp [integrateNode_mul_number_left, differentiateNode_mul, differentiateNode_number,
              eval, ihr hr hb.2]
          · have hrt : r.type = NodeType.NUMBER := hnum.resolve_left hlt
            cases r <;> simp [ASTNode.type] at hrt
            simp [integrateNode_mul_number_right _ _ _ _ hlt, differentiateNode_mul,
              differentiateNode_number, eval, ihl hl hb.1, mul_comm]
      | DIV => simp [roundTripFragment] at h
      | POW =>
          cases l <;> cases r <;> simp [roundTripFragment] at h
          obtain ⟨hname, hq⟩ := h
          obtain ⟨n, rfl⟩ := isNatural_spec hq
          subst hname
          simp only [exponentsAtMost, Bool.and_eq_true, decide_eq_true_eq] at hb
          have hne : ((n : ℚ)) ≠ -1 := by
            have h0 : (0 : ℚ) ≤ n := Nat.cast_nonneg n
            intro h1
            rw [h1] at h0
            norm_num at h0
          have hne2 : ((n : ℝ) + 1) ≠ 0 := by positivity
          have hadd : doubleAdd (n : ℚ) 1 = (n : ℚ) + 1 := doubleAdd_natCast n hb.1
          have hsub : doubleSub ((n : ℚ) + 1) 1 = (n : ℚ) := by
            have h1 := doubleSub_natCast (n + 1) (by push_cast; linarith [hb.1])
            push_cast at h1
            rw [h1]; ring
          simp [integrateNode, hv, hne, differentiateNode_div, differentiateNode_number,
            differentiateNode_pow, differentiateNode_variable_self, eval, hadd, hsub]
          field_simp
          ring
  | UnaryFuncNode func a ih =>
      cases a <;> simp [roundTripFragment] at h
      obtain ⟨hname, hf⟩ := h
      subst hname
      rcases hf with (rfl | rfl) | rfl <;>
        simp [integrateNode, hv, differentiateNode_mul, differentiateNode_sin,
          differentiateNode_cos, differentiateNode_exp, differentiateNode_number,
          differentiateNode_variable_self, eval]

/-- Where the subtraction of `double` returns the exponent itself, the tree
returned for `x ^ n` does not denote the derivative at `x = 2`. -/
theorem not_hasDerivAt_differentiateNode_pow (ts : ASTNode → String) (N : ℕ) (hN : 1 ≤ N)
    (hs : doubleSub (N : ℚ) 1 = N) :
    ¬ HasDerivAt
      (fun t => eval (Function.update (fun _ => (2 : ℝ)) "x" t)
        (BinaryOpNode BinaryOp.POW (VariableNode "x") (NumberNode (N : ℚ))))
      (eval (fun _ => (2 : ℝ))
        (differentiateNode ts DiffVariable.X
          (BinaryOpNode BinaryOp.POW (VariableNode "x") (NumberNode (N : ℚ)))).1) 2 := by
  intro h
  have hf : (fun t => eval (Function.update (fun _ => (2 : ℝ)) "x" t)
      (BinaryOpNode BinaryOp.POW (VariableNode "x") (NumberNode (N : ℚ))))
      = fun t : ℝ => t ^ N := by
    funext t
    simp [eval]
  have hv : eval (fun _ => (2 : ℝ))
      (differentiateNode ts DiffVariable.X
        (BinaryOpNode BinaryOp.POW (VariableNode "x") (NumberNode (N : ℚ)))).1
      = (N : ℝ) * 2 ^ N := by
    simp [differentiateNode, hs, eval]
  rw [hf, hv] at h
  have h2 := h.unique (hasDerivAt_pow N (2 : ℝ))
  obtain ⟨M, rfl⟩ : ∃ M, N = M + 1 := ⟨N - 1, by omega⟩
  have hpos : (0 : ℝ) < ((M + 1 : ℕ) : ℝ) * 2 ^ M := by positivity
  simp only [Nat.add_sub_cancel, pow_succ] at h2
  linarith

/-- Where the addition of `double` returns the exponent itself, the round trip
on `x ^ n` has the value of `x ^ (n - 1)`, which differs from that of `x ^ n`
at `x = 2`. -/
theorem eval_roundTrip_pow_ne (ts1 ts2 : ASTNode → String) (N : ℕ) (hN : 1 ≤ N)
    (ha : doubleAdd (N : ℚ) 1 = N) (hs : doubleSub (N : ℚ) 1 = (N : ℚ) - 1) :
    eval (fun _ => (2 : ℝ))
      (differentiateNode ts2 DiffVariable.X
        (integrateNode ts1 IntegrationVariable.X
          (BinaryOpNode BinaryOp.POW (VariableNode "x") (NumberNode (N : ℚ)))).1).1
      ≠ eval (fun _ => (2 : ℝ))
          (BinaryOpNode BinaryOp.POW (VariableNode "x") (NumberNode (N : ℚ))) := by
  have hne : (N : ℚ) ≠ -1 := by
    have h0 : (0 : ℚ) ≤ N := Nat.cast_nonneg N
    intro h1
    rw [h1] at h0
    norm_num at h0
  have hN0 : (N : ℝ) ≠ 0 := by
    have : (0 : ℝ) < N := by exact_mod_cast hN
    exact ne_of_gt this
  obtain ⟨M, rfl⟩ : ∃ M, N = M + 1 := ⟨N - 1, by omega⟩
  have hq : ((M + 1 : ℕ) : ℚ) - 1 = (M : ℚ) := by push_cast; ring
  have hl : eval (fun _ => (2 : ℝ))
      (differentiateNode ts2 DiffVariable.X
        (integrateNode ts1 IntegrationVariable.X
          (BinaryOpNode BinaryOp.POW (VariableNode "x") (NumberNode ((M + 1 : ℕ) : ℚ)))).1).1
      = 2 ^ M := by
    simp only [integrateNode, MultivariateIntegrator.varStr, if_true, if_neg hne, ha,
      differentiateNode_div, differentiateNode_pow, differentiateNode_number, hs, hq]
    simp only [differentiateNode, eval, if_true, true_and, true_or, Real.rpow_eq_pow,
      Real.rpow_natCast, Rat.cast_natCast, Rat.cast_ofNat, Rat.cast_zero, Rat.cast_one,
      Real.rpow_two, mul_zero, sub_zero, mul_one]
    field_simp
    ring
  rw [hl]
  simp only [eval, Real.rpow_eq_pow, Real.rpow_natCast, Rat.cast_natCast, pow_succ]
  have hpos : (0 : ℝ) < 2 ^ M := by positivity
  linarith

/-- The derivative tree of a tree in which the selected variable does not occur
evaluates to zero. -/
theorem eval_differentiateNode_of_not_occurs (ts : ASTNode → String) (var : DiffVariable)
    (env : String → ℝ) (e : ASTNode)
    (h : occursVariable (PartialDerivative.varStr var) e = false) :
    eval env (differentiateNode ts var e).1 = 0 := by
  induction e with
  | NumberNode v => simp [differentiateNode, eval]
  | VariableNode n =>
      simp only [occursVariable, decide_eq_false_iff_not] at h
      rw [differentiateNode_variable_other ts var n h]
      simp [eval]
  | BinaryOpNode op l r ihl ihr =>
      simp only [occursVariable, Bool.or_eq_false_iff] at h
      cases op with
      | ADD => simp [differentiateNode, eval, ihl h.1, ihr h.2]
      | SUB => simp [differentiateNode, eval, ihl h.1, ihr h.2]
      | MUL => simp [differentiateNode, eval, ihl h.1, ihr h.2]
      | DIV => simp [differentiateNode, eval, ihl h.1, ihr h.2]
      | POW =>
          cases r with
          | NumberNode q => simp [differentiateNode, eval, ihl h.1]
          | VariableNode _ => simp [differentiateNode, eval]
          | BinaryOpNode _ _ _ => simp [differentiateNode, eval]
          | UnaryFuncNode _ _ => simp [differentiateNode, eval]
  | UnaryFuncNode f a ih =>
      simp only [occursVariable] at h
      cases f <;> simp [differentiateNode, eval, ih h]

end Analytic

/-! ## Bounds on the step log -/

section StepBounds

open PartialDerivative MultivariateIntegrator

/-- Every tree has at least one node. -/
theorem ASTNode.size_pos (e : ASTNode) : 0 < e.size := by
  cases e <;> simp [ASTNode.size]

/-- A call of `differentiateNode` appends at most one step per node of its
argument. -/
theorem differentiateNode_steps_length_le (ts : ASTNode → String) (var : DiffVariable)
    (e : ASTNode) : (differentiateNode ts var e).2.length ≤ e.size := by
  induction e with
  | NumberNode v => simp [differentiateNode, ASTNode.size]
  | VariableNode n =>
      simp only [differentiateNode]
      split <;> simp [ASTNode.size]
  | BinaryOpNode op l r ihl ihr =>
      cases op with
      | ADD => simp [differentiateNode, ASTNode.size]; omega
      | SUB => simp [differentiateNode, ASTNode.size]; omega
      | MUL => simp [differentiateNode, ASTNode.size]; omega
      | DIV => simp [differentiateNode, ASTNode.size]; omega
      | POW =>
          cases r with
          | NumberNode q => simp [differentiateNode, ASTNode.size]; omega
          | VariableNode _ => simp [differentiateNode]
          | BinaryOpNode _ _ _ => simp [differentiateNode]
          | UnaryFuncNode _ _ => simp [differentiateNode]
  | UnaryFuncNode f a ih =>
      cases f <;> simp [differentiateNode, ASTNode.size] <;> omega

/-- A call of `integrateNode` appends at most one step per node of its
argument. -/
theorem integrateNode_steps_length_le (ts : ASTNode → String) (var : IntegrationVariable)
    (e : ASTNode) : (integrateNode ts var e).2.length ≤ e.size := by
  induction e with
  | NumberNode v => simp [integrateNode, ASTNode.size]
  | VariableNode n =>
      simp only [integrateNode]
      split <;> simp [ASTNode.size]
  | BinaryOpNode op l r ihl ihr =>
      have hl := ASTNode.size_pos l
      have hr := ASTNode.size_pos r
      cases op with
      | ADD => simp [integrateNode, ASTNode.size]; omega
      | SUB => simp [integrateNode, ASTNode.size]; omega
      | MUL =>
          cases l <;> cases r <;> rw [integrateNode] <;> (try split) <;>
            simp [productFallback, ASTNode.size] at * <;> omega
      | DIV => simp [integrateNode]
      | POW =>
          cases l <;> cases r <;> rw [integrateNode] <;> (try split) <;> (try split) <;>
            simp [ASTNode.size]
  | UnaryFuncNode f a ih =>
      cases a with
      | VariableNode n =>
          simp only [integrateNode]
          split
          · cases f <;> simp [ASTNode.size]
          · simp [ASTNode.size]
      | NumberNode _ => simp [integrateNode]
      | BinaryOpNode _ _ _ => simp [integrateNode]
      | UnaryFuncNode _ _ => simp [integrateNode]

end StepBounds

/-! ## Termination: the runs with a bound on the depth of nested calls -/

section FuelLemmas

open PartialDerivative MultivariateIntegrator ImplicitDifferentiator

/-- Every direct subtree is strictly less deep than the node. -/
theorem ASTNode.depth_lt_of_mem_children (e c : ASTNode) (h : c ∈ e.children) :
    c.depth < e.depth := by
  cases e <;> simp [ASTNode.children] at h <;> simp [ASTNode.depth]
  · rcases h with rfl | rfl <;> omega
  · subst h; omega

/-- The body of `differentiateNode` consults its recursive calls on the direct
subtrees of its argument only. -/
theorem differentiateNodeBody_congr (ts : ASTNode → String) (var : DiffVariable)
    (self self' : ASTNode → Option (ASTNode × List PartialDerivativeStep)) (e : ASTNode)
    (h : ∀ c ∈ e.children, self c = self' c) :
    differentiateNodeBody ts var self e = differentiateNodeBody ts var self' e := by
  cases e with
  | NumberNode v => simp [differentiateNodeBody]
  | VariableNode n => simp [differentiateNodeBody]
  | BinaryOpNode op l r =>
      have hl : self l = self' l := h l (by simp [ASTNode.children])
      have hr : self r = self' r := h r (by simp [ASTNode.children])
      cases op <;> try simp [differentiateNodeBody, hl, hr]
      cases r <;> simp [differentiateNodeBody, hl]
  | UnaryFuncNode f a =>
      have ha : self a = self' a := h a (by simp [ASTNode.children])
      simp [differentiateNodeBody, ha]

/-- The body of `differentiateNode`, its recursive calls returning the value of
`differentiateNode`, returns the value of `differentiateNode`. -/
theorem differentiateNodeBody_some (ts : ASTNode → String) (var : DiffVariable) (e : ASTNode) :
    differentiateNodeBody ts var (fun c => some (differentiateNode ts var c)) e
      = some (differentiateNode ts var e) := by
  cases e with
  | NumberNode v => simp [differentiateNodeBody, differentiateNode]
  | VariableNode n =>
      simp only [differentiateNodeBody, differentiateNode]
      split <;> rfl
  | BinaryOpNode op l r =>
      cases op <;> try simp [differentiateNodeBody, differentiateNode]
      cases r <;> simp [differentiateNodeBody, differentiateNode]
  | UnaryFuncNode f a =>
      cases f <;> simp [differentiateNodeBody, differentiateNode]

/-- With a bound above the depth of the tree, the bounded run of
`differentiateNode` returns the value of `differentiateNode`. -/
theorem differentiateNodeFuel_eq (ts : ASTNode → String) (var : DiffVariable) (fuel : ℕ) :
    ∀ e : ASTNode, e.depth < fuel →
      differentiateNodeFuel ts var fuel e = some (differentiateNode ts var e) := by
  induction fuel with
  | zero => intro e h; omega
  | succ k ih =>
      intro e h
      rw [differentiateNodeFuel, ← differentiateNodeBody_some]
      apply differentiateNodeBody_congr
      intro c hc
      exact ih c (by have := ASTNode.depth_lt_of_mem_children e c hc; omega)

/-- The body of `differentiateImplicit` consults its recursive calls on the
direct subtrees of its argument only. -/
theorem differentiateImplicitBody_congr (self self' : ASTNode → Bool → Option ASTNode)
    (e : ASTNode) (withRespectToX : Bool)
    (h : ∀ c ∈ e.children, self c withRespectToX = self' c withRespectToX) :
    differentiateImplicitBody self e withRespectToX
      = differentiateImplicitBody self' e withRespectToX := by
  cases e with
  | NumberNode v => simp [differentiateImplicitBody]
  | VariableNode n => simp [differentiateImplicitBody]
  | BinaryOpNode op l r =>
      have hl := h l (by simp [ASTNode.children])
      have hr := h r (by simp [ASTNode.children])
      cases op <;> try simp [differentiateImplicitBody, hl, hr]
      cases r <;> simp [differentiateImplicitBody, hl]
  | UnaryFuncNode f a =>
      have ha := h a (by simp [ASTNode.children])
      simp [differentiateImplicitBody, ha]

/-- The body of `differentiateImplicit`, its recursive calls returning the value
of `differentiateImplicit`, returns the value of `differentiateImplicit`. -/
theorem differentiateImplicitBody_some (e : ASTNode) (withRespectToX : Bool) :
    differentiateImplicitBody (fun c b => some (differentiateImplicit c b)) e withRespectToX
      = some (differentiateImplicit e withRespectToX) := by
  cases e with
  | NumberNode v => simp [differentiateImplicitBody, differentiateImplicit]
  | VariableNode n =>
      simp only [differentiateImplicitBody, differentiateImplicit]
      split_ifs <;> rfl
  | BinaryOpNode op l r =>
      cases op <;> try simp [differentiateImplicitBody, differentiateImplicit]
      cases r <;> simp [differentiateImplicitBody, differentiateImplicit]
  | UnaryFuncNode f a =>
      cases f <;> simp [differentiateImplicitBody, differentiateImplicit]

/-- With a bound above the depth of the tree, the bounded run of
`differentiateImplicit` returns the value of `differentiateImplicit`. -/
theorem differentiateImplicitFuel_eq (withRespectToX : Bool) (fuel : ℕ) :
    ∀ e : ASTNode, e.depth < fuel →
      differentiateImplicitFuel fuel e withRespectToX
        = some (differentiateImplicit e withRespectToX) := by
  induction fuel with
  | zero => intro e h; omega
  | succ k ih =>
      intro e h
      rw [differentiateImplicitFuel, ← differentiateImplicitBody_some]
      apply differentiateImplicitBody_congr
      intro c hc
      exact ih c (by have := ASTNode.depth_lt_of_mem_children e c hc; omega)

/-- The body of `integrateNode` consults its recursive calls on the direct
subtrees of its argument only. -/
theorem integrateNodeBody_congr (ts : ASTNode → String) (var : IntegrationVariable)
    (self self' : ASTNode → Option (ASTNode × List MultivariateIntegrationStep)) (e : ASTNode)
    (h : ∀ c ∈ e.children, self c = self' c) :
    integrateNodeBody ts var self e = integrateNodeBody ts var self' e := by
  cases e with
  | NumberNode v => simp [integrateNodeBody]
  | VariableNode n => simp [integrateNodeBody]
  | BinaryOpNode op l r =>
      have hl : self l = self' l := h l (by simp [ASTNode.children])
      have hr : self r = self' r := h r (by simp [ASTNode.children])
      cases op with
      | ADD => simp [integrateNodeBody, hl, hr]
      | SUB => simp [integrateNodeBody, hl, hr]
      | MUL => cases l <;> cases r <;> simp [integrateNodeBody, hl, hr]
      | DIV => simp [integrateNodeBody]
      | POW => cases l <;> cases r <;> simp [integrateNodeBody]
  | UnaryFuncNode f a => cases a <;> simp [integrateNodeBody]

/-- The body of `integrateNode`, its recursive calls returning the value of
`integrateNode`, returns the value of `integrateNode`. -/
theorem integrateNodeBody_some (ts : ASTNode → String) (var : IntegrationVariable)
    (e : ASTNode) :
    integrateNodeBody ts var (fun c => some (integrateNode ts var c)) e
      = some (integrateNode ts var e) := by
  cases e with
  | NumberNode v => simp [integrateNodeBody, integrateNode]
  | VariableNode n => simp [integrateNodeBody, integrateNode]
  | BinaryOpNode op l r =>
      cases op with
      | ADD => simp [integrateNodeBody, integrateNode]
      | SUB => simp [integrateNodeBody, integrateNode]
      | MUL =>
          cases l <;> cases r <;> simp only [integrateNodeBody, integrateNode] <;>
            (try split_ifs) <;> simp
      | DIV => simp [integrateNodeBody, integrateNode]
      | POW => cases l <;> cases r <;> simp [integrateNodeBody, integrateNode]
  | UnaryFuncNode f a => cases a <;> simp [integrateNodeBody, integrateNode]

/-- With a bound above the depth of the tree, the bounded run of `integrateNode`
returns the value of `integrateNode`. -/
theorem integrateNodeFuel_eq (ts : ASTNode → String) (var : IntegrationVariable) (fuel : ℕ) :
    ∀ e : ASTNode, e.depth < fuel →
      integrateNodeFuel ts var fuel e = some (integrateNode ts var e) := by
  induction fuel with
  | zero => intro e h; omega
  | succ k ih =>
      intro e h
      rw [integrateNodeFuel, ← integrateNodeBody_some]
      apply integrateNodeBody_congr
      intro c hc
      exact ih c (by have := ASTNode.depth_lt_of_mem_children e c hc; omega)

end FuelLemmas

/-! ## Agreement of the differentiators and the literal-exponent invariant -/

section TreeInvariants

open PartialDerivative MultivariateIntegrator ImplicitDifferentiator

/-- On trees without a `TAN` node, `differentiateImplicit` returns the tree of
`differentiateNode` for the corresponding selector. -/
theorem differentiateImplicit_eq_differentiateNode (ts : ASTNode → String) (w : Bool)
    (e : ASTNode) (h : containsTan e = false) :
    differentiateImplicit e w
      = (differentiateNode ts (if w then DiffVariable.X else DiffVariable.Y) e).1 := by
  induction e with
  | NumberNode v => simp [differentiateImplicit, differentiateNode]
  | VariableNode n =>
      cases w <;> by_cases hx : n = "x" <;> by_cases hy : n = "y" <;>
        simp_all [differentiateImplicit, differentiateNode]
  | BinaryOpNode op l r ihl ihr =>
      simp only [containsTan, Bool.or_eq_false_iff] at h
      cases op with
      | ADD => simp [differentiateImplicit, differentiateNode, ihl h.1, ihr h.2]
      | SUB => simp [differentiateImplicit, differentiateNode, ihl h.1, ihr h.2]
      | MUL => simp [differentiateImplicit, differentiateNode, ihl h.1, ihr h.2]
      | DIV => simp [differentiateImplicit, differentiateNode, ihl h.1, ihr h.2]
      | POW =>
          cases r with
          | NumberNode q => simp [differentiateImplicit, differentiateNode, ihl h.1]
          | VariableNode _ => simp [differentiateImplicit, differentiateNode]
          | BinaryOpNode _ _ _ => simp [differentiateImplicit, differentiateNode]
          | UnaryFuncNode _ _ => simp [differentiateImplicit, differentiateNode]
  | UnaryFuncNode f a ih =>
      cases f <;> simp [containsTan] at h <;>
        simp [differentiateImplicit, differentiateNode, ih h]

/-- The literal-exponent invariant is preserved by `differentiateNode`. -/
theorem literalExponents_differentiateNode (ts : ASTNode → String) (var : DiffVariable)
    (e : ASTNode) (h : literalExponents e = true) :
    literalExponents (differentiateNode ts var e).1 = true := by
  induction e with
  | NumberNode v => simp [differentiateNode, literalExponents]
  | VariableNode n =>
      simp only [differentiateNode]
      split <;> simp [literalExponents]
  | BinaryOpNode op l r ihl ihr =>
      cases op with
      | ADD =>
          simp only [literalExponents, Bool.and_eq_true] at h
          simp [differentiateNode, literalExponents, ihl h.1, ihr h.2]
      | SUB =>
          simp only [literalExponents, Bool.and_eq_true] at h
          simp [differentiateNode, literalExponents, ihl h.1, ihr h.2]
      | MUL =>
          simp only [literalExponents, Bool.and_eq_true] at h
          simp [differentiateNode, literalExponents, ihl h.1, ihr h.2, h.1, h.2]
      | DIV =>
          simp only [literalExponents, Bool.and_eq_true] at h
          simp [differentiateNode, literalExponents, ihl h.1, ihr h.2, h.1, h.2]
      | POW =>
          cases r with
          | NumberNode q =>
              simp only [literalExponents] at h
              simp [differentiateNode, literalExponents, ihl h, h]
          | VariableNode _ => simp [literalExponents] at h
          | BinaryOpNode _ _ _ => simp [literalExponents] at h
          | UnaryFuncNode _ _ => simp [literalExponents] at h
  | UnaryFuncNode f a ih =>
      simp only [literalExponents] at h
      cases f <;> simp [differentiateNode, literalExponents, ih h, h]

/-- The literal-exponent invariant is preserved by `integrateNode`. -/
theorem literalExponents_integrateNode (ts : ASTNode → String) (var : IntegrationVariable)
    (e : ASTNode) (h : literalExponents e = true) :
    literalExponents (integrateNode ts var e).1 = true := by
  induction e with
  | NumberNode v => simp [integrateNode, literalExponents]
  | VariableNode n =>
      simp only [integrateNode]
      split <;> simp [literalExponents]
  | BinaryOpNode op l r ihl ihr =>
      cases op with
      | ADD =>
          simp only [literalExponents, Bool.and_eq_true] at h
          simp [integrateNode, literalExponents, ihl h.1, ihr h.2]
      | SUB =>
          simp only [literalExponents, Bool.and_eq_true] at h
          simp [integrateNode, literalExponents, ihl h.1, ihr h.2]
      | MUL =>
          have h0 := h
          simp only [literalExponents, Bool.and_eq_true] at h
          have hl := ihl h.1
          have hr := ihr h.2
          cases l <;> cases r <;> rw [integrateNode] <;> (try split) <;>
            simp_all [productFallback, literalExponents]
      | DIV => simpa [integrateNode] using h
      | POW =>
          cases r with
          | NumberNode q =>
              cases l <;> rw [integrateNode] <;> (try split) <;> (try split) <;>
                simp_all [literalExponents]
          | VariableNode _ => simp [literalExponents] at h
          | BinaryOpNode _ _ _ => simp [literalExponents] at h
          | UnaryFuncNode _ _ => simp [literalExponents] at h
  | UnaryFuncNode f a ih =>
      cases a with
      | VariableNode n =>
          simp only [integrateNode]
          split
          · cases f <;> simp [literalExponents]
          · simp [literalExponents]
      | NumberNode _ => simp [integrateNode, literalExponents]
      | BinaryOpNode _ _ _ => simpa [integrateNode] using h
      | UnaryFuncNode _ _ => simpa [integrateNode] using h

end TreeInvariants

/-! ## Numeric lemmas: sums, the trapezoidal and midpoint rules, the binomial loop -/

section NumericLemmas

/-- An accumulation loop over `0 .. n-1` is the start value plus the finite sum. -/
theorem foldl_add_range {K : Type} [Field K] (g : ℕ → K) (n : ℕ) (s0 : K) :
    (List.range n).foldl (fun s j => s + g j) s0 = s0 + ∑ j in Finset.range n, g j := by
  induction n with
  | zero => simp
  | succ n ih => simp [List.range_succ, List.foldl_append, ih, Finset.sum_range_succ, add_assoc]

/-- The trapezoidal weights over `1001` sample points add up to `1000`. -/
theorem trapezoid_weights_sum {K : Type} [Field K] [CharZero K] :
    ∑ i in Finset.range 1001, (if i = 0 ∨ i = 1000 then (1 / 2 : K) else 1) = 1000 := by
  rw [Finset.sum_range_succ, Finset.sum_range_succ']
  have hmid : ∑ i in Finset.range 999, (if i + 1 = 0 ∨ i + 1 = 1000 then (1 / 2 : K) else 1)
      = ∑ _i in Finset.range 999, (1 : K) := by
    apply Finset.sum_congr rfl
    intro i hi
    have hi' : i < 999 := Finset.mem_range.mp hi
    have h1 : ¬ (i + 1 = 0 ∨ i + 1 = 1000) := by omega
    rw [if_neg h1]
  rw [hmid]
  simp
  norm_num

/-- For a constant integrand `c`, `computeCoefficient` with `n = 0` and the cosine
kernel returns `2 * c`. -/
theorem computeCoefficient_constant {K : Type} [LinearOrderedField K]
    (evaluate : ASTNode → K → K) (cos sin : K → K) (pi : K) (func : ASTNode) (L c : K)
    (hf : ∀ x : K, evaluate func x = c) (hcos : cos 0 = 1) (hL : L ≠ 0) :
    FourierSeriesCalculator.computeCoefficient evaluate cos sin pi func L 0 true = 2 * c := by
  have hsum : ∑ i in Finset.range 1001, (if i = 0 ∨ i = 1000 then (1 / 2 : K) else 1) * c
      = 1000 * c := by
    rw [← Finset.sum_mul, trapezoid_weights_sum]
  simp only [FourierSeriesCalculator.computeCoefficient, hf, Int.cast_zero, zero_mul, zero_div,
    hcos, mul_one, if_true]
  rw [foldl_add_range]
  simp only [zero_add]
  rw [show (1000 + 1 : ℕ) = 1001 from rfl, hsum]
  field_simp
  ring

/-- The loop of `binomialProbability` computes the binomial coefficient. -/
theorem binomCoeff_loop (n k : ℕ) :
    (List.range k).foldl
      (fun (binomCoeff : ℤ) (i : ℕ) => Int.tdiv (binomCoeff * ((n : ℤ) - (i : ℤ))) ((i : ℤ) + 1))
      1 = (n.choose k : ℤ) := by
  induction k with
  | zero => simp
  | succ k ih =>
      rw [List.range_succ, List.foldl_append, ih]
      simp only [List.foldl_cons, List.foldl_nil]
      by_cases hk : k ≤ n
      · have h1 : ((n : ℤ) - (k : ℤ)) = ((n - k : ℕ) : ℤ) := by
          rw [Nat.cast_sub hk]
        have h2 : (n.choose k : ℤ) * ((n - k : ℕ) : ℤ) = (n.choose (k + 1) : ℤ) * ((k : ℤ) + 1) := by
          have := Nat.choose_succ_right_eq n k
          exact_mod_cast this.symm
        rw [h1, h2]
        exact Int.mul_tdiv_cancel _ (by omega)
      · have h0 : n.choose k = 0 := Nat.choose_eq_zero_of_lt (by omega)
        have h1 : n.choose (k + 1) = 0 := Nat.choose_eq_zero_of_lt (by omega)
        simp [h0, h1]

/-- The sum of `0 .. 99` is `4950`. -/
theorem sum_range_hundred_cast {K : Type} [Field K] :
    ∑ i in Finset.range 100, (i : K) = 4950 := by
  have h := Finset.sum_range_id_mul_two 100
  have h2 : (∑ i in Finset.range 100, i) = 4950 := by omega
  have h3 : ((∑ i in Finset.range 100, i : ℕ) : K) = ((4950 : ℕ) : K) := by rw [h2]
  rw [Nat.cast_sum] at h3
  simpa using h3

/-- The sum of an affine sequence over `0 .. 99`. -/
theorem sum_range_hundred_affine {K : Type} [Field K] (p q : K) :
    ∑ j in Finset.range 100, (p + q * (j : K)) = 100 * p + q * 4950 := by
  rw [Finset.sum_add_distrib, ← Finset.mul_sum, sum_range_hundred_cast]
  simp

/-- The value of `doubleIntegrate` is the midpoint sum over the grid. -/
theorem doubleIntegrate_eq_sum {K : Type} [Field K] (ts : ASTNode → String)
    (evaluate : ASTNode → K → K → K) (doubleText : K → String) (root : ASTNode)
    (xl xu yl yu : K) :
    (MultivariateIntegrator.doubleIntegrate ts evaluate doubleText root xl xu yl yu).1
      = ∑ i in Finset.range 100, ∑ j in Finset.range 100,
          evaluate root (xl + ((i : K) + 1 / 2) * ((xu - xl) / 100))
              (yl + ((j : K) + 1 / 2) * ((yu - yl) / 100))
            * ((xu - xl) / 100) * ((yu - yl) / 100) := by
  simp only [MultivariateIntegrator.doubleIntegrate, foldl_add_range]
  simp

/-- The midpoint sum is exact on affine integrands. -/
theorem doubleIntegrate_affine {K : Type} [Field K] [CharZero K] (ts : ASTNode → String)
    (evaluate : ASTNode → K → K → K) (doubleText : K → String) (root : ASTNode)
    (xl xu yl yu a b c : K) (h : ∀ x y : K, evaluate root x y = a + b * x + c * y) :
    (MultivariateIntegrator.doubleIntegrate ts evaluate doubleText root xl xu yl yu).1
      = (xu - xl) * (yu - yl) * (a + b * (xl + xu) / 2 + c * (yl + yu) / 2) := by
  rw [doubleIntegrate_eq_sum]
  simp only [h]
  have inner : ∀ i : ℕ, ∑ j in Finset.range 100,
      (a + b * (xl + ((i : K) + 1 / 2) * ((xu - xl) / 100))
          + c * (yl + ((j : K) + 1 / 2) * ((yu - yl) / 100)))
        * ((xu - xl) / 100) * ((yu - yl) / 100)
      = (100 * ((a + b * (xl + 1 / 2 * ((xu - xl) / 100)) + c * (yl + 1 / 2 * ((yu - yl) / 100)))
              * ((xu - xl) / 100) * ((yu - yl) / 100))
            + c * ((yu - yl) / 100) * ((xu - xl) / 100) * ((yu - yl) / 100) * 4950)
          + (100 * (b * ((xu - xl) / 100) * ((xu - xl) / 100) * ((yu - yl) / 100))) * (i : K) := by
    intro i
    have hj : ∑ j in Finset.range 100,
        (a + b * (xl + ((i : K) + 1 / 2) * ((xu - xl) / 100))
            + c * (yl + ((j : K) + 1 / 2) * ((yu - yl) / 100)))
          * ((xu - xl) / 100) * ((yu - yl) / 100)
        = ∑ j in Finset.range 100,
            ((a + b * (xl + ((i : K) + 1 / 2) * ((xu - xl) / 100))
                  + c * (yl + 1 / 2 * ((yu - yl) / 100)))
                * ((xu - xl) / 100) * ((yu - yl) / 100)
              + (c * ((yu - yl) / 100) * ((xu - xl) / 100) * ((yu - yl) / 100)) * (j : K)) :=
      Finset.sum_congr rfl (fun j _ => by ring)
    rw [hj, sum_range_hundred_affine]
    ring
  simp only [inner]
  rw [sum_range_hundred_affine]
  have h100 : (100 : K) ≠ 0 := by norm_num
  field_simp
  ring

end NumericLemmas

/-! ## Checked element reads of the descriptive statistics -/

section StatisticsLemmas

open StatisticsCalculator

/-- A loop of checked element reads succeeds when every index is in bounds. -/
theorem foldlM_getElem?_isSome {K : Type} (data : List K) (g : String → ℕ → K → String)
    (l : List ℕ) (hl : ∀ i ∈ l, i < data.length) (acc : String) :
    ∃ s : String,
      l.foldlM (fun (oss2 : String) (i : ℕ) => do
          let x ← data[i]?
          pure (g oss2 i x)) acc = some s := by
  induction l generalizing acc with
  | nil => exact ⟨acc, rfl⟩
  | cons i l ih =>
      have hi : i < data.length := hl i (List.mem_cons_self i l)
      obtain ⟨s, hs⟩ := ih (fun j hj => hl j (List.mem_cons_of_mem i hj)) (g acc i data[i])
      refine ⟨s, ?_⟩
      simp only [List.foldlM_cons, List.getElem?_eq_getElem hi]
      exact hs

/-- The loop printing the first twenty values reads in bounds only. -/
theorem dataValuesText_isSome {K : Type} [LinearOrderedField K] (fmt : DoubleText K)
    (data : List K) : ∃ s : String, dataValuesText fmt data = some s := by
  unfold dataValuesText
  apply foldlM_getElem?_isSome data
    (fun oss2 i x => oss2 ++ (if i > 0 then ", " else "") ++ fmt.fixed 2 x)
  intro i hi
  have h1 : i < min data.length 20 := List.mem_range.mp hi
  omega

/-- The median of a non-empty vector reads in bounds only. -/
theorem median_isSome {K : Type} [LinearOrderedField K] (data : List K) (h : data ≠ []) :
    ∃ m : K, median data = some m := by
  have hn : 0 < data.length := List.length_pos.mpr h
  have hlen : (data.mergeSort (fun x y => decide (x ≤ y))).length = data.length :=
    List.length_mergeSort data
  simp only [median, hlen]
  split
  · have h1 : (data.length / 2 + 2 ^ 64 - 1) % 2 ^ 64
        < (data.mergeSort (fun x y => decide (x ≤ y))).length := by
      rw [hlen]; omega
    have h2 : data.length / 2 < (data.mergeSort (fun x y => decide (x ≤ y))).length := by
      rw [hlen]; omega
    rw [List.getElem?_eq_getElem h1, List.getElem?_eq_getElem h2]
    exact ⟨_, rfl⟩
  · have h2 : data.length / 2 < (data.mergeSort (fun x y => decide (x ≤ y))).length := by
      rw [hlen]; omega
    rw [List.getElem?_eq_getElem h2]
    exact ⟨_, rfl⟩

/-- On a non-empty vector `analyzeDataSet` runs to completion. -/
theorem analyzeDataSet_isSome {K : Type} [LinearOrderedField K] (fmt : DoubleText K)
    (sqrt : K → K) (data : List K) (h : data ≠ []) :
    ∃ steps : List StatisticsStep, analyzeDataSet fmt sqrt data = some steps := by
  have hn : 0 < data.length := List.length_pos.mpr h
  have hn0 : data.length ≠ 0 := by omega
  have hlen : (data.mergeSort (fun x y => decide (x ≤ y))).length = data.length :=
    List.length_mergeSort data
  obtain ⟨values, hvalues⟩ := dataValuesText_isSome fmt data
  obtain ⟨med, hmed⟩ := median_isSome data h
  obtain ⟨x, xs, rfl⟩ := List.exists_cons_of_ne_nil h
  have hmin : ∃ v, (x :: xs).min? = some v := ⟨_, List.min?_cons'⟩
  have hmax : ∃ v, (x :: xs).max? = some v := ⟨_, List.max?_cons'⟩
  obtain ⟨minVal, hmin⟩ := hmin
  obtain ⟨maxVal, hmax⟩ := hmax
  simp only [analyzeDataSet, hvalues, hmed, hmin, hmax, mean, variance, standardDeviation,
    if_neg hn0, Option.bind_eq_bind, Option.some_bind, Option.map_some', hlen, Option.pure_def]
  split
  · have h1 : (x :: xs).length / 4
        < ((x :: xs).mergeSort (fun x y => decide (x ≤ y))).length := by
      rw [hlen]; omega
    have hmod : 3 * (x :: xs).length % 2 ^ 64 ≤ 3 * (x :: xs).length := Nat.mod_le _ _
    have h2 : 3 * (x :: xs).length % 2 ^ 64 / 4
        < ((x :: xs).mergeSort (fun x y => decide (x ≤ y))).length := by
      rw [hlen]; omega
    rw [List.getElem?_eq_getElem h1, List.getElem?_eq_getElem h2]
    exact ⟨_, rfl⟩
  · exact ⟨_, rfl⟩

end StatisticsLemmas

/-! ## The claims -/

section Claims

open PartialDerivative MultivariateIntegrator ImplicitDifferentiator

/-- Claim C1 as stated fails: `x ^ 1e16` is a tree of the smooth fragment, the
subtraction `1e16 - 1` of `double` returns `1e16`, and `differentiate` returns
`1e16 * x ^ 1e16 * 1`, which does not denote the derivative at `x = 2`. -/
theorem differentiate_sound_counterexample :
    smoothFragment xToTheTenToSixteen = true ∧ isDouble 10000000000000000 = true ∧
    ¬ (∀ (ts : ASTNode → String) (e : ASTNode) (var : DiffVariable) (env : String → ℝ),
        smoothFragment e = true →
        HasDerivAt (fun t => eval (Function.update env (PartialDerivative.varStr var) t) e)
          (eval env (differentiate ts e var).1) (env (PartialDerivative.varStr var))) := by
  refine ⟨by decide, isDouble_tenToSixteen, ?_⟩
  intro h
  have h1 := h (fun _ => "") xToTheTenToSixteen DiffVariable.X (fun _ => 2) (by decide)
  have key := not_hasDerivAt_differentiateNode_pow (fun _ => "") 10000000000000000
    (by norm_num) (by rw [Nat.cast_ofNat]; exact doubleSub_tenToSixteen)
  rw [Nat.cast_ofNat] at key
  exact key h1

/-- Claim C1, amended: soundness of differentiation on the smooth fragment with
literal exponents at most `2 ^ 53`, where the subtraction `n - 1` of `double` is
exact. For every such tree `e`, each selector and every real assignment `env`,
the value of `differentiate(e, v)` at `env` is the partial derivative, in the
variable named by the selector, of the function denoted by `e`. The product
`x * sin(x)` differentiates to a tree whose value at `x = 1` is
`sin 1 + cos 1`, and `x ^ 3` to a tree whose value at `x = 2` is `12`. -/
theorem differentiate_sound_exact_exponents (ts : ASTNode → String) :
    (∀ (e : ASTNode) (var : DiffVariable) (env : String → ℝ), smoothFragment e = true →
      exponentsAtMost (2 ^ 53) e = true →
      HasDerivAt (fun t => eval (Function.update env (PartialDerivative.varStr var) t) e)
        (eval env (differentiate ts e var).1) (env (PartialDerivative.varStr var))) ∧
    (∀ env : String → ℝ, eval (Function.update env "x" 1)
        (differentiate ts xTimesSinX DiffVariable.X).1 = Real.sin 1 + Real.cos 1) ∧
    (∀ env : String → ℝ, eval (Function.update env "x" 2)
        (differentiate ts xCubed DiffVariable.X).1 = 12) := by
  refine ⟨fun e var env h hb => hasDerivAt_differentiateNode ts var env e h hb, ?_, ?_⟩
  · intro env
    simp [differentiate, xTimesSinX, differentiateNode, eval]
  · intro env
    have h3 : doubleSub 3 1 = 2 := by
      have := doubleSub_one_exact 3 (by norm_num) (by norm_num)
      norm_num at this
      exact this
    simp [differentiate, xCubed, differentiateNode, eval, h3]
    norm_num

/-- Claim C1, amended, at `x * sin(x)`, selector `x`, every variable bound to
`1`. -/
theorem differentiate_sound_exact_exponents_witness :
    smoothFragment xTimesSinX = true ∧ exponentsAtMost (2 ^ 53) xTimesSinX = true ∧
    HasDerivAt (fun t => eval (Function.update (fun _ => (1 : ℝ)) "x" t) xTimesSinX)
      (eval (fun _ => (1 : ℝ)) (differentiate (fun _ => "") xTimesSinX DiffVariable.X).1) 1 :=
  ⟨by decide, by decide,
   (differentiate_sound_exact_exponents (fun _ => "")).1 xTimesSinX DiffVariable.X (fun _ => 1)
    (by decide) (by decide)⟩

/-- Claim C2 as stated fails: `x ^ 9007199254740992` is a tree of the supported
rule subset, the addition `2^53 + 1` of `double` returns `2^53`, so `integrate`
returns `x ^ 2^53 / 2^53`, and the derivative of that tree has the value of
`x ^ (2^53 - 1)`, which differs from the value of the integrand at `x = 2`. -/
theorem differentiate_integrate_round_trip_counterexample :
    roundTripFragment IntegrationVariable.X xToTheTwoToFiftyThree = true ∧
    isDouble 9007199254740992 = true ∧
    ¬ (∀ (ts1 ts2 : ASTNode → String) (env : String → ℝ) (f : ASTNode),
        roundTripFragment IntegrationVariable.X f = true →
        eval env (differentiate ts2 (integrate ts1 f IntegrationVariable.X).1 DiffVariable.X).1
          = eval env f) := by
  refine ⟨by decide, isDouble_twoToFiftyThree, ?_⟩
  intro h
  have h1 := h (fun _ => "") (fun _ => "") (fun _ => 2) xToTheTwoToFiftyThree (by decide)
  have key := eval_roundTrip_pow_ne (fun _ => "") (fun _ => "") 9007199254740992
    (by norm_num) (by rw [Nat.cast_ofNat]; exact doubleAdd_twoToFiftyThree)
    (doubleSub_natCast _ (by norm_num))
  rw [Nat.cast_ofNat] at key
  exact key h1

/-- Claim C2, amended: round trip on the supported rule subset with literal
exponents below `2 ^ 53`, where the additions and subtractions of `double` are
exact. For every such tree `f` the tree `differentiate(integrate(f, v), v)` has
the value of `f` at every assignment, for `v = x` and for `v = y`. -/
theorem differentiate_integrate_round_trip_exact_exponents (ts1 ts2 : ASTNode → String)
    (env : String → ℝ) (f : ASTNode) (hb : exponentsAtMost (2 ^ 53 - 1) f = true) :
    (roundTripFragment IntegrationVariable.X f = true →
      eval env (differentiate ts2 (integrate ts1 f IntegrationVariable.X).1 DiffVariable.X).1
        = eval env f) ∧
    (roundTripFragment IntegrationVariable.Y f = true →
      eval env (differentiate ts2 (integrate ts1 f IntegrationVariable.Y).1 DiffVariable.Y).1
        = eval env f) :=
  ⟨fun h => eval_differentiateNode_integrateNode ts1 ts2 IntegrationVariable.X DiffVariable.X
      rfl env f h hb,
   fun h => eval_differentiateNode_integrateNode ts1 ts2 IntegrationVariable.Y DiffVariable.Y
      rfl env f h hb⟩

/-- Claim C2, amended, at `x^2`, `sin(x)`, `exp(x)` and `3x`, selector `x`, at
the point where every variable is `2`. -/
theorem differentiate_integrate_round_trip_exact_exponents_witness :
    (roundTripFragment IntegrationVariable.X xSquared = true ∧
      exponentsAtMost (2 ^ 53 - 1) xSquared = true ∧
      eval (fun _ => 2) (differentiate (fun _ => "")
        (integrate (fun _ => "") xSquared IntegrationVariable.X).1 DiffVariable.X).1
        = eval (fun _ => 2) xSquared) ∧
    (roundTripFragment IntegrationVariable.X sinX = true ∧
      eval (fun _ => 2) (differentiate (fun _ => "")
        (integrate (fun _ => "") sinX IntegrationVariable.X).1 DiffVariable.X).1
        = eval (fun _ => 2) sinX) ∧
    (roundTripFragment IntegrationVariable.X expX = true ∧
      eval (fun _ => 2) (differentiate (fun _ => "")
        (integrate (fun _ => "") expX IntegrationVariable.X).1 DiffVariable.X).1
        = eval (fun _ => 2) expX) ∧
    (roundTripFragment IntegrationVariable.X threeX = true ∧
      eval (fun _ => 2) (differentiate (fun _ => "")
        (integrate (fun _ => "") threeX IntegrationVariable.X).1 DiffVariable.X).1
        = eval (fun _ => 2) threeX) :=
  ⟨⟨by decide, by simp [exponentsAtMost, xSquared]; norm_num,
      (differentiate_integrate_round_trip_exact_exponents _ _ _ xSquared
        (by simp [exponentsAtMost, xSquared]; norm_num)).1 (by decide)⟩,
   ⟨by decide, (differentiate_integrate_round_trip_exact_exponents _ _ _ sinX (by decide)).1
      (by decide)⟩,
   ⟨by decide, (differentiate_integrate_round_trip_exact_exponents _ _ _ expX (by decide)).1
      (by decide)⟩,
   ⟨by decide, (differentiate_integrate_round_trip_exact_exponents _ _ _ threeX (by decide)).1
      (by decide)⟩⟩

/-- Claim C3, at the failing input `tan(x)`: `differentiateImplicit` has no
`TAN` case and returns `Number(0)`, whereas `PartialDerivative::differentiate`
returns `(1 / cos(x)^2) * 1`; the two trees differ. -/
theorem differentiateImplicit_tan_is_zero (ts : ASTNode → String) :
    differentiateImplicit tanX true = NumberNode 0 ∧
    (differentiate ts tanX DiffVariable.X).1
      = BinaryOpNode BinaryOp.MUL
          (BinaryOpNode BinaryOp.DIV (NumberNode 1)
            (BinaryOpNode BinaryOp.POW (UnaryFuncNode UnaryFunc.COS (VariableNode "x"))
              (NumberNode 2)))
          (NumberNode 1) ∧
    differentiateImplicit tanX true ≠ (differentiate ts tanX DiffVariable.X).1 := by
  simp [tanX, differentiateImplicit, differentiate, differentiateNode]

/-- Claim C4, at the failing input `x * y` integrated in `x`: the left operand
is the selected variable, so the check of the right operand is skipped and the
node is returned unchanged with the product-fallback step, not as
`y * ∫ x dx`. -/
theorem integrate_variable_times_other_variable (ts : ASTNode → String) :
    integrateNode ts IntegrationVariable.X xTimesY
      = (xTimesY,
          [{ description := "Product integration (advanced - using numerical approximation)",
             expression := "∫ " ++ ts xTimesY ++ " d" ++ "x" ++ " ≈ (complex)" }]) ∧
    (integrate ts xTimesY IntegrationVariable.X).1 = xTimesY ∧
    (integrate ts xTimesY IntegrationVariable.X).1
      ≠ BinaryOpNode BinaryOp.MUL (VariableNode "y")
          (integrateNode ts IntegrationVariable.X (VariableNode "x")).1 := by
  simp [xTimesY, integrate, integrateNode, productFallback, MultivariateIntegrator.varStr]

/-- Claim C5, at unary nodes: the step of a unary function is appended after
the steps of its operand, for all six functions; for `sin(x)` the log lists
the rule for `x` before the chain rule for `sin`. -/
theorem differentiate_unary_step_after_operand (ts : ASTNode → String) :
    (∀ (var : DiffVariable) (func : UnaryFunc) (u : ASTNode),
      ∃ step : PartialDerivativeStep,
        (differentiateNode ts var (UnaryFuncNode func u)).2
          = (differentiateNode ts var u).2 ++ [step]) ∧
    (differentiate ts sinX DiffVariable.X).2.map (fun s => s.description)
      = ["Initial expression", "Power Rule: ∂/∂x(x) = 1",
         "Chain Rule: ∂/∂x(sin(u)) = cos(u) * ∂u/∂x", "Final partial derivative"] := by
  constructor
  · intro var func u
    cases func <;> exact ⟨_, rfl⟩
  · simp [sinX, differentiate, differentiateNode, PartialDerivative.varStr]

/-- Claim C6, at the failing input `1 / x` integrated in `x`: the `DIV` node is
returned unchanged and `integrateNode` appends no step; the log of `integrate`
holds only the initial and the final entry. -/
theorem integrate_div_unflagged (ts : ASTNode → String) :
    integrateNode ts IntegrationVariable.X oneOverX = (oneOverX, []) ∧
    (integrate ts oneOverX IntegrationVariable.X).1 = oneOverX ∧
    (integrate ts oneOverX IntegrationVariable.X).2.map (fun s => s.description)
      = ["Initial expression", "Final integral (+ C for indefinite)"] := by
  simp [oneOverX, integrate, integrateNode]

/-- Claim C7 as stated fails: `differentiateNode` returns the default
`Number(0)` for `x ^ y` and appends no step at all. -/
theorem differentiate_symbolic_exponent_flag_counterexample :
    ¬ (∀ (ts : ASTNode → String) (var : DiffVariable) (l r : ASTNode),
        r.type ≠ NodeType.NUMBER →
        (differentiateNode ts var (BinaryOpNode BinaryOp.POW l r)).1 = NumberNode 0 →
        (differentiateNode ts var (BinaryOpNode BinaryOp.POW l r)).2 ≠ []) := by
  intro h
  exact h (fun _ => "") DiffVariable.X (VariableNode "x") (VariableNode "y") (by decide)
    (by simp [differentiateNode]) (by simp [differentiateNode])

/-- Claim C7, amended: for a `POW` node whose exponent is not a literal
`Number`, `differentiateNode` returns the default `Number(0)` and appends no
step; the log of `differentiate` holds only the initial and the final entry. -/
theorem differentiate_symbolic_exponent_silent (ts : ASTNode → String) (var : DiffVariable)
    (l r : ASTNode) (hr : r.type ≠ NodeType.NUMBER) :
    differentiateNode ts var (BinaryOpNode BinaryOp.POW l r) = (NumberNode 0, []) ∧
    (differentiate ts (BinaryOpNode BinaryOp.POW l r) var).1 = NumberNode 0 ∧
    (differentiate ts (BinaryOpNode BinaryOp.POW l r) var).2.map (fun s => s.description)
      = ["Initial expression", "Final partial derivative"] := by
  cases r with
  | NumberNode _ => simp [ASTNode.type] at hr
  | VariableNode _ => simp [differentiate, differentiateNode]
  | BinaryOpNode _ _ _ => simp [differentiate, differentiateNode]
  | UnaryFuncNode _ _ => simp [differentiate, differentiateNode]

/-- Claim C7, amended, at `x ^ y` with selector `x`. -/
theorem differentiate_symbolic_exponent_silent_witness :
    (VariableNode "y").type ≠ NodeType.NUMBER ∧
    differentiateNode (fun _ => "") DiffVariable.X xToTheY = (NumberNode 0, []) :=
  ⟨by decide,
   (differentiate_symbolic_exponent_silent (fun _ => "") DiffVariable.X (VariableNode "x")
      (VariableNode "y") (by decide)).1⟩

/-- Claim C8 as stated fails: for a unary function of a literal `Number`, and
for one of a compound argument, `integrateNode` does not return
`MUL(node, Variable v)`; e.g. `sin(1)` and `sin(y + 1)` integrated in `x` come
back unchanged. -/
theorem integrate_unary_constant_rule_counterexample :
    (¬ ∀ (ts : ASTNode → String) (iv : IntegrationVariable) (func : UnaryFunc) (arg : ASTNode),
        arg.type = NodeType.NUMBER →
        (integrateNode ts iv (UnaryFuncNode func arg)).1
          = BinaryOpNode BinaryOp.MUL (UnaryFuncNode func arg)
              (VariableNode (MultivariateIntegrator.varStr iv))) ∧
    (¬ ∀ (ts : ASTNode → String) (iv : IntegrationVariable) (func : UnaryFunc) (arg : ASTNode),
        arg.type = NodeType.BINARY_OP ∨ arg.type = NodeType.UNARY_FUNC →
        (integrateNode ts iv (UnaryFuncNode func arg)).1
          = BinaryOpNode BinaryOp.MUL (UnaryFuncNode func arg)
              (VariableNode (MultivariateIntegrator.varStr iv))) := by
  constructor
  · intro h
    have h1 := h (fun _ => "") IntegrationVariable.X UnaryFunc.SIN (NumberNode 1) (by decide)
    simp [integrateNode] at h1
  · intro h
    have h1 := h (fun _ => "") IntegrationVariable.X UnaryFunc.SIN
      (BinaryOpNode BinaryOp.ADD (VariableNode "y") (NumberNode 1)) (by decide)
    simp [integrateNode] at h1

/-- Claim C8, amended: for every `UnaryFunc(f, Variable w)` whose variable
name `w` differs from the selected variable `v`, `integrate` returns
`MUL(copy of the whole node, Variable v)`. -/
theorem integrate_unary_other_variable (ts : ASTNode → String) (iv : IntegrationVariable)
    (func : UnaryFunc) (name : String) (h : name ≠ MultivariateIntegrator.varStr iv) :
    (integrateNode ts iv (UnaryFuncNode func (VariableNode name))).1
      = BinaryOpNode BinaryOp.MUL (UnaryFuncNode func (VariableNode name))
          (VariableNode (MultivariateIntegrator.varStr iv)) ∧
    (integrate ts (UnaryFuncNode func (VariableNode name)) iv).1
      = BinaryOpNode BinaryOp.MUL (UnaryFuncNode func (VariableNode name))
          (VariableNode (MultivariateIntegrator.varStr iv)) := by
  simp [integrate, integrateNode, h]

/-- Claim C8, amended, at `sin(y)` integrated in `x`. -/
theorem integrate_unary_other_variable_witness :
    "y" ≠ MultivariateIntegrator.varStr IntegrationVariable.X ∧
    (integrateNode (fun _ => "") IntegrationVariable.X sinY).1
      = BinaryOpNode BinaryOp.MUL sinY (VariableNode "x") :=
  ⟨by decide,
   (integrate_unary_other_variable (fun _ => "") IntegrationVariable.X UnaryFunc.SIN "y"
      (by decide)).1⟩

/-- Claim C9 as stated fails: for a power with a literal `Number` base, and
for a power of another variable with a non-literal exponent, `integrateNode`
does not return `MUL(node, Variable v)`; e.g. `2 ^ 3` and `y ^ x` integrated
in `x` come back unchanged. -/
theorem integrate_pow_constant_rule_counterexample :
    (¬ ∀ (ts : ASTNode → String) (iv : IntegrationVariable) (base exponent : ASTNode),
        base.type = NodeType.NUMBER →
        (integrateNode ts iv (BinaryOpNode BinaryOp.POW base exponent)).1
          = BinaryOpNode BinaryOp.MUL (BinaryOpNode BinaryOp.POW base exponent)
              (VariableNode (MultivariateIntegrator.varStr iv))) ∧
    (¬ ∀ (ts : ASTNode → String) (iv : IntegrationVariable) (name : String)
        (exponent : ASTNode),
        name ≠ MultivariateIntegrator.varStr iv →
        (integrateNode ts iv (BinaryOpNode BinaryOp.POW (VariableNode name) exponent)).1
          = BinaryOpNode BinaryOp.MUL (BinaryOpNode BinaryOp.POW (VariableNode name) exponent)
              (VariableNode (MultivariateIntegrator.varStr iv))) := by
  constructor
  · intro h
    have h1 := h (fun _ => "") IntegrationVariable.X (NumberNode 2) (NumberNode 3) (by decide)
    simp [integrateNode] at h1
  · intro h
    have h1 := h (fun _ => "") IntegrationVariable.X "y" (VariableNode "x") (by decide)
    simp [integrateNode] at h1

/-- Claim C9, amended: for every `POW(Variable w, Number n)` whose base
variable `w` differs from the selected variable `v`, `integrate` returns
`MUL(copy of the whole POW node, Variable v)`. -/
theorem integrate_pow_other_variable (ts : ASTNode → String) (iv : IntegrationVariable)
    (name : String) (n : ℚ) (h : name ≠ MultivariateIntegrator.varStr iv) :
    (integrateNode ts iv (BinaryOpNode BinaryOp.POW (VariableNode name) (NumberNode n))).1
      = BinaryOpNode BinaryOp.MUL (BinaryOpNode BinaryOp.POW (VariableNode name) (NumberNode n))
          (VariableNode (MultivariateIntegrator.varStr iv)) ∧
    (integrate ts (BinaryOpNode BinaryOp.POW (VariableNode name) (NumberNode n)) iv).1
      = BinaryOpNode BinaryOp.MUL (BinaryOpNode BinaryOp.POW (VariableNode name) (NumberNode n))
          (VariableNode (MultivariateIntegrator.varStr iv)) := by
  simp [integrate, integrateNode, h]

/-- Claim C9, amended, at `y ^ 3` integrated in `x`. -/
theorem integrate_pow_other_variable_witness :
    "y" ≠ MultivariateIntegrator.varStr IntegrationVariable.X ∧
    (integrateNode (fun _ => "") IntegrationVariable.X yCubed).1
      = BinaryOpNode BinaryOp.MUL yCubed (VariableNode "x") :=
  ⟨by decide,
   (integrate_pow_other_variable (fun _ => "") IntegrationVariable.X "y" 3 (by decide)).1⟩

/-- Claim C10: implicit differentiation of the circle `x^2 + y^2 - 1`. If the
simplifier preserves the value of every tree, the ratio tree built by
`computeImplicitDerivative` evaluates to `-x / y` wherever `y ≠ 0`, and to
`-0.75` at `x = 0.6`, `y = 0.8`. -/
theorem circle_implicit_derivative (simplify : ASTNode → ASTNode)
    (hs : ∀ (e : ASTNode) (env : String → ℝ), eval env (simplify e) = eval env e) :
    (∀ env : String → ℝ, env "y" ≠ 0 →
      eval env (simplifiedResult simplify circle) = -(env "x") / env "y") ∧
    (∀ env : String → ℝ, env "x" = 0.6 → env "y" = 0.8 →
      eval env (simplifiedResult simplify circle) = -0.75) := by
  have key : ∀ env : String → ℝ,
      eval env (simplifiedResult simplify circle) = -1 * (2 * env "x") / (2 * env "y") := by
    intro env
    have h21 : (2 : ℝ) - 1 = 1 := by norm_num
    simp [simplifiedResult, dFdx, dFdy, hs, circle, differentiateImplicit, eval, h21,
      doubleSub_two_one]
  constructor
  · intro env hy
    rw [key]
    field_simp
    ring
  · intro env hx hy
    rw [key, hx, hy]
    norm_num

/-- Claim C10 with the identity as simplifier, at `x = 0.6`, `y = 0.8`. -/
theorem circle_implicit_derivative_witness :
    (∀ (e : ASTNode) (env : String → ℝ), eval env (id e) = eval env e) ∧
    eval (fun s => if s = "x" then 0.6 else 0.8) (simplifiedResult id circle) = -0.75 :=
  ⟨fun _ _ => rfl,
   (circle_implicit_derivative id (fun _ _ => rfl)).2 (fun s => if s = "x" then 0.6 else 0.8)
     (by simp) (by simp)⟩

/-- Claim C11: composition of the implicit result. For every equation tree `F`,
with `Dx = simplify(differentiateImplicit(F, true))` and
`Dy = simplify(differentiateImplicit(F, false))`, `computeImplicitDerivative`
returns the text `"dy/dx = "` followed by the rendering of
`simplify(DIV(MUL(Number(-1), Dx), Dy))`, and the last step of the log carries
that text as its expression. No zero check on `Dy` is made: for `F = 1` and the
identity simplifier the divisor is `Number(0)` and the text is still built. -/
theorem computeImplicitDerivative_composition (ts : ASTNode → String)
    (simplify : ASTNode → ASTNode) (F : ASTNode) :
    (computeImplicitDerivative ts simplify F).1
      = "dy/dx = " ++ ts (simplify (BinaryOpNode BinaryOp.DIV
          (BinaryOpNode BinaryOp.MUL (NumberNode (-1))
            (simplify (differentiateImplicit F true)))
          (simplify (differentiateImplicit F false)))) ∧
    (computeImplicitDerivative ts simplify F).2.getLast?
      = some { description := "=== Final Result (Simplified) ===",
               expression := (computeImplicitDerivative ts simplify F).1 } ∧
    (computeImplicitDerivative ts id (NumberNode 1)).1
      = "dy/dx = " ++ ts (BinaryOpNode BinaryOp.DIV
          (BinaryOpNode BinaryOp.MUL (NumberNode (-1)) (NumberNode 0)) (NumberNode 0)) := by
  simp [computeImplicitDerivative, simplifiedResult, dFdx, dFdy, differentiateImplicit]


/-- Claim C12: product rule shape. `differentiate(MUL(f, g), v)` is
`ADD(MUL(d(f), g'), MUL(f', d(g)))` where `g'`, `f'` are the clones of the
operands, structurally equal to `g` and `f`. -/
theorem differentiate_product_rule_shape (ts : ASTNode → String) (var : DiffVariable)
    (f g : ASTNode) :
    (differentiate ts (BinaryOpNode BinaryOp.MUL f g) var).1
      = BinaryOpNode BinaryOp.ADD
          (BinaryOpNode BinaryOp.MUL (differentiate ts f var).1 (clone g))
          (BinaryOpNode BinaryOp.MUL (clone f) (differentiate ts g var).1) ∧
    clone g = g ∧ clone f = f := by
  simp [differentiate, differentiateNode]

/-- Claim C13: quotient rule shape. `differentiate(DIV(f, g), v)` is
`DIV(SUB(MUL(d(f), g), MUL(f, d(g))), POW(g, Number 2))`. -/
theorem differentiate_quotient_rule_shape (ts : ASTNode → String) (var : DiffVariable)
    (f g : ASTNode) :
    (differentiate ts (BinaryOpNode BinaryOp.DIV f g) var).1
      = BinaryOpNode BinaryOp.DIV
          (BinaryOpNode BinaryOp.SUB
            (BinaryOpNode BinaryOp.MUL (differentiate ts f var).1 g)
            (BinaryOpNode BinaryOp.MUL f (differentiate ts g var).1))
          (BinaryOpNode BinaryOp.POW g (NumberNode 2)) := by
  simp [differentiate, differentiateNode]

/-- Claim C14 as stated fails, also for literals that are `double` values: the
exponent of the returned power is the difference `n - 1` computed in `double`,
not the exact `n - 1`; for `x ^ 1e16` it is the literal `1e16`. -/
theorem differentiate_power_rule_exact_exponent_counterexample :
    ¬ (∀ (ts : ASTNode → String) (var : DiffVariable) (f : ASTNode) (n : ℚ),
        isDouble n = true →
        (differentiate ts (BinaryOpNode BinaryOp.POW f (NumberNode n)) var).1
          = BinaryOpNode BinaryOp.MUL
              (BinaryOpNode BinaryOp.MUL (NumberNode n)
                (BinaryOpNode BinaryOp.POW f (NumberNode (n - 1))))
              (differentiate ts f var).1) := by
  intro h
  have h1 := h (fun _ => "") DiffVariable.X (VariableNode "x") 10000000000000000
    isDouble_tenToSixteen
  simp only [differentiate, differentiateNode_pow, doubleSub_tenToSixteen] at h1
  simp only [ASTNode.BinaryOpNode.injEq, ASTNode.NumberNode.injEq, true_and, and_true] at h1
  norm_num at h1

/-- Claim C14, amended: power rule shape in `double` arithmetic. For every
literal `n`, `differentiate(POW(f, Number n), v)` is
`MUL(MUL(Number n, POW(f, Number m)), d(f))` where `m` is the difference
`n - 1` of `double`; the steps appended for the node are the power-rule step
followed by the steps of `f` only, so the exponent contributes no step; and
`m` is the exact `n - 1` for every integer literal with
`-2^53 < n ≤ 2^53 + 1`. -/
theorem differentiate_power_rule_double_shape (ts : ASTNode → String) (var : DiffVariable)
    (f : ASTNode) (n : ℚ) :
    (differentiate ts (BinaryOpNode BinaryOp.POW f (NumberNode n)) var).1
      = BinaryOpNode BinaryOp.MUL
          (BinaryOpNode BinaryOp.MUL (NumberNode n)
            (BinaryOpNode BinaryOp.POW f (NumberNode (doubleSub n 1))))
          (differentiate ts f var).1 ∧
    (differentiateNode ts var (BinaryOpNode BinaryOp.POW f (NumberNode n))).2
      = { description := "Power Rule: ∂/∂" ++ PartialDerivative.varStr var
            ++ "(u^n) = n * u^(n-1) * ∂u/∂" ++ PartialDerivative.varStr var,
          expression := "∂/∂" ++ PartialDerivative.varStr var ++ "(" ++ ts f ++ "^"
            ++ intText n ++ ")" } :: (differentiateNode ts var f).2 ∧
    (∀ z : ℤ, n = (z : ℚ) → -(2 ^ 53) < z → z ≤ 2 ^ 53 + 1 →
      (differentiate ts (BinaryOpNode BinaryOp.POW f (NumberNode n)) var).1
        = BinaryOpNode BinaryOp.MUL
            (BinaryOpNode BinaryOp.MUL (NumberNode n)
              (BinaryOpNode BinaryOp.POW f (NumberNode (n - 1))))
            (differentiate ts f var).1) := by
  refine ⟨by simp [differentiate, differentiateNode], by simp [differentiateNode], ?_⟩
  intro z hz h1 h2
  subst hz
  simp [differentiate, differentiateNode, doubleSub_one_exact z h1 h2]

/-- Claim C14, amended, at `x ^ 3` with selector `x`. -/
theorem differentiate_power_rule_double_shape_witness :
    (3 : ℚ) = ((3 : ℤ) : ℚ) ∧ -(2 ^ 53) < (3 : ℤ) ∧ (3 : ℤ) ≤ 2 ^ 53 + 1 ∧
    (differentiate (fun _ => "") (BinaryOpNode BinaryOp.POW (VariableNode "x") (NumberNode 3))
        DiffVariable.X).1
      = BinaryOpNode BinaryOp.MUL
          (BinaryOpNode BinaryOp.MUL (NumberNode 3)
            (BinaryOpNode BinaryOp.POW (VariableNode "x") (NumberNode (3 - 1))))
          (differentiate (fun _ => "") (VariableNode "x") DiffVariable.X).1 :=
  ⟨by norm_num, by norm_num, by norm_num,
   (differentiate_power_rule_double_shape (fun _ => "") DiffVariable.X (VariableNode "x") 3).2.2
     3 (by norm_num) (by norm_num) (by norm_num)⟩

/-- Claim C15: chain rule shapes. `differentiate(UnaryFunc(F, u), v)` is
`MUL(outer, d(u))` with `outer` equal to `COS(u)` for `SIN`,
`MUL(Number -1, SIN(u))` for `COS`, `DIV(Number 1, POW(COS(u), Number 2))` for
`TAN`, `DIV(Number 1, u)` for `LN`, `EXP(u)` for `EXP` and
`DIV(Number 1, MUL(Number 2, SQRT(u)))` for `SQRT`. -/
theorem differentiate_chain_rule_shapes (ts : ASTNode → String) (var : DiffVariable)
    (u : ASTNode) :
    (differentiate ts (UnaryFuncNode UnaryFunc.SIN u) var).1
      = BinaryOpNode BinaryOp.MUL (UnaryFuncNode UnaryFunc.COS u) (differentiate ts u var).1 ∧
    (differentiate ts (UnaryFuncNode UnaryFunc.COS u) var).1
      = BinaryOpNode BinaryOp.MUL
          (BinaryOpNode BinaryOp.MUL (NumberNode (-1)) (UnaryFuncNode UnaryFunc.SIN u))
          (differentiate ts u var).1 ∧
    (differentiate ts (UnaryFuncNode UnaryFunc.TAN u) var).1
      = BinaryOpNode BinaryOp.MUL
          (BinaryOpNode BinaryOp.DIV (NumberNode 1)
            (BinaryOpNode BinaryOp.POW (UnaryFuncNode UnaryFunc.COS u) (NumberNode 2)))
          (differentiate ts u var).1 ∧
    (differentiate ts (UnaryFuncNode UnaryFunc.LN u) var).1
      = BinaryOpNode BinaryOp.MUL (BinaryOpNode BinaryOp.DIV (NumberNode 1) u)
          (differentiate ts u var).1 ∧
    (differentiate ts (UnaryFuncNode UnaryFunc.EXP u) var).1
      = BinaryOpNode BinaryOp.MUL (UnaryFuncNode UnaryFunc.EXP u) (differentiate ts u var).1 ∧
    (differentiate ts (UnaryFuncNode UnaryFunc.SQRT u) var).1
      = BinaryOpNode BinaryOp.MUL
          (BinaryOpNode BinaryOp.DIV (NumberNode 1)
            (BinaryOpNode BinaryOp.MUL (NumberNode 2) (UnaryFuncNode UnaryFunc.SQRT u)))
          (differentiate ts u var).1 := by
  simp [differentiate, differentiateNode]

/-- Claim C16: soft failure on symbolic exponents. When `g` is not a literal
`Number`, `differentiate(POW(f, g), v)` returns `Number(0)` as an ordinary
value, and the log holds the initial and the final entry only, so neither `f`
nor `g` was visited; the result of `differentiateNode` is the same for every
such base and exponent. -/
theorem differentiate_symbolic_exponent_no_recursion (ts : ASTNode → String)
    (var : DiffVariable) (f g : ASTNode) (hg : g.type ≠ NodeType.NUMBER) :
    differentiate ts (BinaryOpNode BinaryOp.POW f g) var
      = (NumberNode 0,
          [{ description := "Initial expression",
             expression := "∂/∂" ++ PartialDerivative.varStr var ++ "("
               ++ ts (BinaryOpNode BinaryOp.POW f g) ++ ")" },
           { description := "Final partial derivative",
             expression := "∂f/∂" ++ PartialDerivative.varStr var ++ " = "
               ++ ts (NumberNode 0) }]) ∧
    (∀ f2 g2 : ASTNode, g2.type ≠ NodeType.NUMBER →
      differentiateNode ts var (BinaryOpNode BinaryOp.POW f2 g2)
        = differentiateNode ts var (BinaryOpNode BinaryOp.POW f g)) := by
  have key : ∀ f1 g1 : ASTNode, g1.type ≠ NodeType.NUMBER →
      differentiateNode ts var (BinaryOpNode BinaryOp.POW f1 g1) = (NumberNode 0, []) := by
    intro f1 g1 h1
    cases g1 with
    | NumberNode _ => simp [ASTNode.type] at h1
    | VariableNode _ => simp [differentiateNode]
    | BinaryOpNode _ _ _ => simp [differentiateNode]
    | UnaryFuncNode _ _ => simp [differentiateNode]
  refine ⟨?_, fun f2 g2 h2 => ?_⟩
  · simp [differentiate, key f g hg]
  · rw [key f2 g2 h2, key f g hg]

/-- Claim C16 at `2 ^ sin(x)` with selector `x`. -/
theorem differentiate_symbolic_exponent_no_recursion_witness :
    (UnaryFuncNode UnaryFunc.SIN (VariableNode "x")).type ≠ NodeType.NUMBER ∧
    (differentiate (fun _ => "") (BinaryOpNode BinaryOp.POW (NumberNode 2) sinX)
      DiffVariable.X).1 = NumberNode 0 :=
  ⟨by decide,
   congrArg Prod.fst (differentiate_symbolic_exponent_no_recursion (fun _ => "") DiffVariable.X
      (NumberNode 2) (UnaryFuncNode UnaryFunc.SIN (VariableNode "x")) (by decide)).1⟩

/-- Claim C17: variable rule. `differentiate(Variable(name), v)` is `Number(1)`
exactly when `name` is the selector's name (`"x"` for `X`, `"y"` for `Y`) and
`Number(0)` otherwise; the comparison is case-sensitive. -/
theorem differentiate_variable_rule (ts : ASTNode → String) (name : String)
    (var : DiffVariable) :
    (differentiate ts (VariableNode name) var).1
      = (if name = PartialDerivative.varStr var then NumberNode 1 else NumberNode 0) ∧
    ((differentiate ts (VariableNode name) var).1 = NumberNode 1
      ↔ name = PartialDerivative.varStr var) ∧
    PartialDerivative.varStr DiffVariable.X = "x" ∧
    PartialDerivative.varStr DiffVariable.Y = "y" ∧
    (differentiate ts (VariableNode "x") DiffVariable.X).1 = NumberNode 1 ∧
    (differentiate ts (VariableNode "x") DiffVariable.Y).1 = NumberNode 0 ∧
    (differentiate ts (VariableNode "X") DiffVariable.X).1 = NumberNode 0 := by
  have key : (differentiate ts (VariableNode name) var).1
      = (if name = PartialDerivative.varStr var then NumberNode 1 else NumberNode 0) := by
    cases var <;> simp only [differentiate, differentiateNode, PartialDerivative.varStr] <;>
      split <;> simp_all
  refine ⟨key, ?_, by decide, by decide, ?_, ?_, ?_⟩
  · rw [key]
    by_cases h : name = PartialDerivative.varStr var <;> simp [h]
  · simp [differentiate, differentiateNode]
  · simp [differentiate, differentiateNode]
  · simp [differentiate, differentiateNode]

/-- Claim C18: constant rule. `differentiate(Number(n), v)` is `Number(0)` for
every literal `n` and each selector. -/
theorem differentiate_constant_rule (ts : ASTNode → String) (n : ℚ) (var : DiffVariable) :
    (differentiate ts (NumberNode n) var).1 = NumberNode 0 ∧
    (differentiateNode ts var (NumberNode n)).1 = NumberNode 0 := by
  simp [differentiate, differentiateNode]

/-- Claim C19: sum and difference rules. `differentiate(ADD(f, g), v)` is
`ADD(d(f), d(g))` and `differentiate(SUB(f, g), v)` is `SUB(d(f), d(g))`, with
the operand order preserved. -/
theorem differentiate_sum_difference_rules (ts : ASTNode → String) (var : DiffVariable)
    (f g : ASTNode) :
    (differentiate ts (BinaryOpNode BinaryOp.ADD f g) var).1
      = BinaryOpNode BinaryOp.ADD (differentiate ts f var).1 (differentiate ts g var).1 ∧
    (differentiate ts (BinaryOpNode BinaryOp.SUB f g) var).1
      = BinaryOpNode BinaryOp.SUB (differentiate ts f var).1 (differentiate ts g var).1 := by
  simp [differentiate, differentiateNode]

/-- Claim C20: treat-as-constant. If no variable named by the selector occurs
in `e`, the tree `differentiate(e, v)` evaluates to `0` at every assignment. -/
theorem differentiate_treats_other_variables_as_constants (ts : ASTNode → String)
    (e : ASTNode) (var : DiffVariable) (env : String → ℝ)
    (h : occursVariable (PartialDerivative.varStr var) e = false) :
    eval env (differentiate ts e var).1 = 0 :=
  eval_differentiateNode_of_not_occurs ts var env e h

/-- Claim C20 at `tan(y) / sqrt(z)` with selector `x`. -/
theorem differentiate_treats_other_variables_as_constants_witness :
    occursVariable (PartialDerivative.varStr DiffVariable.X) tanYOverSqrtZ = false ∧
    eval (fun _ => 2) (differentiate (fun _ => "") tanYOverSqrtZ DiffVariable.X).1 = 0 :=
  ⟨by decide,
   differentiate_treats_other_variables_as_constants (fun _ => "") tanYOverSqrtZ DiffVariable.X
     (fun _ => 2) (by decide)⟩

/-- Claim C21: leaf rules of integrate. `integrate(Number(c), v)` is
`MUL(Number(c), Variable(v))`; `integrate(Variable(v), v)` is
`DIV(POW(Variable(v), Number 2), Number 2)`; and for every name `w ≠ v`,
`integrate(Variable(w), v)` is `MUL(Variable(w), Variable(v))`. -/
theorem integrate_leaf_rules (ts : ASTNode → String) (iv : IntegrationVariable) :
    (∀ c : ℚ, (integrate ts (NumberNode c) iv).1
      = BinaryOpNode BinaryOp.MUL (NumberNode c)
          (VariableNode (MultivariateIntegrator.varStr iv))) ∧
    (integrate ts (VariableNode (MultivariateIntegrator.varStr iv)) iv).1
      = BinaryOpNode BinaryOp.DIV
          (BinaryOpNode BinaryOp.POW (VariableNode (MultivariateIntegrator.varStr iv))
            (NumberNode 2))
          (NumberNode 2) ∧
    (∀ w : String, w ≠ MultivariateIntegrator.varStr iv →
      (integrate ts (VariableNode w) iv).1
        = BinaryOpNode BinaryOp.MUL (VariableNode w)
            (VariableNode (MultivariateIntegrator.varStr iv))) := by
  refine ⟨fun c => by simp [integrate, integrateNode], by simp [integrate, integrateNode],
    fun w hw => by simp [integrate, integrateNode, hw]⟩

/-- Claim C21 at `Variable("y")` integrated in `x`. -/
theorem integrate_leaf_rules_witness :
    "y" ≠ MultivariateIntegrator.varStr IntegrationVariable.X ∧
    (integrate (fun _ => "") (VariableNode "y") IntegrationVariable.X).1
      = BinaryOpNode BinaryOp.MUL (VariableNode "y") (VariableNode "x") :=
  ⟨by decide, (integrate_leaf_rules (fun _ => "") IntegrationVariable.X).2.2 "y" (by decide)⟩

/-- Claim C22: sum and difference rules of integrate. `integrate(ADD(f, g), v)`
is `ADD(I(f), I(g))` and `integrate(SUB(f, g), v)` is `SUB(I(f), I(g))`, with
the operand order preserved. -/
theorem integrate_sum_difference_rules (ts : ASTNode → String) (iv : IntegrationVariable)
    (f g : ASTNode) :
    (integrate ts (BinaryOpNode BinaryOp.ADD f g) iv).1
      = BinaryOpNode BinaryOp.ADD (integrate ts f iv).1 (integrate ts g iv).1 ∧
    (integrate ts (BinaryOpNode BinaryOp.SUB f g) iv).1
      = BinaryOpNode BinaryOp.SUB (integrate ts f iv).1 (integrate ts g iv).1 := by
  simp [integrate, integrateNode]

/-- Claim C23: literal tie-break of integrate. `integrate(MUL(Number c, e), v)`
is `MUL(Number c, integrate(e, v))` for every `e`; when `e` is not a `Number`
node, `integrate(MUL(e, Number c), v)` is the same tree; this also holds when
the other operand is a `Variable` different from `v`, on either side. -/
theorem integrate_literal_tie_break (ts : ASTNode → String) (iv : IntegrationVariable)
    (e : ASTNode) (c : ℚ) :
    (integrate ts (BinaryOpNode BinaryOp.MUL (NumberNode c) e) iv).1
      = BinaryOpNode BinaryOp.MUL (NumberNode c) (integrate ts e iv).1 ∧
    (e.type ≠ NodeType.NUMBER →
      (integrate ts (BinaryOpNode BinaryOp.MUL e (NumberNode c)) iv).1
        = BinaryOpNode BinaryOp.MUL (NumberNode c) (integrate ts e iv).1) ∧
    (∀ w : String, w ≠ MultivariateIntegrator.varStr iv →
      (integrate ts (BinaryOpNode BinaryOp.MUL (VariableNode w) (NumberNode c)) iv).1
        = BinaryOpNode BinaryOp.MUL (NumberNode c)
            (BinaryOpNode BinaryOp.MUL (VariableNode w)
              (VariableNode (MultivariateIntegrator.varStr iv))) ∧
      (integrate ts (BinaryOpNode BinaryOp.MUL (NumberNode c) (VariableNode w)) iv).1
        = BinaryOpNode BinaryOp.MUL (NumberNode c)
            (BinaryOpNode BinaryOp.MUL (VariableNode w)
              (VariableNode (MultivariateIntegrator.varStr iv)))) := by
  refine ⟨?_, fun he => ?_, fun w hw => ?_⟩
  · simp [integrate, integrateNode]
  · simpa [integrate] using integrateNode_mul_number_right ts iv e c he
  · simp [integrate, integrateNode, hw]

/-- Claim C23 at `y * 3` integrated in `x`. -/
theorem integrate_literal_tie_break_witness :
    (VariableNode "y").type ≠ NodeType.NUMBER ∧
    (integrate (fun _ => "") (BinaryOpNode BinaryOp.MUL (VariableNode "y") (NumberNode 3))
        IntegrationVariable.X).1
      = BinaryOpNode BinaryOp.MUL (NumberNode 3)
          (integrate (fun _ => "") (VariableNode "y") IntegrationVariable.X).1 :=
  ⟨by decide,
   (integrate_literal_tie_break (fun _ => "") IntegrationVariable.X (VariableNode "y") 3).2.1
     (by decide)⟩

/-- Claim C24: unsupported product fallback. When neither `f` nor `g` is a
`Number` or a `Variable` node, `integrate(MUL(f, g), v)` returns a tree
structurally identical to `MUL(f, g)` and `integrateNode` appends one step,
whose description is "Product integration (advanced - using numerical
approximation)". -/
theorem integrate_product_fallback (ts : ASTNode → String) (iv : IntegrationVariable)
    (f g : ASTNode)
    (hf : f.type ≠ NodeType.NUMBER ∧ f.type ≠ NodeType.VARIABLE)
    (hg : g.type ≠ NodeType.NUMBER ∧ g.type ≠ NodeType.VARIABLE) :
    (integrate ts (BinaryOpNode BinaryOp.MUL f g) iv).1 = BinaryOpNode BinaryOp.MUL f g ∧
    (integrateNode ts iv (BinaryOpNode BinaryOp.MUL f g)).2
      = [{ description := "Product integration (advanced - using numerical approximation)",
           expression := "∫ " ++ ts (BinaryOpNode BinaryOp.MUL f g) ++ " d"
             ++ MultivariateIntegrator.varStr iv ++ " ≈ (complex)" }] := by
  cases f <;> simp [ASTNode.type] at hf <;> cases g <;> simp [ASTNode.type] at hg <;>
    simp [integrate, integrateNode, productFallback]

/-- Claim C24 at `sin(x) * exp(x)` integrated in `x`. -/
theorem integrate_product_fallback_witness :
    ((UnaryFuncNode UnaryFunc.SIN (VariableNode "x")).type ≠ NodeType.NUMBER ∧
      (UnaryFuncNode UnaryFunc.SIN (VariableNode "x")).type ≠ NodeType.VARIABLE) ∧
    (integrate (fun _ => "") sinXTimesExpX IntegrationVariable.X).1 = sinXTimesExpX :=
  ⟨by decide,
   (integrate_product_fallback (fun _ => "") IntegrationVariable.X
      (UnaryFuncNode UnaryFunc.SIN (VariableNode "x"))
      (UnaryFuncNode UnaryFunc.EXP (VariableNode "x")) (by decide) (by decide)).1⟩

/-- Claim C25 as stated fails, also for literals that are `double` values: the
exponent and the divisor of the returned quotient are the sum `n + 1` computed
in `double`, not the exact `n + 1`; for the literal `0.1` they are the `double`
nearest to `1.1`. -/
theorem integrate_power_rule_exact_sum_counterexample :
    ¬ (∀ (ts : ASTNode → String) (iv : IntegrationVariable) (n : ℚ),
        isDouble n = true → n ≠ -1 →
        (integrate ts (BinaryOpNode BinaryOp.POW
            (VariableNode (MultivariateIntegrator.varStr iv)) (NumberNode n)) iv).1
          = BinaryOpNode BinaryOp.DIV
              (BinaryOpNode BinaryOp.POW (VariableNode (MultivariateIntegrator.varStr iv))
                (NumberNode (n + 1)))
              (NumberNode (n + 1))) := by
  intro h
  have hne : oneTenth ≠ -1 := by unfold oneTenth; norm_num
  have h1 := h (fun _ => "") IntegrationVariable.X oneTenth isDouble_oneTenth hne
  simp only [integrate, integrateNode, if_true, if_neg hne, doubleAdd_oneTenth,
    ASTNode.BinaryOpNode.injEq, ASTNode.NumberNode.injEq, true_and, and_true, and_self] at h1
  unfold oneTenth at h1
  norm_num at h1

/-- Claim C25, amended: power rule of integrate in `double` arithmetic. For the
selected variable `v` and every literal `n ≠ -1`,
`integrate(POW(Variable v, Number n), v)` is
`DIV(POW(Variable v, Number m), Number m)` where `m` is the sum `n + 1` of
`double`; `m` is not zero when `n` is a finite `double`, and `m` is the exact
`n + 1` for every integer literal with `-2^53 - 1 ≤ n < 2^53`. For `n = -1` the
result is `UnaryFunc(LN, Variable v)`. -/
theorem integrate_power_rule_double (ts : ASTNode → String) (iv : IntegrationVariable)
    (n : ℚ) :
    (n ≠ -1 →
      (integrate ts (BinaryOpNode BinaryOp.POW (VariableNode (MultivariateIntegrator.varStr iv))
          (NumberNode n)) iv).1
        = BinaryOpNode BinaryOp.DIV
            (BinaryOpNode BinaryOp.POW (VariableNode (MultivariateIntegrator.varStr iv))
              (NumberNode (doubleAdd n 1)))
            (NumberNode (doubleAdd n 1))) ∧
    (n ≠ -1 → isDouble n = true → doubleAdd n 1 ≠ 0) ∧
    (∀ z : ℤ, n = (z : ℚ) → -(2 ^ 53) - 1 ≤ z → z < 2 ^ 53 → doubleAdd n 1 = n + 1) ∧
    (n = -1 →
      (integrate ts (BinaryOpNode BinaryOp.POW (VariableNode (MultivariateIntegrator.varStr iv))
          (NumberNode n)) iv).1
        = UnaryFuncNode UnaryFunc.LN (VariableNode (MultivariateIntegrator.varStr iv))) := by
  refine ⟨fun h => by simp [integrate, integrateNode, h], ?_, ?_, ?_⟩
  · intro h hd
    simp only [isDouble, decide_eq_true_eq] at hd
    exact doubleAdd_one_ne_zero n hd.1 h
  · intro z hz h1 h2
    subst hz
    exact doubleAdd_one_exact z h1 h2
  · intro h
    simp [integrate, integrateNode, h]

/-- Claim C25, amended, at `x ^ 2` integrated in `x`. -/
theorem integrate_power_rule_double_witness :
    (2 : ℚ) ≠ -1 ∧
    (integrate (fun _ => "")
        (BinaryOpNode BinaryOp.POW
          (VariableNode (MultivariateIntegrator.varStr IntegrationVariable.X)) (NumberNode 2))
        IntegrationVariable.X).1
      = BinaryOpNode BinaryOp.DIV
          (BinaryOpNode BinaryOp.POW
            (VariableNode (MultivariateIntegrator.varStr IntegrationVariable.X))
            (NumberNode (doubleAdd 2 1)))
          (NumberNode (doubleAdd 2 1)) ∧
    isDouble 2 = true ∧ doubleAdd 2 1 ≠ 0 ∧
    (2 : ℚ) = ((2 : ℤ) : ℚ) ∧ doubleAdd 2 1 = 2 + 1 :=
  ⟨by norm_num,
   (integrate_power_rule_double (fun _ => "") IntegrationVariable.X 2).1 (by norm_num),
   by simpa using isDouble_intCast 2 (by norm_num),
   (integrate_power_rule_double (fun _ => "") IntegrationVariable.X 2).2.1 (by norm_num)
     (by simpa using isDouble_intCast 2 (by norm_num)),
   by norm_num,
   (integrate_power_rule_double (fun _ => "") IntegrationVariable.X 2).2.2.1 2 (by norm_num)
     (by norm_num) (by norm_num)⟩

/-- Claim C26: elementary function rules of integrate. For the selected
variable `v`, `integrate(SIN(v))` is `MUL(Number -1, COS(v))`,
`integrate(COS(v))` is `SIN(v)` and `integrate(EXP(v))` is `EXP(v)`. -/
theorem integrate_elementary_rules (ts : ASTNode → String) (iv : IntegrationVariable) :
    (integrate ts (UnaryFuncNode UnaryFunc.SIN (VariableNode (MultivariateIntegrator.varStr iv)))
        iv).1
      = BinaryOpNode BinaryOp.MUL (NumberNode (-1))
          (UnaryFuncNode UnaryFunc.COS (VariableNode (MultivariateIntegrator.varStr iv))) ∧
    (integrate ts (UnaryFuncNode UnaryFunc.COS (VariableNode (MultivariateIntegrator.varStr iv)))
        iv).1
      = UnaryFuncNode UnaryFunc.SIN (VariableNode (MultivariateIntegrator.varStr iv)) ∧
    (integrate ts (UnaryFuncNode UnaryFunc.EXP (VariableNode (MultivariateIntegrator.varStr iv)))
        iv).1
      = UnaryFuncNode UnaryFunc.EXP (VariableNode (MultivariateIntegrator.varStr iv)) := by
  simp [integrate, integrateNode]

/-- Claim C27: unsupported unary fallback. For `F` among `TAN`, `LN`, `SQRT` and
the selected variable `v`, `integrate(UnaryFunc(F, Variable v), v)` returns a
tree structurally identical to its input and `integrateNode` appends one step,
whose description is "Advanced integration (not implemented)". -/
theorem integrate_unary_fallback (ts : ASTNode → String) (iv : IntegrationVariable) :
    (∀ func : UnaryFunc,
      func = UnaryFunc.TAN ∨ func = UnaryFunc.LN ∨ func = UnaryFunc.SQRT →
      (integrate ts (UnaryFuncNode func (VariableNode (MultivariateIntegrator.varStr iv))) iv).1
        = UnaryFuncNode func (VariableNode (MultivariateIntegrator.varStr iv)) ∧
      (integrateNode ts iv
          (UnaryFuncNode func (VariableNode (MultivariateIntegrator.varStr iv)))).2
        = [{ description := "Advanced integration (not implemented)",
             expression := "∫ "
               ++ ts (UnaryFuncNode func (VariableNode (MultivariateIntegrator.varStr iv)))
               ++ " d" ++ MultivariateIntegrator.varStr iv }]) := by
  intro func hf
  rcases hf with rfl | rfl | rfl <;> simp [integrate, integrateNode]

/-- Claim C27 at `tan(x)` integrated in `x`. -/
theorem integrate_unary_fallback_witness :
    (UnaryFunc.TAN = UnaryFunc.TAN ∨ UnaryFunc.TAN = UnaryFunc.LN
      ∨ UnaryFunc.TAN = UnaryFunc.SQRT) ∧
    (integrate (fun _ => "") tanX IntegrationVariable.X).1 = tanX :=
  ⟨by decide,
   ((integrate_unary_fallback (fun _ => "") IntegrationVariable.X) UnaryFunc.TAN
      (by decide)).1⟩

/-- Claim C28: the sum rule precedes the operand steps. The log of
`differentiate(ADD(f, g), v)` is the "Initial expression" step, then the
"Sum Rule" step, then the steps of `f`, then the steps of `g`, then the final
step; for `x + sin(x)` the Sum Rule step comes before the Chain Rule step. -/
theorem differentiate_sum_rule_step_first (ts : ASTNode → String) (var : DiffVariable)
    (f g : ASTNode) :
    (differentiate ts (BinaryOpNode BinaryOp.ADD f g) var).2
      = { description := "Initial expression",
          expression := "∂/∂" ++ PartialDerivative.varStr var ++ "("
            ++ ts (BinaryOpNode BinaryOp.ADD f g) ++ ")" }
        :: { description := "Sum Rule: ∂/∂" ++ PartialDerivative.varStr var
               ++ "(f + g) = ∂f/∂" ++ PartialDerivative.varStr var ++ " + ∂g/∂"
               ++ PartialDerivative.varStr var,
             expression := "∂/∂" ++ PartialDerivative.varStr var ++ "(" ++ ts f ++ " + " ++ ts g
               ++ ")" }
        :: ((differentiateNode ts var f).2 ++ (differentiateNode ts var g).2
            ++ [{ description := "Final partial derivative",
                  expression := "∂f/∂" ++ PartialDerivative.varStr var ++ " = "
                    ++ ts (differentiate ts (BinaryOpNode BinaryOp.ADD f g) var).1 }]) ∧
    (differentiate ts xPlusSinX DiffVariable.X).2.map (fun s => s.description)
      = ["Initial expression", "Sum Rule: ∂/∂x(f + g) = ∂f/∂x + ∂g/∂x",
         "Power Rule: ∂/∂x(x) = 1", "Power Rule: ∂/∂x(x) = 1",
         "Chain Rule: ∂/∂x(sin(u)) = cos(u) * ∂u/∂x", "Final partial derivative"] := by
  constructor
  · simp [differentiate, differentiateNode]
  · simp [xPlusSinX, differentiate, differentiateNode, PartialDerivative.varStr]

/-- Claim C29: per-invocation step log. For `differentiate`, `integrate`,
`doubleIntegrate` and `computeImplicitDerivative`, run as transformers of the
engine state, the returned value and the step log after the call are the same
from any two prior states (whatever the earlier log and the previously
selected variable were). -/
theorem entry_points_forget_prior_state {K : Type} [Field K] (ts : ASTNode → String)
    (root : ASTNode) :
    (∀ (s1 s2 : PartialDerivative.State) (var : DiffVariable),
      (s1.differentiate ts root var).1 = (s2.differentiate ts root var).1 ∧
      (s1.differentiate ts root var).2.steps = (s2.differentiate ts root var).2.steps ∧
      (s1.differentiate ts root var).2.steps = (differentiate ts root var).2) ∧
    (∀ (s1 s2 : MultivariateIntegrator.State) (var : IntegrationVariable),
      (s1.integrate ts root var).1 = (s2.integrate ts root var).1 ∧
      (s1.integrate ts root var).2.steps = (s2.integrate ts root var).2.steps ∧
      (s1.integrate ts root var).2.steps = (integrate ts root var).2) ∧
    (∀ (s1 s2 : MultivariateIntegrator.State) (evaluate : ASTNode → K → K → K)
        (doubleText : K → String) (x_lower x_upper y_lower y_upper : K),
      (s1.doubleIntegrate ts evaluate doubleText root x_lower x_upper y_lower y_upper).1
        = (s2.doubleIntegrate ts evaluate doubleText root x_lower x_upper y_lower y_upper).1 ∧
      (s1.doubleIntegrate ts evaluate doubleText root x_lower x_upper y_lower y_upper).2.steps
        = (s2.doubleIntegrate ts evaluate doubleText root x_lower x_upper y_lower
            y_upper).2.steps) ∧
    (∀ (s1 s2 : ImplicitDifferentiator.State) (simplify : ASTNode → ASTNode),
      (s1.computeImplicitDerivative ts simplify root).1
        = (s2.computeImplicitDerivative ts simplify root).1 ∧
      (s1.computeImplicitDerivative ts simplify root).2.steps
        = (s2.computeImplicitDerivative ts simplify root).2.steps) := by
  refine ⟨fun s1 s2 var => ?_, fun s1 s2 var => ?_, fun s1 s2 ev dt a b c d => ?_,
    fun s1 s2 simplify => ?_⟩
  · simp [PartialDerivative.State.differentiate]
  · simp [MultivariateIntegrator.State.integrate]
  · simp [MultivariateIntegrator.State.doubleIntegrate]
  · simp [ImplicitDifferentiator.State.computeImplicitDerivative]

/-- Claim C30: totality. Run by general recursion with a bound on the depth of
nested calls, `differentiateNode`, `differentiateImplicit` and `integrateNode`
return on every tree `e`, symbolic exponents and unsupported shapes included,
as soon as the bound exceeds the depth of `e`, and what they return is the
value of the engine function. The body of each function makes its recursive
calls on direct subtrees of its argument only (it returns the same whenever
the recursive calls agree there), and every direct subtree is strictly less
deep and has strictly fewer nodes than the node. With a bound of one nested
call the run on `e + e` does not return. -/
theorem engines_total (ts : ASTNode → String) (dv : DiffVariable) (iv : IntegrationVariable)
    (withRespectToX : Bool) (e : ASTNode) :
    (∀ fuel : ℕ, e.depth < fuel →
      differentiateNodeFuel ts dv fuel e = some (differentiateNode ts dv e) ∧
      differentiateImplicitFuel fuel e withRespectToX
        = some (differentiateImplicit e withRespectToX) ∧
      integrateNodeFuel ts iv fuel e = some (integrateNode ts iv e)) ∧
    (∀ self self' : ASTNode → Option (ASTNode × List PartialDerivativeStep),
      (∀ c ∈ e.children, self c = self' c) →
      differentiateNodeBody ts dv self e = differentiateNodeBody ts dv self' e) ∧
    (∀ self self' : ASTNode → Bool → Option ASTNode,
      (∀ c ∈ e.children, self c withRespectToX = self' c withRespectToX) →
      differentiateImplicitBody self e withRespectToX
        = differentiateImplicitBody self' e withRespectToX) ∧
    (∀ self self' : ASTNode → Option (ASTNode × List MultivariateIntegrationStep),
      (∀ c ∈ e.children, self c = self' c) →
      integrateNodeBody ts iv self e = integrateNodeBody ts iv self' e) ∧
    (∀ c ∈ e.children, c.depth < e.depth ∧ c.size < e.size) ∧
    differentiateNodeFuel ts dv 1 (BinaryOpNode BinaryOp.ADD e e) = none ∧
    differentiateImplicitFuel 1 (BinaryOpNode BinaryOp.ADD e e) withRespectToX = none ∧
    integrateNodeFuel ts iv 1 (BinaryOpNode BinaryOp.ADD e e) = none := by
  refine ⟨fun fuel h => ⟨differentiateNodeFuel_eq ts dv fuel e h,
      differentiateImplicitFuel_eq withRespectToX fuel e h, integrateNodeFuel_eq ts iv fuel e h⟩,
    fun self self' h => differentiateNodeBody_congr ts dv self self' e h,
    fun self self' h => differentiateImplicitBody_congr self self' e withRespectToX h,
    fun self self' h => integrateNodeBody_congr ts iv self self' e h, ?_, ?_, ?_, ?_⟩
  · intro c hc
    refine ⟨ASTNode.depth_lt_of_mem_children e c hc, ?_⟩
    cases e <;> simp [ASTNode.children] at hc <;> simp [ASTNode.size]
    · rcases hc with rfl | rfl <;> omega
    · subst hc; omega
  · simp [differentiateNodeFuel, differentiateNodeBody]
  · simp [differentiateImplicitFuel, differentiateImplicitBody]
  · simp [integrateNodeFuel, integrateNodeBody]

/-- Claim C30 at `x ^ y`, a power with a symbolic exponent, with a bound of two
nested calls. -/
theorem engines_total_witness :
    xToTheY.depth < 2 ∧
    differentiateNodeFuel (fun _ => "") DiffVariable.X 2 xToTheY
      = some (differentiateNode (fun _ => "") DiffVariable.X xToTheY) ∧
    VariableNode "y" ∈ xToTheY.children ∧ (VariableNode "y").depth < xToTheY.depth :=
  ⟨by decide,
   ((engines_total (fun _ => "") DiffVariable.X IntegrationVariable.X true xToTheY).1 2
     (by decide)).1,
   by decide,
   ((engines_total (fun _ => "") DiffVariable.X IntegrationVariable.X true xToTheY).2.2.2.2.1
     (VariableNode "y") (by decide)).1⟩

end Claims

/-! ## The claims on the numeric calculators -/

section NumericClaims

open PartialDerivative MultivariateIntegrator ImplicitDifferentiator
open FourierSeriesCalculator LinearTransformation EigenvalueCalculator StatisticsCalculator

/-- Claim C32, on constant functions: `computeFourierSeries` sets
`a0 = 2.0 * computeCoefficient(func, L, 0, true)`, which is `(2/L) * T` and not
`(1/L) * T`; for `f = c` and `L > 0` the reported and returned constant term
`a0/2` is `2 * c`, not `c`, while the log states the formula
`a₀ = (1/L)∫[-L,L] f(x)dx`. -/
theorem fourier_constant_term_doubled {K : Type} [LinearOrderedField K] (ts : ASTNode → String)
    (fmt : DoubleText K) (evaluate : ASTNode → K → K) (cos sin : K → K) (pi : K)
    (func : ASTNode) (L c : K) (hf : ∀ x : K, evaluate func x = c) (hcos : cos 0 = 1)
    (hL : 0 < L) :
    a0 evaluate cos sin pi func L / 2 = 2 * c ∧
    (computeFourierSeries ts fmt evaluate cos sin pi func L 0).1 = fmt.fixed 4 (2 * c) ∧
    ({ description := "Constant term:", expression := "a₀/2 = " ++ fmt.fixed 4 (2 * c) }
        : FourierStep) ∈ (computeFourierSeries ts fmt evaluate cos sin pi func L 0).2 ∧
    ({ description := "Coefficient formulas:", expression := "a₀ = (1/L)∫[-L,L] f(x)dx" }
        : FourierStep) ∈ (computeFourierSeries ts fmt evaluate cos sin pi func L 0).2 := by
  have h0 : a0 evaluate cos sin pi func L / 2 = 2 * c := by
    rw [a0, computeCoefficient_constant evaluate cos sin pi func L c hf hcos (ne_of_gt hL)]
    ring
  refine ⟨h0, ?_, ?_, ?_⟩ <;> simp [computeFourierSeries, h0]

/-- Claim C32 at `f = 1`, `L = 1`: the constant term is `2`. -/
theorem fourier_constant_term_doubled_witness :
    (∀ x : ℚ, (fun (_ : ASTNode) (_ : ℚ) => (1 : ℚ)) (NumberNode 1) x = 1) ∧
    a0 (K := ℚ) (fun _ _ => 1) (fun _ => 1) (fun _ => 0) 3 (NumberNode 1) 1 / 2 = 2 * 1 :=
  ⟨fun _ => rfl,
   (fourier_constant_term_doubled (K := ℚ) (fun _ => "")
      ⟨fun _ _ => "", fun _ => "", fun _ => ""⟩ (fun _ _ => 1) (fun _ => 1) (fun _ => 0) 3
      (NumberNode 1) 1 1 (fun _ => rfl) rfl (by norm_num)).1⟩

/-- Claim C33: inverse round trip. For every matrix with
`|a*d - b*c| ≥ 1e-10`, composing with `computeInverse` on either side gives
the identity matrix, and `computeInverse` returns `(1/det) * [[d, -b], [-c, a]]`. -/
theorem inverse_round_trip {K : Type} [LinearOrderedField K] (fmt : DoubleText K)
    (M : Matrix2D K) (h : 1 / 10 ^ 10 ≤ |M.a * M.d - M.b * M.c|) :
    (composeTransformations fmt M (computeInverse fmt M).1).1 = { a := 1, b := 0, c := 0, d := 1 } ∧
    (composeTransformations fmt (computeInverse fmt M).1 M).1 = { a := 1, b := 0, c := 0, d := 1 } ∧
    (computeInverse fmt M).1
      = { a := 1 / (M.a * M.d - M.b * M.c) * M.d,
          b := 1 / (M.a * M.d - M.b * M.c) * -M.b,
          c := 1 / (M.a * M.d - M.b * M.c) * -M.c,
          d := 1 / (M.a * M.d - M.b * M.c) * M.a } := by
  have hlt : ¬ |M.a * M.d - M.b * M.c| < 1 / 10 ^ 10 := not_lt.mpr h
  have hpos : (0 : K) < 1 / 10 ^ 10 := by positivity
  have hdet : M.a * M.d - M.b * M.c ≠ 0 := by
    intro h0
    rw [h0, abs_zero] at h
    exact absurd hpos (not_lt.mpr h)
  refine ⟨?_, ?_, ?_⟩
  · simp only [composeTransformations, computeInverse, if_neg hlt, Matrix2D.mk.injEq]
    refine ⟨?_, ?_, ?_, ?_⟩ <;> field_simp <;> ring
  · simp only [composeTransformations, computeInverse, if_neg hlt, Matrix2D.mk.injEq]
    refine ⟨?_, ?_, ?_, ?_⟩ <;> field_simp <;> ring
  · simp only [computeInverse, if_neg hlt, Matrix2D.mk.injEq]
    refine ⟨?_, ?_, ?_, ?_⟩ <;> field_simp

/-- Claim C33 at `[[1, 2], [3, 4]]`. -/
theorem inverse_round_trip_witness :
    (1 / 10 ^ 10 ≤ |(1 : ℚ) * 4 - 2 * 3|) ∧
    (composeTransformations (K := ℚ) ⟨fun _ _ => "", fun _ => "", fun _ => ""⟩
        { a := 1, b := 2, c := 3, d := 4 }
        (computeInverse (K := ℚ) ⟨fun _ _ => "", fun _ => "", fun _ => ""⟩
          { a := 1, b := 2, c := 3, d := 4 }).1).1
      = ({ a := 1, b := 0, c := 0, d := 1 } : Matrix2D ℚ) :=
  ⟨by norm_num [abs_of_neg],
   (inverse_round_trip (K := ℚ) ⟨fun _ _ => "", fun _ => "", fun _ => ""⟩
      { a := 1, b := 2, c := 3, d := 4 } (by norm_num [abs_of_neg])).1⟩

/-- Claim C34, on diagonal matrices with `a < d`: the eigenvalues are `λ₁ = d`
and `λ₂ = a`, and with `b = c = 0` the code reports `v₁ = (1, 0)` for `λ₁` and
`v₂ = (0, 1)` for `λ₂`; neither satisfies `(A - λI) v = 0`, which the log itself
states as the equation solved. -/
theorem eigenvectors_of_diagonal_swapped (fmt : DoubleText ℝ) (a d : ℝ) (h : a < d) :
    solve2x2CharacteristicEquation Real.sqrt a 0 0 d = ((d, 0), (a, 0)) ∧
    eigenvector1 a 0 0 d d = (1, 0) ∧
    eigenResidual a 0 0 d d (1, 0) = (a - d, 0) ∧
    eigenResidual a 0 0 d d (eigenvector1 a 0 0 d d) ≠ (0, 0) ∧
    eigenvector2 a 0 0 d a = (0, 1) ∧
    eigenResidual a 0 0 d a (eigenvector2 a 0 0 d a) ≠ (0, 0) ∧
    ({ description := "Eigenvector v₁:",
       expression := "v₁ = [" ++ fmt.fixed 4 1 ++ "; " ++ fmt.fixed 4 0 ++ "]" } : EigenStep)
      ∈ analyze2x2Matrix fmt Real.sqrt a 0 0 d ∧
    ({ description := "--- Step 3: Find Eigenvectors ---",
       expression := "For each λ, solve (A - λI)v = 0" } : EigenStep)
      ∈ analyze2x2Matrix fmt Real.sqrt a 0 0 d := by
  have hdisc : (a + d) * (a + d) - 4 * (a * d - 0 * 0) = (d - a) * (d - a) := by ring
  have hsqrt : Real.sqrt ((a + d) * (a + d) - 4 * (a * d - 0 * 0)) = d - a := by
    rw [hdisc]
    exact Real.sqrt_mul_self (by linarith)
  have hnn : (a + d) * (a + d) - 4 * (a * d - 0 * 0) ≥ 0 := by
    rw [hdisc]
    exact mul_self_nonneg _
  have hsolve : solve2x2CharacteristicEquation Real.sqrt a 0 0 d = ((d, 0), (a, 0)) := by
    simp only [solve2x2CharacteristicEquation, if_pos hnn, hsqrt, Prod.mk.injEq]
    refine ⟨⟨?_, trivial⟩, ⟨?_, trivial⟩⟩ <;> ring
  have hsmall : ¬ (|(0 : ℝ)| > 1 / 10 ^ 10) := by
    rw [abs_zero]
    exact not_lt.mpr (by positivity)
  have hv1 : eigenvector1 a 0 0 d d = (1, 0) := by
    simp only [eigenvector1, if_neg hsmall]
  have hv2 : eigenvector2 a 0 0 d a = (0, 1) := by
    simp only [eigenvector2, if_neg hsmall]
  have hne : a - d ≠ 0 := by linarith
  have hne2 : d - a ≠ 0 := by linarith
  refine ⟨hsolve, hv1, ?_, ?_, hv2, ?_, ?_, ?_⟩
  · simp [eigenResidual]
  · simp [hv1, eigenResidual, hne]
  · simp [hv2, eigenResidual, hne2]
  · simp only [analyze2x2Matrix, hsolve, hv1]
    split_ifs <;> simp
  · simp only [analyze2x2Matrix, hsolve, hv1]
    split_ifs <;> simp

/-- Claim C34 at the diagonal matrix `[[1, 0], [0, 2]]`. -/
theorem eigenvectors_of_diagonal_swapped_witness :
    (1 : ℝ) < 2 ∧ eigenResidual (1 : ℝ) 0 0 2 2 (eigenvector1 1 0 0 2 2) ≠ (0, 0) :=
  ⟨by norm_num,
   (eigenvectors_of_diagonal_swapped ⟨fun _ _ => "", fun _ => "", fun _ => ""⟩ 1 2
      (by norm_num)).2.2.2.1⟩

/-- Claim C35: exact binomial coefficient. For all `n, k ≥ 0` the loop of
`binomialProbability` yields `C(n, k)`, which is `0` when `k > n`; every
truncating division of the loop is exact. -/
theorem binomCoeff_exact (n k : ℕ) :
    binomCoeff (n : ℤ) (k : ℤ) = (n.choose k : ℤ) ∧
    (k > n → binomCoeff (n : ℤ) (k : ℤ) = 0) ∧
    (∀ i : ℕ, i < k →
      ((i : ℤ) + 1) ∣ binomCoeff (n : ℤ) (i : ℤ) * ((n : ℤ) - (i : ℤ)) ∧
      Int.tdiv (binomCoeff (n : ℤ) (i : ℤ) * ((n : ℤ) - (i : ℤ))) ((i : ℤ) + 1)
        = binomCoeff (n : ℤ) ((i : ℤ) + 1)) := by
  have key : ∀ m : ℕ, binomCoeff (n : ℤ) (m : ℤ) = (n.choose m : ℤ) := by
    intro m
    simp only [binomCoeff, Int.toNat_ofNat]
    exact binomCoeff_loop n m
  have hdvd : ∀ i : ℕ, ((i : ℤ) + 1) ∣ (n.choose i : ℤ) * ((n : ℤ) - (i : ℤ)) := by
    intro i
    by_cases hi : i ≤ n
    · have h1 : ((n : ℤ) - (i : ℤ)) = ((n - i : ℕ) : ℤ) := by rw [Nat.cast_sub hi]
      have h2 : (n.choose i : ℤ) * ((n - i : ℕ) : ℤ)
          = (n.choose (i + 1) : ℤ) * ((i : ℤ) + 1) := by
        have h3 := Nat.choose_succ_right_eq n i
        exact_mod_cast h3.symm
      rw [h1, h2]
      exact Dvd.intro_left _ rfl
    · rw [Nat.choose_eq_zero_of_lt (by omega)]
      simp
  refine ⟨key k, fun hk => ?_, fun i _ => ⟨?_, ?_⟩⟩
  · rw [key k, Nat.choose_eq_zero_of_lt hk]
    rfl
  · rw [key i]
    exact hdvd i
  · have h2 : ((i : ℤ) + 1) = ((i + 1 : ℕ) : ℤ) := by push_cast; ring
    obtain ⟨q, hq⟩ := hdvd i
    have hpos : ((i : ℤ) + 1) ≠ 0 := by omega
    have h3 := binomCoeff_loop n (i + 1)
    rw [List.range_succ, List.foldl_append, binomCoeff_loop n i] at h3
    simp only [List.foldl_cons, List.foldl_nil] at h3
    rw [key i, h3, h2, key (i + 1)]

/-- Claim C35 at `n = 5`, `k = 7`. -/
theorem binomCoeff_exact_witness :
    (7 : ℕ) > 5 ∧ StatisticsCalculator.binomCoeff ((5 : ℕ) : ℤ) ((7 : ℕ) : ℤ) = 0 :=
  ⟨by decide, (binomCoeff_exact 5 7).2.1 (by decide)⟩

/-- Claim C36: midpoint rule. `doubleIntegrate` returns the midpoint sum of the
integrand over the `100 × 100` grid with weight `dx * dy`; for an integrand
denoting `a + b*x + c*y` the sum is the exact double integral
`(xu-xl)*(yu-yl)*(a + b*(xl+xu)/2 + c*(yl+yu)/2)`. -/
theorem doubleIntegrate_midpoint_rule {K : Type} [Field K] [CharZero K] (ts : ASTNode → String)
    (evaluate : ASTNode → K → K → K) (doubleText : K → String) (root : ASTNode)
    (xl xu yl yu : K) :
    (doubleIntegrate ts evaluate doubleText root xl xu yl yu).1
      = ∑ i in Finset.range 100, ∑ j in Finset.range 100,
          evaluate root (xl + ((i : K) + 1 / 2) * ((xu - xl) / 100))
              (yl + ((j : K) + 1 / 2) * ((yu - yl) / 100))
            * ((xu - xl) / 100) * ((yu - yl) / 100) ∧
    (∀ a b c : K, (∀ x y : K, evaluate root x y = a + b * x + c * y) →
      (doubleIntegrate ts evaluate doubleText root xl xu yl yu).1
        = (xu - xl) * (yu - yl) * (a + b * (xl + xu) / 2 + c * (yl + yu) / 2)) :=
  ⟨doubleIntegrate_eq_sum ts evaluate doubleText root xl xu yl yu,
   fun a b c h => doubleIntegrate_affine ts evaluate doubleText root xl xu yl yu a b c h⟩

/-- Claim C36 for `1 + 2x + 3y` over `[0, 1] × [0, 2]`. -/
theorem doubleIntegrate_midpoint_rule_witness :
    (∀ x y : ℚ, (fun (_ : ASTNode) (x y : ℚ) => 1 + 2 * x + 3 * y) xPlusSinX x y
      = 1 + 2 * x + 3 * y) ∧
    (doubleIntegrate (K := ℚ) (fun _ => "") (fun _ x y => 1 + 2 * x + 3 * y) (fun _ => "")
        xPlusSinX 0 1 0 2).1
      = (1 - 0) * (2 - 0) * (1 + 2 * (0 + 1) / 2 + 3 * (0 + 2) / 2) :=
  ⟨fun _ _ => rfl,
   (doubleIntegrate_midpoint_rule (K := ℚ) (fun _ => "") (fun _ x y => 1 + 2 * x + 3 * y)
      (fun _ => "") xPlusSinX 0 1 0 2).2 1 2 3 (fun _ _ => rfl)⟩

/-- Claim C37: agreement of the two differentiators away from `TAN`. For every
tree without a `TAN` node, `differentiateImplicit(e, true)` is the tree of
`differentiate(e, X)` and `differentiateImplicit(e, false)` that of
`differentiate(e, Y)`. -/
theorem differentiators_agree_without_tan (ts : ASTNode → String) (e : ASTNode)
    (h : containsTan e = false) :
    differentiateImplicit e true = (differentiate ts e DiffVariable.X).1 ∧
    differentiateImplicit e false = (differentiate ts e DiffVariable.Y).1 :=
  ⟨by simpa [differentiate] using differentiateImplicit_eq_differentiateNode ts true e h,
   by simpa [differentiate] using differentiateImplicit_eq_differentiateNode ts false e h⟩

/-- Claim C37 at the circle `x^2 + y^2 - 1`. -/
theorem differentiators_agree_without_tan_witness :
    containsTan circle = false ∧
    differentiateImplicit circle true = (differentiate (fun _ => "") circle DiffVariable.X).1 :=
  ⟨by decide, (differentiators_agree_without_tan (fun _ => "") circle (by decide)).1⟩

/-- Claim C38: the literal-exponent invariant is preserved. If every `POW` node
of `e` has a literal exponent, so has every `POW` node of `differentiate(e, v)`,
of `integrate(e, v)`, and of every iterated derivative of `e`; the default
branch of `differentiateNode`, taken only at a `POW` node with a non-literal
exponent, is therefore not reached. -/
theorem literal_exponents_preserved (ts : ASTNode → String) (var : DiffVariable)
    (iv : IntegrationVariable) (e : ASTNode) (h : literalExponents e = true) :
    literalExponents (differentiate ts e var).1 = true ∧
    literalExponents (integrate ts e iv).1 = true ∧
    (∀ k : ℕ, literalExponents ((fun t => (differentiate ts t var).1)^[k] e) = true) := by
  have hd : ∀ t : ASTNode, literalExponents t = true →
      literalExponents (differentiate ts t var).1 = true :=
    fun t ht => by simpa [differentiate] using literalExponents_differentiateNode ts var t ht
  refine ⟨hd e h, ?_, fun k => ?_⟩
  · simpa [integrate] using literalExponents_integrateNode ts iv e h
  · induction k with
    | zero => simpa using h
    | succ k ih =>
        rw [Function.iterate_succ_apply']
        exact hd _ ih

/-- Claim C38 at the third derivative of the circle in `x`. -/
theorem literal_exponents_preserved_witness :
    literalExponents circle = true ∧
    literalExponents
      ((fun t => (differentiate (fun _ => "") t DiffVariable.X).1)^[3] circle) = true :=
  ⟨by decide,
   (literal_exponents_preserved (fun _ => "") DiffVariable.X IntegrationVariable.X circle
      (by decide)).2.2 3⟩

/-- Claim C39: index safety of the descriptive statistics. On a non-empty
vector `analyzeDataSet` completes without an out-of-bounds read, an extremum of
an empty range or a division by a zero size; the indices read by the median
and by the quartile step are below the size `n`. On the empty vector the run
is flagged. -/
theorem analyzeDataSet_index_safe {K : Type} [LinearOrderedField K] (fmt : DoubleText K)
    (sqrt : K → K) (data : List K) (h : data ≠ []) :
    (analyzeDataSet fmt sqrt data).isSome = true ∧
    (mean data).isSome = true ∧
    (median data).isSome = true ∧
    (∀ m : K, (variance data m).isSome = true) ∧
    data.min?.isSome = true ∧ data.max?.isSome = true ∧
    (data.length % 2 = 0 →
      (data.length / 2 + 2 ^ 64 - 1) % 2 ^ 64 < data.length ∧ data.length / 2 < data.length ∧
      (data.length < 2 ^ 64 → (data.length / 2 + 2 ^ 64 - 1) % 2 ^ 64 = data.length / 2 - 1)) ∧
    (data.length % 2 ≠ 0 → data.length / 2 < data.length) ∧
    (data.length ≥ 4 →
      data.length / 4 < data.length ∧ 3 * data.length % 2 ^ 64 / 4 < data.length ∧
      (3 * data.length < 2 ^ 64 → 3 * data.length % 2 ^ 64 / 4 = 3 * data.length / 4)) ∧
    (data.length : K) ≠ 0 ∧
    analyzeDataSet fmt sqrt ([] : List K) = none := by
  have hn : 0 < data.length := List.length_pos.mpr h
  have hn0 : data.length ≠ 0 := by omega
  obtain ⟨steps, hsteps⟩ := analyzeDataSet_isSome fmt sqrt data h
  obtain ⟨med, hmed⟩ := median_isSome data h
  have hmod : 3 * data.length % 2 ^ 64 ≤ 3 * data.length := Nat.mod_le _ _
  refine ⟨by simp [hsteps], by simp [mean, hn0], by simp [hmed], fun m => by simp [variance, hn0],
    ?_, ?_, fun he => ⟨by omega, by omega, fun hlt => by omega⟩, fun ho => by omega,
    fun h4 => ⟨by omega, by omega, fun hlt => by rw [Nat.mod_eq_of_lt hlt]⟩,
    by exact_mod_cast hn0, ?_⟩
  · obtain ⟨x, xs, rfl⟩ := List.exists_cons_of_ne_nil h
    simp [List.min?_cons']
  · obtain ⟨x, xs, rfl⟩ := List.exists_cons_of_ne_nil h
    simp [List.max?_cons']
  · simp [analyzeDataSet, dataValuesText, mean]

/-- Claim C39 at the vector `3, 1, 2, 5, 4`. -/
theorem analyzeDataSet_index_safe_witness :
    ([3, 1, 2, 5, 4] : List ℚ) ≠ [] ∧
    (analyzeDataSet (K := ℚ) ⟨fun _ _ => "", fun _ => "", fun _ => ""⟩ (fun q => q)
      [3, 1, 2, 5, 4]).isSome = true :=
  ⟨by decide,
   (analyzeDataSet_index_safe (K := ℚ) ⟨fun _ _ => "", fun _ => "", fun _ => ""⟩ (fun q => q)
      [3, 1, 2, 5, 4] (by decide)).1⟩

end NumericClaims

end MathEngine
